import Mathlib

/-!
# Lifecycle span tracker of `xrayport/httptrace.go`

A shallow embedding of `HTTPSpans` and `NewClientTrace`.  The tracker turns the
`httptrace.ClientTrace` callbacks of one HTTP round trip into OpenTracing
spans.  The OpenTracing tracer is an outside library; it is modelled here as an
in-memory recorder in the manner of `mocktracer` (a list of spans, a span
handle being its index, each span keeping its tags, its log records and the
number of `Finish` calls), with the behaviour of `opentracing-go` on the calls
the tracker makes: `StartSpanFromContext` reads the active span of the context
it is given, so it panics on a nil context.

The tracker's mutex only brackets single assignments; in this sequential
embedding every handler runs to completion before the next one starts, so each
`Lock`/`Unlock` pair is balanced inside a handler and the mutex is not part of
the state.  A Go panic is the `Except.error` result.  Which accesses of a
handler lie between `Lock` and `Unlock` is described apart, by the list
`accesses` of the mutex operations and field accesses the handler performs.

The namespace `Objcheck` embeds `validate` and `createObjList` of
`objcheck.go`; the random source of `rand.Intn` is a function from the index
of the draw to a natural number.

Layout: the embedding, then the vocabulary of the properties (phases, the hooks
that open and close them, well-formed states), then the properties.  The
properties about one handler come first; those about sequences of hooks rest on
a family of lemmas `step_*` describing one hook invocation, proved by going
through the ten handlers.
-/

namespace Xrayport

/-- A Go `error`: `none` is `nil`, `some msg` is an error whose `Error()` is `msg`. -/
abbrev GoError := Option String

/-- The text of the run-time panic raised by a method call on a nil interface. -/
def nilDeref : String := "runtime error: invalid memory address or nil pointer dereference"

/-- Scalar values handed to `Span.SetTag` by the tracker. -/
inductive TagValue where
  | bool (b : Bool)
  | str (s : String)
  | uint16 (n : Nat)
  | duration (d : Int)
  deriving DecidableEq

/-- A span as kept by the recording tracer: its operation name, the parent
link fixed at creation, the tags (latest first), the log records in order and
the number of `Finish` calls it has received. -/
structure Span where
  name : String
  parent : Option Nat
  tags : List (String × TagValue) := []
  logs : List (List (String × String)) := []
  finished : Nat := 0
  deriving DecidableEq

/-- A non-nil `context.Context`: `id` stands for the chain of values it was
derived from, `span` is the active span stored under `activeSpanKey`. -/
structure Ctx where
  id : Nat
  span : Option Nat
  deriving DecidableEq

/-- `span.SetTag(key, value)`. -/
def Span.SetTag (sp : Span) (key : String) (value : TagValue) : Span :=
  { sp with tags := (key, value) :: sp.tags }

/-- `span.LogFields(fields...)`. -/
def Span.LogFields (sp : Span) (fields : List (String × String)) : Span :=
  { sp with logs := sp.logs ++ [fields] }

/-- `span.Finish()`. -/
def Span.Finish (sp : Span) : Span :=
  { sp with finished := sp.finished + 1 }

/-- The value of tag `key` on a span (the latest `SetTag` wins). -/
def Span.tag (sp : Span) (key : String) : Option TagValue :=
  sp.tags.lookup key

/-- `opentracing.SpanFromContext(ctx)` for a non-nil `ctx`: the active span, or
nil when the context carries none. -/
def SpanFromContext (ctx : Ctx) : Option Nat := ctx.span

/-- `opentracing.StartSpanFromContext(ctx, operationName)`: it first reads the
active span of `ctx` (a method call on `ctx`, hence a panic when `ctx` is nil),
starts a span that is a child of it, and returns the span together with
`ContextWithSpan(ctx, span)`. -/
def StartSpanFromContext (spans : List Span) (ctx : Option Ctx) (operationName : String) :
    Except String (Nat × Ctx × List Span) :=
  match ctx with
  | none => .error nilDeref
  | some c =>
    .ok (spans.length, { c with span := some spans.length },
      spans ++ [{ name := operationName, parent := SpanFromContext c }])

/-- A method call on the span handle returned by `SpanFromContext`: a panic on
the nil handle, otherwise the update of the recorded span. -/
def onSpan (spans : List Span) (span : Option Nat) (f : Span → Span) :
    Except String (List Span) :=
  match span with
  | none => .error nilDeref
  | some i => .ok (spans.modify f i)

/-- `httptrace.DNSStartInfo`. -/
structure DNSStartInfo where
  Host : String
  deriving DecidableEq

/-- `httptrace.DNSDoneInfo`. -/
structure DNSDoneInfo where
  Addrs : List String
  Err : GoError
  Coalesced : Bool
  deriving DecidableEq

/-- The fields of `tls.ConnectionState` the tracker reads. -/
structure ConnectionState where
  DidResume : Bool
  NegotiatedProtocol : String
  NegotiatedProtocolIsMutual : Bool
  CipherSuite : Nat
  deriving DecidableEq

/-- `httptrace.GotConnInfo` (the connection itself is not read). -/
structure GotConnInfo where
  Reused : Bool
  WasIdle : Bool
  IdleTime : Int
  deriving DecidableEq

/-- `httptrace.WroteRequestInfo`. -/
structure WroteRequestInfo where
  Err : GoError
  deriving DecidableEq

/-- `HTTPSpans`: the operation context and the six phase contexts
(`nil` is `none`). -/
structure HTTPSpans where
  opCtx : Option Ctx
  connCtx : Option Ctx := none
  dnsCtx : Option Ctx := none
  connectCtx : Option Ctx := none
  tlsCtx : Option Ctx := none
  reqCtx : Option Ctx := none
  responseCtx : Option Ctx := none
  deriving DecidableEq

/-- The tracker together with the spans recorded by the tracer. -/
structure State where
  xt : HTTPSpans
  spans : List Span
  deriving DecidableEq

/-- `NewHTTPSpans(opCtx)`. -/
def NewHTTPSpans (opCtx : Option Ctx) : HTTPSpans := { opCtx := opCtx }

/-- `(*HTTPSpans).GetConn`. -/
def HTTPSpans.GetConn (s : State) (_hostPort : String) : Except String State := do
  let (_, ctx, spans) ← StartSpanFromContext s.spans s.xt.opCtx "connect"
  pure { xt := { s.xt with connCtx := some ctx }, spans := spans }

/-- `(*HTTPSpans).DNSStart`. -/
def HTTPSpans.DNSStart (s : State) (_info : DNSStartInfo) : Except String State := do
  let (_, ctx, spans) ← StartSpanFromContext s.spans s.xt.connCtx "dns"
  pure { xt := { s.xt with dnsCtx := some ctx }, spans := spans }

/-- `(*HTTPSpans).DNSDone`. -/
def HTTPSpans.DNSDone (s : State) (info : DNSDoneInfo) : Except String State :=
  match s.xt.dnsCtx with
  | some dnsCtx => do
    let span := SpanFromContext dnsCtx
    let spans ← onSpan s.spans span (·.SetTag "coalesced" (.bool info.Coalesced))
    let spans ← match info.Err with
      | some e => do
        let spans ← onSpan spans span (·.SetTag "error" (.bool true))
        onSpan spans span (·.LogFields [("errors", e)])
      | none => pure spans
    let spans ← onSpan spans span Span.Finish
    pure { s with spans := spans }
  | none => pure s

/-- `(*HTTPSpans).ConnectStart`. -/
def HTTPSpans.ConnectStart (s : State) (_network _addr : String) : Except String State :=
  match s.xt.connCtx with
  | some _ => do
    let (_, ctx, spans) ← StartSpanFromContext s.spans s.xt.connCtx "dial"
    pure { xt := { s.xt with connectCtx := some ctx }, spans := spans }
  | none => pure s

/-- `(*HTTPSpans).ConnectDone`. -/
def HTTPSpans.ConnectDone (s : State) (network _addr : String) (err : GoError) :
    Except String State :=
  match s.xt.connectCtx with
  | some connectCtx => do
    let span := SpanFromContext connectCtx
    let spans ← onSpan s.spans span (·.SetTag "network" (.str network))
    let spans ← match err with
      | some e => do
        let spans ← onSpan spans span (·.SetTag "error" (.bool true))
        onSpan spans span (·.LogFields [("errors", e)])
      | none => pure spans
    let spans ← onSpan spans span Span.Finish
    pure { s with spans := spans }
  | none => pure s

/-- `(*HTTPSpans).TLSHandshakeStart`. -/
def HTTPSpans.TLSHandshakeStart (s : State) : Except String State :=
  match s.xt.connCtx with
  | some _ => do
    let (_, ctx, spans) ← StartSpanFromContext s.spans s.xt.connCtx "tls"
    pure { xt := { s.xt with tlsCtx := some ctx }, spans := spans }
  | none => pure s

/-- `(*HTTPSpans).TLSHandshakeDone`. -/
def HTTPSpans.TLSHandshakeDone (s : State) (connState : ConnectionState) (err : GoError) :
    Except String State :=
  match s.xt.tlsCtx with
  | some tlsCtx => do
    let span := SpanFromContext tlsCtx
    let spans ← onSpan s.spans span (·.SetTag "did_resume" (.bool connState.DidResume))
    let spans ← onSpan spans span
      (·.SetTag "negotiated_protocol" (.str connState.NegotiatedProtocol))
    let spans ← onSpan spans span
      (·.SetTag "negotiated_protocol_is_mutual" (.bool connState.NegotiatedProtocolIsMutual))
    let spans ← onSpan spans span (·.SetTag "cipher_suite" (.uint16 connState.CipherSuite))
    let spans ← match err with
      | some e => do
        let spans ← onSpan spans span (·.SetTag "error" (.bool true))
        onSpan spans span (·.LogFields [("errors", e)])
      | none => pure spans
    let spans ← onSpan spans span Span.Finish
    pure { s with spans := spans }
  | none => pure s

/-- `(*HTTPSpans).GotConn`; `info` is a pointer and may be nil. -/
def HTTPSpans.GotConn (s : State) (info : Option GotConnInfo) (err : GoError) :
    Except String State :=
  match s.xt.connCtx with
  | some connCtx => do
    let span := SpanFromContext connCtx
    let spans ← match info with
      | some info => do
        let spans ← onSpan s.spans span (·.SetTag "reused" (.bool info.Reused))
        let spans ← onSpan spans span (·.SetTag "was_idle" (.bool info.WasIdle))
        if info.WasIdle then
          onSpan spans span (·.SetTag "idle_time" (.duration info.IdleTime))
        else pure spans
      | none => pure s.spans
    let s1 ← match err with
      | some e => do
        let spans ← onSpan spans span (·.SetTag "error" (.bool true))
        let spans ← onSpan spans span (·.LogFields [("errors", e)])
        pure { s with spans := spans }
      | none => do
        let (_, ctx, spans) ← StartSpanFromContext spans s.xt.opCtx "request"
        pure { xt := { s.xt with reqCtx := some ctx }, spans := spans }
    let spans ← onSpan s1.spans span Span.Finish
    pure { s1 with spans := spans }
  | none => pure s

/-- `(*HTTPSpans).WroteRequest`. -/
def HTTPSpans.WroteRequest (s : State) (info : WroteRequestInfo) : Except String State := do
  let s1 ← match s.xt.reqCtx with
    | some reqCtx => do
      let span := SpanFromContext reqCtx
      let spans ← match info.Err with
        | some e => do
          let spans ← onSpan s.spans span (·.SetTag "error" (.bool true))
          onSpan spans span (·.LogFields [("errors", e)])
        | none => pure s.spans
      let spans ← onSpan spans span Span.Finish
      let (_, resCtx, spans) ← StartSpanFromContext spans s.xt.opCtx "response"
      pure { xt := { s.xt with responseCtx := some resCtx }, spans := spans }
    | none => pure s
  match s1.xt.connCtx with
  | some connCtx => do
    let spans ← onSpan s1.spans (SpanFromContext connCtx) Span.Finish
    pure { s1 with spans := spans }
  | none => pure s1

/-- `(*HTTPSpans).GotFirstResponseByte`. -/
def HTTPSpans.GotFirstResponseByte (s : State) : Except String State :=
  match s.xt.responseCtx with
  | some resCtx => do
    let spans ← onSpan s.spans (SpanFromContext resCtx) Span.Finish
    pure { s with spans := spans }
  | none => pure s

/-- The callback table `httptrace.ClientTrace`, each slot acting on the state
of the tracker it is bound to. -/
structure HookTable where
  GetConn : State → String → Except String State
  DNSStart : State → DNSStartInfo → Except String State
  DNSDone : State → DNSDoneInfo → Except String State
  ConnectStart : State → String → String → Except String State
  ConnectDone : State → String → String → GoError → Except String State
  TLSHandshakeStart : State → Except String State
  TLSHandshakeDone : State → ConnectionState → GoError → Except String State
  GotConn : State → GotConnInfo → Except String State
  WroteRequest : State → WroteRequestInfo → Except String State
  GotFirstResponseByte : State → Except String State

/-- `ClientTrace`: the tracker and the callback table bound to it. -/
structure ClientTrace where
  spans : HTTPSpans
  httpTrace : HookTable

/-- `NewClientTrace(opCtx)`, run against the spans `recorded` so far by the
tracer: the result, and the recorded spans afterwards. -/
def NewClientTrace (recorded : List Span) (opCtx : Option Ctx) :
    Except String ClientTrace × List Span :=
  match opCtx with
  | none => (.error "opCtx must be non-nil", recorded)
  | some _ =>
    let spans := NewHTTPSpans opCtx
    (.ok {
      spans := spans
      httpTrace := {
        GetConn := fun s hostPort => HTTPSpans.GetConn s hostPort
        DNSStart := fun s info => HTTPSpans.DNSStart s info
        DNSDone := fun s info => HTTPSpans.DNSDone s info
        ConnectStart := fun s network addr => HTTPSpans.ConnectStart s network addr
        ConnectDone := fun s network addr err => HTTPSpans.ConnectDone s network addr err
        TLSHandshakeStart := fun s => HTTPSpans.TLSHandshakeStart s
        TLSHandshakeDone := fun s connState err => HTTPSpans.TLSHandshakeDone s connState err
        GotConn := fun s info => HTTPSpans.GotConn s (some info) none
        WroteRequest := fun s info => HTTPSpans.WroteRequest s info
        GotFirstResponseByte := fun s => HTTPSpans.GotFirstResponseByte s } }, recorded)

/-- One invocation of a tracker method with its payload. -/
inductive Hook where
  | getConn (hostPort : String)
  | dnsStart (info : DNSStartInfo)
  | dnsDone (info : DNSDoneInfo)
  | connectStart (network addr : String)
  | connectDone (network addr : String) (err : GoError)
  | tlsHandshakeStart
  | tlsHandshakeDone (connState : ConnectionState) (err : GoError)
  | gotConn (info : Option GotConnInfo) (err : GoError)
  | wroteRequest (info : WroteRequestInfo)
  | gotFirstResponseByte
  deriving DecidableEq

/-- The effect of one hook invocation. -/
def step (s : State) : Hook → Except String State
  | .getConn hostPort => HTTPSpans.GetConn s hostPort
  | .dnsStart info => HTTPSpans.DNSStart s info
  | .dnsDone info => HTTPSpans.DNSDone s info
  | .connectStart network addr => HTTPSpans.ConnectStart s network addr
  | .connectDone network addr err => HTTPSpans.ConnectDone s network addr err
  | .tlsHandshakeStart => HTTPSpans.TLSHandshakeStart s
  | .tlsHandshakeDone connState err => HTTPSpans.TLSHandshakeDone s connState err
  | .gotConn info err => HTTPSpans.GotConn s info err
  | .wroteRequest info => HTTPSpans.WroteRequest s info
  | .gotFirstResponseByte => HTTPSpans.GotFirstResponseByte s

/-- A sequence of hook invocations, stopping at the first panic. -/
def run (s : State) : List Hook → Except String State
  | [] => .ok s
  | h :: hs =>
    match step s h with
    | .ok s1 => run s1 hs
    | .error e => .error e

/-- The state right after `NewHTTPSpans(opCtx)`, the tracer having recorded nothing. -/
def fresh (opCtx : Option Ctx) : State := { xt := NewHTTPSpans opCtx, spans := [] }

/-- The six phases of a round trip, one per phase-context field. -/
inductive Phase where
  | connect
  | dns
  | dial
  | tls
  | request
  | response
  deriving DecidableEq

/-- The phase-context field of a phase. -/
def phaseCtx (xt : HTTPSpans) : Phase → Option Ctx
  | .connect => xt.connCtx
  | .dns => xt.dnsCtx
  | .dial => xt.connectCtx
  | .tls => xt.tlsCtx
  | .request => xt.reqCtx
  | .response => xt.responseCtx

/-- The span a context refers to, when that span is recorded and has not been
finished. -/
def openSpan? (s : State) (ctx : Option Ctx) : Option (Nat × Span) :=
  match ctx with
  | some c =>
    match SpanFromContext c with
    | some i =>
      match s.spans[i]? with
      | some sp => if sp.finished = 0 then some (i, sp) else none
      | none => none
    | none => none
  | none => none

/-- What a done hook with error payload `err` leaves on the span `sp` it
closes, `sp'` being the span afterwards: the `error` tag exactly when the error
is present, one more log record holding its text in that case and none
otherwise, and one `Finish`. -/
def ErrorRecorded (sp sp' : Span) (err : GoError) : Prop :=
  (sp'.tag "error" = some (.bool true) ↔ err ≠ none) ∧
  (∀ e, err = some e → sp'.logs = sp.logs ++ [[("errors", e)]]) ∧
  (err = none → sp'.tag "error" = none ∧ sp'.logs = sp.logs) ∧
  sp'.finished = 1

/-- A phase context, when present, carries a span the tracer has recorded. -/
def ctxResolves (spans : List Span) : Option Ctx → Bool
  | none => true
  | some c =>
    match SpanFromContext c with
    | some i => decide (i < spans.length)
    | none => false

/-- The states a tracker built on a non-nil operation context can be in: the
operation context is present, every phase context that is set was returned by
`StartSpanFromContext` (so it carries a recorded span), and a span that has not
been finished has received neither tag nor log. -/
def WellFormed (s : State) : Bool :=
  s.xt.opCtx.isSome &&
  ctxResolves s.spans s.xt.connCtx && ctxResolves s.spans s.xt.dnsCtx &&
  ctxResolves s.spans s.xt.connectCtx && ctxResolves s.spans s.xt.tlsCtx &&
  ctxResolves s.spans s.xt.reqCtx && ctxResolves s.spans s.xt.responseCtx &&
  s.spans.all (fun sp => sp.finished != 0 || (sp.tags.isEmpty && sp.logs.isEmpty))

/-- A parent context without an active span, such as `context.Background()`. -/
def background : Ctx := { id := 0, span := none }

/-- The state after `GetConn` on a fresh tracker under `background`. -/
def afterGetConn : State :=
  { xt := { opCtx := some background, connCtx := some { id := 0, span := some 0 } },
    spans := [{ name := "connect", parent := none }] }

/-- The state after `GetConn` and `DNSStart`, `ConnectStart`, `TLSHandshakeStart`
on a fresh tracker under `background`. -/
def afterStarts : State :=
  { xt := { opCtx := some background, connCtx := some { id := 0, span := some 0 },
            dnsCtx := some { id := 0, span := some 1 },
            connectCtx := some { id := 0, span := some 2 },
            tlsCtx := some { id := 0, span := some 3 } },
    spans := [{ name := "connect", parent := none }, { name := "dns", parent := some 0 },
              { name := "dial", parent := some 0 }, { name := "tls", parent := some 0 }] }

/-- The phase whose context field a hook assigns (with the context of the span
it opens). -/
def opens : Hook → Phase → Bool
  | .getConn _, .connect => true
  | .dnsStart _, .dns => true
  | .connectStart _ _, .dial => true
  | .tlsHandshakeStart, .tls => true
  | .gotConn _ none, .request => true
  | .wroteRequest _, .response => true
  | _, _ => false

/-- The phases whose span a hook finishes. -/
def closes : Hook → Phase → Bool
  | .dnsDone _, .dns => true
  | .connectDone _ _ _, .dial => true
  | .tlsHandshakeDone _ _, .tls => true
  | .gotConn _ _, .connect => true
  | .wroteRequest _, .request => true
  | .wroteRequest _, .connect => true
  | .gotFirstResponseByte, .response => true
  | _, _ => false

/-- In the hooks still to come, a hook closing phase `p` arrives before any
hook that opens `p` again. -/
def closedLater (p : Phase) : List Hook → Bool
  | [] => false
  | h :: rest => closes h p || (!opens h p && closedLater p rest)

/-- Every hook of the sequence that opens a phase is followed by a hook closing
that phase, with no hook opening the same phase in between. -/
def everyOpenClosed : List Hook → Bool
  | [] => true
  | h :: rest =>
    [Phase.connect, .dns, .dial, .tls, .request, .response].all
      (fun p => !opens h p || closedLater p rest) && everyOpenClosed rest

/-- The span named by the context of a phase. -/
def phaseSpan (xt : HTTPSpans) (p : Phase) : Option Nat :=
  (phaseCtx xt p).bind SpanFromContext

/-- The operation name of the span opened for a phase. -/
def phaseName : Phase → String
  | .connect => "connect"
  | .dns => "dns"
  | .dial => "dial"
  | .tls => "tls"
  | .request => "request"
  | .response => "response"

/-- The context handed to `StartSpanFromContext` when the span of a phase is
opened: the connect context for dns, dial and tls, the operation context for
connect, request and response. -/
def parentCtx (xt : HTTPSpans) : Phase → Option Ctx
  | .dns => xt.connCtx
  | .dial => xt.connCtx
  | .tls => xt.connCtx
  | .connect => xt.opCtx
  | .request => xt.opCtx
  | .response => xt.opCtx

/-- In the hooks still to come, no hook closes phase `p` before a hook opens
`p` again. -/
def noCloseUntilOpen (p : Phase) : List Hook → Bool
  | [] => true
  | h :: rest => !closes h p && (opens h p || noCloseUntilOpen p rest)

/-- No phase other than connect is closed twice without being opened again in
between. -/
def noRepeatedClose : List Hook → Bool
  | [] => true
  | h :: rest =>
    [Phase.dns, .dial, .tls, .request, .response].all
      (fun p => !closes h p || noCloseUntilOpen p rest) && noRepeatedClose rest

/-- A hook other than `GetConn` and `DNSStart`. -/
def neitherGetConnNorDNSStart : Hook → Bool
  | .getConn _ => false
  | .dnsStart _ => false
  | _ => true

/-- The state after `GetConn` and `GotConn` without error: the connect span
finished, the request span open. -/
def afterGotConn : State :=
  { xt := { opCtx := some background, connCtx := some { id := 0, span := some 0 },
            reqCtx := some { id := 0, span := some 1 } },
    spans := [{ name := "connect", parent := none, finished := 1 },
              { name := "request", parent := none }] }

/-- The fields of `HTTPSpans` (the mutex apart). -/
inductive Field where
  | opCtx
  | connCtx
  | dnsCtx
  | connectCtx
  | tlsCtx
  | reqCtx
  | responseCtx
  deriving DecidableEq

/-- The six phase-context fields, that is every field but `opCtx`. -/
def Field.isPhaseCtx : Field → Bool
  | .opCtx => false
  | _ => true

/-- What a handler does to the tracker itself: an operation on `xt.mu` or an
access to a field of `xt`. -/
inductive Access where
  | lock
  | unlock
  | read (f : Field)
  | write (f : Field)
  deriving DecidableEq

/-- The accesses of the guarded block of a done-style handler
(`if ctx != nil { span := SpanFromContext(ctx) ... }`): the test reads the
field and, when it is not nil, the body reads it again. -/
def guardedBlock (f : Field) (ctx : Option Ctx) (body : List Access) : List Access :=
  match ctx with
  | none => [.read f]
  | some _ => [.read f, .read f] ++ body

/-- The accesses of `StartSpanFromContext(xt.parent, ...)` followed by the
assignment `assign` of the returned context; the assignment is not reached
when the parent context is nil, the call panicking. -/
def startAndAssign (parent : Field) (ctx : Option Ctx) (assign : List Access) : List Access :=
  match ctx with
  | none => [.read parent]
  | some _ => .read parent :: assign

/-- The mutex operations and field accesses of each handler, in program order,
up to the first panic if there is one.  A deferred `Unlock` runs at the end of
the handler, also when it panics. -/
def accesses (xt : HTTPSpans) : Hook → List Access
  | .getConn _ => startAndAssign .opCtx xt.opCtx [.write .connCtx]
  | .dnsStart _ => [.lock] ++ startAndAssign .connCtx xt.connCtx [.write .dnsCtx] ++ [.unlock]
  | .dnsDone _ => guardedBlock .dnsCtx xt.dnsCtx []
  | .connectStart _ _ =>
    [.lock] ++
      (match xt.connCtx with
        | none => [.read .connCtx]
        | some _ => .read .connCtx :: startAndAssign .connCtx xt.connCtx [.write .connectCtx])
      ++ [.unlock]
  | .connectDone _ _ _ => guardedBlock .connectCtx xt.connectCtx []
  | .tlsHandshakeStart =>
    match xt.connCtx with
    | none => [.read .connCtx]
    | some _ => .read .connCtx :: startAndAssign .connCtx xt.connCtx [.write .tlsCtx]
  | .tlsHandshakeDone _ _ => guardedBlock .tlsCtx xt.tlsCtx []
  | .gotConn info err =>
    guardedBlock .connCtx xt.connCtx
      (match xt.connCtx.bind SpanFromContext, info, err with
        | none, some _, _ => []
        | none, none, some _ => []
        | _, _, some _ => []
        | _, _, none => startAndAssign .opCtx xt.opCtx [.write .reqCtx])
  | .wroteRequest _ =>
    (match xt.reqCtx with
      | none => [.read .reqCtx, .read .connCtx] ++
          (match xt.connCtx with
            | none => []
            | some _ => [.read .connCtx])
      | some r =>
        [.read .reqCtx, .read .reqCtx] ++
          (match SpanFromContext r, xt.opCtx with
            | none, _ => []
            | some _, none => [.read .opCtx]
            | some _, some _ =>
              [.read .opCtx, .lock, .write .responseCtx, .unlock, .read .connCtx] ++
                (match xt.connCtx with
                  | none => []
                  | some _ => [.read .connCtx])))
  | .gotFirstResponseByte => [.lock, .read .responseCtx, .unlock]

/-- With the mutex held or not at the start, every access to a phase-context
field in the sequence happens while the mutex is held. -/
def lockGuardedFrom : Bool → List Access → Bool
  | _, [] => true
  | _, .lock :: rest => lockGuardedFrom true rest
  | _, .unlock :: rest => lockGuardedFrom false rest
  | held, .read f :: rest => (held || !f.isPhaseCtx) && lockGuardedFrom held rest
  | held, .write f :: rest => (held || !f.isPhaseCtx) && lockGuardedFrom held rest

/-- Every access to a phase-context field lies between a `Lock` and the
matching `Unlock`, the mutex being free at the start. -/
def lockGuarded (t : List Access) : Bool := lockGuardedFrom false t

end Xrayport

/-! # Request validation and object keys of `objcheck.go` -/

namespace Objcheck

open Xrayport

/-- `services`: the supported cloud services. -/
def services : List (String × Bool) := [("gcs", true), ("s3", true)]

/-- `bucketRegions`: the supported bucket regions, each with its service. -/
def bucketRegions : List (String × String) :=
  [("us-central1", "gcs"), ("us-east1", "gcs"), ("europe-west2", "gcs"), ("asia-east2", "gcs"),
   ("us-east-2", "s3"), ("us-west-2", "s3"), ("us-east-1", "s3"), ("eu-west-2", "s3")]

/-- `objCheckRequest`; a Go `int` is an integer, no arithmetic being done on the
fields. -/
structure objCheckRequest where
  Service : String
  Region : String
  Pool : Int
  Count : Int
  deriving DecidableEq

/-- `objCheckRequest.validate`; indexing a Go map gives the zero value for a
missing key, and `%v` prints a string as it is and an `int` in decimal. -/
def objCheckRequest.validate (ocr : objCheckRequest) : GoError :=
  if !((services.lookup ocr.Service).getD false) then
    some ("Bad service " ++ ocr.Service)
  else if (bucketRegions.lookup ocr.Region).getD "" = "" then
    some ("Bad region " ++ ocr.Region)
  else if (bucketRegions.lookup ocr.Region).getD "" ≠ ocr.Service then
    some ("Bad service / region combination: " ++ ocr.Service ++ " and " ++ ocr.Region)
  else if ocr.Pool ≠ 10 then
    some ("Bad pool " ++ toString ocr.Pool)
  else if ocr.Count < 1 ∨ ocr.Count > 1000 then
    some "Bad count"
  else
    none

/-- `rand.Intn(n)`, `draw` being the outcome of the random source at this
call: a panic when `n <= 0`, otherwise a value in `[0, n)`. -/
def Intn (draw : Nat) (n : Int) : Except String Int :=
  if n ≤ 0 then .error "invalid argument to Intn" else .ok (Int.ofNat (draw % n.toNat))

/-- The object key `fmt.Sprintf("%v_%v_%v.obj", poolSize, objectID, size)`. -/
def objectKey (poolSize objectID : Int) (size : String) : String :=
  toString poolSize ++ "_" ++ toString objectID ++ "_" ++ size ++ ".obj"

/-- The loop of `createObjList` with `n` iterations left, `i` being the loop
counter and `src i` the outcome of the random source in iteration `i`. -/
def objLoop (src : Nat → Nat) (poolSize : Int) (size : String) :
    Nat → Nat → List String → Except String (List String)
  | 0, _, objects => .ok objects
  | n + 1, i, objects =>
    match Intn (src i) (poolSize - 1) with
    | .error e => .error e
    | .ok r => objLoop src poolSize size n (i + 1) (objects ++ [objectKey poolSize (r + 1) size])

/-- `createObjList(ctx, poolSize, count, size)`, run against the spans
`recorded` so far by the tracer and the random source `src`: the returned list
and error together with the spans recorded afterwards, or a panic.  The span
opened at entry is finished by the deferred `Finish` on every normal return. -/
def createObjList (src : Nat → Nat) (recorded : List Span) (ctx : Option Ctx)
    (poolSize count : Int) (size : String) :
    Except String ((List String × GoError) × List Span) := do
  let (span, _, spans) ← StartSpanFromContext recorded ctx "createObjList"
  if poolSize ≤ 0 then
    let spans ← onSpan spans (some span) (·.SetTag "error" (.bool true))
    let spans ← onSpan spans (some span) (·.LogFields [("event", "Bad pool size")])
    let spans ← onSpan spans (some span) Span.Finish
    pure (([], some "Bad pool size"), spans)
  else
    let objects ← objLoop src poolSize size count.toNat 0 []
    let spans ← onSpan spans (some span) Span.Finish
    pure ((objects, none), spans)

end Objcheck

namespace Xrayport

/-! ## Properties -/

theorem openSpan?_eq_some {s : State} {ctx : Option Ctx} {i : Nat} {sp : Span}
    (h : openSpan? s ctx = some (i, sp)) :
    ∃ c, ctx = some c ∧ c.span = some i ∧ s.spans[i]? = some sp ∧ sp.finished = 0 := by
  unfold openSpan? SpanFromContext at h
  split at h
  · rename_i c
    split at h
    · rename_i j hj
      split at h
      · rename_i sp0 hsp
        split at h
        · rename_i hf
          simp only [Option.some.injEq, Prod.mk.injEq] at h
          obtain ⟨rfl, rfl⟩ := h
          exact ⟨c, rfl, hj, hsp, hf⟩
        · simp at h
      · simp at h
    · simp at h
  · simp at h

@[simp] theorem Span.tag_SetTag (sp : Span) (k k' : String) (v : TagValue) :
    (sp.SetTag k v).tag k' = if k' = k then some v else sp.tag k' := by
  by_cases h : k' = k
  · subst h; simp [Span.SetTag, Span.tag, List.lookup]
  · have hb : (k' == k) = false := by simpa using h
    simp [Span.SetTag, Span.tag, List.lookup, hb, h]

@[simp] theorem Span.tag_LogFields (sp : Span) (k : String) (f : List (String × String)) :
    (sp.LogFields f).tag k = sp.tag k := rfl

@[simp] theorem Span.tag_Finish (sp : Span) (k : String) : sp.Finish.tag k = sp.tag k := rfl

@[simp] theorem Span.finished_SetTag (sp : Span) (k : String) (v : TagValue) :
    (sp.SetTag k v).finished = sp.finished := rfl

@[simp] theorem Span.finished_LogFields (sp : Span) (f : List (String × String)) :
    (sp.LogFields f).finished = sp.finished := rfl

@[simp] theorem Span.finished_Finish (sp : Span) : sp.Finish.finished = sp.finished + 1 := rfl

@[simp] theorem Span.logs_SetTag (sp : Span) (k : String) (v : TagValue) :
    (sp.SetTag k v).logs = sp.logs := rfl

@[simp] theorem Span.logs_LogFields (sp : Span) (f : List (String × String)) :
    (sp.LogFields f).logs = sp.logs ++ [f] := rfl

@[simp] theorem Span.logs_Finish (sp : Span) : sp.Finish.logs = sp.logs := rfl

@[simp] theorem Span.name_SetTag (sp : Span) (k : String) (v : TagValue) :
    (sp.SetTag k v).name = sp.name := rfl

@[simp] theorem Span.name_LogFields (sp : Span) (f : List (String × String)) :
    (sp.LogFields f).name = sp.name := rfl

@[simp] theorem Span.name_Finish (sp : Span) : sp.Finish.name = sp.name := rfl

@[simp] theorem Span.parent_SetTag (sp : Span) (k : String) (v : TagValue) :
    (sp.SetTag k v).parent = sp.parent := rfl

@[simp] theorem Span.parent_LogFields (sp : Span) (f : List (String × String)) :
    (sp.LogFields f).parent = sp.parent := rfl

@[simp] theorem Span.parent_Finish (sp : Span) : sp.Finish.parent = sp.parent := rfl

/-- C3: a closing hook whose phase context is absent is a no-op.  `DNSDone`
without a dns context, `ConnectDone` without a dial context, `TLSHandshakeDone`
without a tls context, `GotConn` without a connect context and
`GotFirstResponseByte` without a response context each return normally with the
state (every context field, every recorded span) exactly as it was, whatever
the payload. -/
theorem done_without_start_noop (s : State) :
    (s.xt.dnsCtx = none → ∀ info, HTTPSpans.DNSDone s info = .ok s) ∧
    (s.xt.connectCtx = none →
      ∀ network addr err, HTTPSpans.ConnectDone s network addr err = .ok s) ∧
    (s.xt.tlsCtx = none →
      ∀ connState err, HTTPSpans.TLSHandshakeDone s connState err = .ok s) ∧
    (s.xt.connCtx = none → ∀ info err, HTTPSpans.GotConn s info err = .ok s) ∧
    (s.xt.responseCtx = none → HTTPSpans.GotFirstResponseByte s = .ok s) := by
  refine ⟨?_, ?_, ?_, ?_, ?_⟩
  · intro h _; simp [HTTPSpans.DNSDone, h]; rfl
  · intro h _ _ _; simp [HTTPSpans.ConnectDone, h]; rfl
  · intro h _ _; simp [HTTPSpans.TLSHandshakeDone, h]; rfl
  · intro h _ _; simp [HTTPSpans.GotConn, h]; rfl
  · intro h; simp [HTTPSpans.GotFirstResponseByte, h]; rfl

/-- Witness of C3: on a tracker that has only seen `GetConn` the three done
hooks and `GotFirstResponseByte` change nothing, and on a fresh tracker
`GotConn` changes nothing. -/
theorem done_without_start_noop_witness :
    HTTPSpans.DNSDone afterGetConn ⟨[], some "no such host", false⟩ = .ok afterGetConn ∧
    HTTPSpans.ConnectDone afterGetConn "tcp" "1.2.3.4:443" (some "refused") = .ok afterGetConn ∧
    HTTPSpans.TLSHandshakeDone afterGetConn ⟨false, "h2", true, 4865⟩ none = .ok afterGetConn ∧
    HTTPSpans.GotConn (fresh (some background)) (some ⟨true, true, 5⟩) none
      = .ok (fresh (some background)) ∧
    HTTPSpans.GotFirstResponseByte afterGetConn = .ok afterGetConn :=
  ⟨(done_without_start_noop afterGetConn).1 rfl _,
   (done_without_start_noop afterGetConn).2.1 rfl _ _ _,
   (done_without_start_noop afterGetConn).2.2.1 rfl _ _,
   (done_without_start_noop (fresh (some background))).2.2.2.1 rfl _ _,
   (done_without_start_noop afterGetConn).2.2.2.2 rfl⟩

/-- C4: when the dns (dial, tls) span is open and has no `error` tag,
`DNSDone` (`ConnectDone`, `TLSHandshakeDone`) returns normally and leaves that
span finished, with the tag `error=true` exactly when the payload's error is
present, with one more log record `errors=<text>` when it is present, and with
neither an `error` tag nor a new log record when it is absent. -/
theorem done_records_error_iff_present (s : State) (i : Nat) (sp : Span) :
    (openSpan? s s.xt.dnsCtx = some (i, sp) → sp.tag "error" = none →
      ∀ info, ∃ s' sp', HTTPSpans.DNSDone s info = .ok s' ∧ s'.spans[i]? = some sp' ∧
        ErrorRecorded sp sp' info.Err) ∧
    (openSpan? s s.xt.connectCtx = some (i, sp) → sp.tag "error" = none →
      ∀ network addr err, ∃ s' sp', HTTPSpans.ConnectDone s network addr err = .ok s' ∧
        s'.spans[i]? = some sp' ∧ ErrorRecorded sp sp' err) ∧
    (openSpan? s s.xt.tlsCtx = some (i, sp) → sp.tag "error" = none →
      ∀ connState err, ∃ s' sp', HTTPSpans.TLSHandshakeDone s connState err = .ok s' ∧
        s'.spans[i]? = some sp' ∧ ErrorRecorded sp sp' err) := by
  refine ⟨?_, ?_, ?_⟩
  · intro h ht info
    obtain ⟨c, hc, hi, hsp, hf⟩ := openSpan?_eq_some h
    cases he : info.Err <;>
      simp [HTTPSpans.DNSDone, hc, he, onSpan, SpanFromContext, hi, bind, Except.bind, pure,
        Except.pure, List.getElem?_modify, hsp, hf, ErrorRecorded, ht]
  · intro h ht network addr err
    obtain ⟨c, hc, hi, hsp, hf⟩ := openSpan?_eq_some h
    cases he : err <;>
      simp [HTTPSpans.ConnectDone, hc, onSpan, SpanFromContext, hi, bind, Except.bind, pure,
        Except.pure, List.getElem?_modify, hsp, hf, ErrorRecorded, ht]
  · intro h ht connState err
    obtain ⟨c, hc, hi, hsp, hf⟩ := openSpan?_eq_some h
    cases he : err <;>
      simp [HTTPSpans.TLSHandshakeDone, hc, onSpan, SpanFromContext, hi, bind, Except.bind,
        pure, Except.pure, List.getElem?_modify, hsp, hf, ErrorRecorded, ht]

/-- Witness of C4: the three done hooks on a tracker whose dns, dial and tls
spans are open, with a failed lookup, a clean dial and a failed handshake. -/
theorem done_records_error_iff_present_witness :
    (∃ s' sp', HTTPSpans.DNSDone afterStarts ⟨[], some "no such host", false⟩ = .ok s' ∧
      s'.spans[1]? = some sp' ∧
      ErrorRecorded { name := "dns", parent := some 0 } sp' (some "no such host")) ∧
    (∃ s' sp', HTTPSpans.ConnectDone afterStarts "tcp" "1.2.3.4:443" none = .ok s' ∧
      s'.spans[2]? = some sp' ∧ ErrorRecorded { name := "dial", parent := some 0 } sp' none) ∧
    (∃ s' sp', HTTPSpans.TLSHandshakeDone afterStarts ⟨false, "h2", true, 4865⟩
        (some "bad certificate") = .ok s' ∧
      s'.spans[3]? = some sp' ∧
      ErrorRecorded { name := "tls", parent := some 0 } sp' (some "bad certificate")) :=
  ⟨(done_records_error_iff_present afterStarts 1 { name := "dns", parent := some 0 }).1
      rfl rfl ⟨[], some "no such host", false⟩,
   (done_records_error_iff_present afterStarts 2 { name := "dial", parent := some 0 }).2.1
      rfl rfl "tcp" "1.2.3.4:443" none,
   (done_records_error_iff_present afterStarts 3 { name := "tls", parent := some 0 }).2.2
      rfl rfl ⟨false, "h2", true, 4865⟩ (some "bad certificate")⟩

theorem ctxResolves_some {spans : List Span} {c : Ctx} (h : ctxResolves spans (some c) = true) :
    ∃ i, c.span = some i ∧ i < spans.length := by
  cases hcs : c.span with
  | none => simp [ctxResolves, SpanFromContext, hcs] at h
  | some i => exact ⟨i, rfl, by simpa [ctxResolves, SpanFromContext, hcs] using h⟩

theorem WellFormed_iff (s : State) :
    WellFormed s = true ↔
      (∃ op, s.xt.opCtx = some op) ∧ (∀ p, ctxResolves s.spans (phaseCtx s.xt p) = true) ∧
      ∀ sp ∈ s.spans, sp.finished = 0 → sp.tags = [] ∧ sp.logs = [] := by
  simp only [WellFormed, Bool.and_eq_true, Option.isSome_iff_exists, List.all_eq_true,
    Bool.or_eq_true, bne_iff_ne, ne_eq, List.isEmpty_iff]
  constructor
  · rintro ⟨⟨⟨⟨⟨⟨⟨h0, h1⟩, h2⟩, h3⟩, h4⟩, h5⟩, h6⟩, h7⟩
    refine ⟨h0, ?_, ?_⟩
    · intro p; cases p <;> assumption
    · intro sp hsp hf
      rcases h7 sp hsp with h | h
      · exact absurd hf h
      · exact h
  · rintro ⟨h0, h1, h2⟩
    refine ⟨⟨⟨⟨⟨⟨⟨h0, h1 .connect⟩, h1 .dns⟩, h1 .dial⟩, h1 .tls⟩, h1 .request⟩,
      h1 .response⟩, ?_⟩
    intro sp hsp
    by_cases hf : sp.finished = 0
    · exact Or.inr (h2 sp hsp hf)
    · exact Or.inl hf

/-- C8: on a well-formed state whose connect span is open, `WroteRequest`
returns normally and leaves that span finished (same name, same parent), for
every payload and whether or not a request context is present; it is finished
exactly once unless the request context names the very same span. -/
theorem wroteRequest_finishes_open_connect (s : State) (i : Nat) (sp : Span)
    (hwf : WellFormed s = true) (h : openSpan? s s.xt.connCtx = some (i, sp))
    (info : WroteRequestInfo) :
    ∃ s' sp', HTTPSpans.WroteRequest s info = .ok s' ∧ s'.spans[i]? = some sp' ∧
      0 < sp'.finished ∧ sp'.name = sp.name ∧ sp'.parent = sp.parent ∧
      (s.xt.reqCtx.bind SpanFromContext ≠ some i → sp'.finished = 1) := by
  obtain ⟨c, hc, hi, hsp, hf⟩ := openSpan?_eq_some h
  obtain ⟨⟨op, hop⟩, hres, -⟩ := (WellFormed_iff s).1 hwf
  obtain ⟨hlt, hget⟩ := List.getElem?_eq_some.1 hsp
  cases hr : s.xt.reqCtx with
  | none =>
    simp [HTTPSpans.WroteRequest, hr, hc, onSpan, SpanFromContext, hi, bind, Except.bind, pure,
      Except.pure, List.getElem?_modify, hsp, hf]
  | some r =>
    obtain ⟨j, hj, hjlt⟩ := ctxResolves_some (by simpa [phaseCtx, hr] using hres .request)
    cases he : info.Err <;>
      by_cases hji : j = i <;>
      simp [HTTPSpans.WroteRequest, hr, hc, onSpan, SpanFromContext, hi, hj, bind, Except.bind,
        pure, Except.pure, List.getElem?_modify, hsp, hf, StartSpanFromContext, hop, he,
        List.getElem?_append, hlt, hji, hget]

/-- Witness of C8: `WroteRequest` right after `GetConn`, `GotConn` never having
been invoked and no request context being present. -/
theorem wroteRequest_finishes_open_connect_witness :
    ∃ s' sp', HTTPSpans.WroteRequest afterGetConn ⟨some "broken pipe"⟩ = .ok s' ∧
      s'.spans[0]? = some sp' ∧ 0 < sp'.finished ∧ sp'.name = "connect" := by
  obtain ⟨s', sp', h1, h2, h3, h4, -⟩ :=
    wroteRequest_finishes_open_connect afterGetConn 0 { name := "connect", parent := none }
      rfl rfl ⟨some "broken pipe"⟩
  exact ⟨s', sp', h1, h2, h3, h4⟩

/-- C9: on a well-formed state whose connect span is open, `GotConn` with any
info (reused or not) and any error returns normally; the connect span stays
recorded, is finished once, carries `reused` and `was_idle` with the payload's
values and `idle_time` exactly when `WasIdle` holds; no other recorded span
changes.  With an error present the connect span gets `error=true` and the log
record `errors=<text>`, and neither a span nor a context is added.  With no
error the connect span gets no `error` tag and no log, exactly one span is
added, named `request`, child of the operation context's span, and the request
context is set to it. -/
theorem gotConn_on_open_connect (s : State) (i : Nat) (sp : Span) (op : Ctx)
    (hwf : WellFormed s = true) (h : openSpan? s s.xt.connCtx = some (i, sp))
    (hop : s.xt.opCtx = some op) (info : GotConnInfo) (err : GoError) :
    ∃ s' sp', HTTPSpans.GotConn s (some info) err = .ok s' ∧ s'.spans[i]? = some sp' ∧
      sp'.name = sp.name ∧ sp'.parent = sp.parent ∧ sp'.finished = 1 ∧
      sp'.tag "reused" = some (.bool info.Reused) ∧
      sp'.tag "was_idle" = some (.bool info.WasIdle) ∧
      (sp'.tag "idle_time" = if info.WasIdle then some (.duration info.IdleTime) else none) ∧
      (∀ j, j ≠ i → j < s.spans.length → s'.spans[j]? = s.spans[j]?) ∧
      (∀ e, err = some e →
        sp'.tag "error" = some (.bool true) ∧ sp'.logs = [[("errors", e)]] ∧
        s'.spans.length = s.spans.length ∧ s'.xt = s.xt) ∧
      (err = none →
        sp'.tag "error" = none ∧ sp'.logs = [] ∧
        s'.spans.length = s.spans.length + 1 ∧
        s'.spans[s.spans.length]? = some { name := "request", parent := SpanFromContext op } ∧
        s'.xt = { s.xt with reqCtx := some { op with span := some s.spans.length } }) := by
  obtain ⟨c, hc, hi, hsp, hf⟩ := openSpan?_eq_some h
  obtain ⟨-, -, hpr⟩ := (WellFormed_iff s).1 hwf
  obtain ⟨htags, hlogs⟩ := hpr sp (List.getElem?_mem hsp) hf
  have htag : ∀ k, sp.tag k = none := by intro k; simp [Span.tag, htags]
  obtain ⟨hlt, hget⟩ := List.getElem?_eq_some.1 hsp
  have hne : ∀ j, j ≠ i → ¬ i = j := fun j h1 h2 => h1 h2.symm
  have hne2 : ¬ i = s.spans.length := Nat.ne_of_lt hlt
  cases he : err <;> cases hw : info.WasIdle <;>
    simp +contextual [-List.getElem?_eq_getElem, HTTPSpans.GotConn, hc, onSpan,
      SpanFromContext, hi, bind, Except.bind, pure, Except.pure, List.getElem?_modify, hsp, hf,
      StartSpanFromContext, hop, hw, List.getElem?_append, hlt, htag, hlogs, hne, hne2] <;> rfl

/-- Witness of C9: `GotConn` for a reused, idle connection, without error,
right after `GetConn`. -/
theorem gotConn_on_open_connect_witness :
    ∃ s' sp', HTTPSpans.GotConn afterGetConn (some ⟨true, true, 5⟩) none = .ok s' ∧
      s'.spans[0]? = some sp' ∧ sp'.name = "connect" ∧ sp'.finished = 1 ∧
      sp'.tag "reused" = some (.bool true) ∧ sp'.tag "idle_time" = some (.duration 5) ∧
      s'.spans[1]? = some { name := "request", parent := none } := by
  obtain ⟨s', sp', h1, h2, h3, -, h5, h6, -, h8, -, -, h11⟩ :=
    gotConn_on_open_connect afterGetConn 0 { name := "connect", parent := none } background
      rfl rfl rfl ⟨true, true, 5⟩ none
  exact ⟨s', sp', h1, h2, h3, h5, h6, h8, (h11 rfl).2.2.2.1⟩

/-- C10: `NewClientTrace` fails exactly on the nil parent context.  On every
non-nil parent it returns a tracker whose operation context is that parent and
whose six phase contexts are nil, with every slot of the callback table bound
to the matching tracker method (the `GotConn` slot passing the info and a nil
error); in both cases the tracer's recorded spans are untouched. -/
theorem newClientTrace_contract (recorded : List Span) :
    NewClientTrace recorded none = (.error "opCtx must be non-nil", recorded) ∧
    ∀ op : Ctx, ∃ ct, NewClientTrace recorded (some op) = (.ok ct, recorded) ∧
      ct.spans = { opCtx := some op, connCtx := none, dnsCtx := none, connectCtx := none,
                   tlsCtx := none, reqCtx := none, responseCtx := none } ∧
      ct.httpTrace.GetConn = HTTPSpans.GetConn ∧
      ct.httpTrace.DNSStart = HTTPSpans.DNSStart ∧
      ct.httpTrace.DNSDone = HTTPSpans.DNSDone ∧
      ct.httpTrace.ConnectStart = HTTPSpans.ConnectStart ∧
      ct.httpTrace.ConnectDone = HTTPSpans.ConnectDone ∧
      ct.httpTrace.TLSHandshakeStart = HTTPSpans.TLSHandshakeStart ∧
      ct.httpTrace.TLSHandshakeDone = HTTPSpans.TLSHandshakeDone ∧
      ct.httpTrace.GotConn = (fun s info => HTTPSpans.GotConn s (some info) none) ∧
      ct.httpTrace.WroteRequest = HTTPSpans.WroteRequest ∧
      ct.httpTrace.GotFirstResponseByte = HTTPSpans.GotFirstResponseByte :=
  ⟨rfl, fun _ => ⟨_, rfl, rfl, rfl, rfl, rfl, rfl, rfl, rfl, rfl, rfl, rfl, rfl⟩⟩

/-- C2 (failing input): `DNSStart` as the first hook on a tracker built on a
non-nil parent context panics, `StartSpanFromContext` being handed the nil
connect context. -/
theorem dnsStart_before_getConn_panics (op : Ctx) (info : DNSStartInfo) :
    run (fresh (some op)) [.dnsStart info] = .error nilDeref := rfl

/-- C6 (failing input): after `GetConn`, `GotConn` without error and
`WroteRequest`, the connect span has received `Finish` twice. -/
theorem wroteRequest_refinishes_connect :
    ∃ s sp, run (fresh (some background))
        [.getConn "host:443", .gotConn (some ⟨false, false, 0⟩) none, .wroteRequest ⟨none⟩]
          = .ok s ∧
      s.spans[0]? = some sp ∧ sp.name = "connect" ∧ sp.finished = 2 :=
  ⟨_, _, rfl, rfl, rfl, rfl⟩

set_option linter.unusedTactic false
set_option linter.unreachableTactic false
set_option linter.unnecessarySeqFocus false

/-! ### One hook invocation -/

theorem wf_resolves {s : State} (hwf : WellFormed s = true) {p : Phase} {c : Ctx}
    (hc : phaseCtx s.xt p = some c) : ∃ i, c.span = some i ∧ i < s.spans.length := by
  obtain ⟨-, h, -⟩ := (WellFormed_iff s).1 hwf
  have := h p
  rw [hc] at this
  exact ctxResolves_some this

theorem wf_opCtx {s : State} (hwf : WellFormed s = true) : ∃ op, s.xt.opCtx = some op :=
  ((WellFormed_iff s).1 hwf).1

theorem getElem?_modify_eq_some {l : List Span} {f : Span → Span} {i j : Nat} {b : Span} :
    (l.modify f i)[j]? = some b ↔ ∃ a, l[j]? = some a ∧ b = if i = j then f a else a := by
  rw [List.getElem?_modify]
  cases l[j]? <;> simp [eq_comm]

theorem getElem?_concat_eq_some {l : List Span} {x b : Span} {j : Nat} :
    (l ++ [x])[j]? = some b ↔ (j < l.length ∧ l[j]? = some b) ∨ (j = l.length ∧ b = x) := by
  rw [List.getElem?_append]
  split
  · rename_i h; simp [h]; omega
  · rename_i h
    by_cases hj : j = l.length
    · subst hj; simp [eq_comm]
    · have : j - l.length ≠ 0 := by omega
      obtain ⟨k, hk⟩ := Nat.exists_eq_succ_of_ne_zero this
      simp [hk, hj, h]

/-- A hook assigns no phase context other than the one it opens. -/
theorem step_frame (s s' : State) (h : Hook) (p : Phase) (hs : step s h = .ok s')
    (hp : opens h p = false) : phaseCtx s'.xt p = phaseCtx s.xt p := by
  revert hp
  rcases s with ⟨⟨op, conn, dns, dial, tls, req, resp⟩, spans⟩
  cases h with
  | getConn hostPort =>
    rcases op with _ | op <;>
    simp [step, HTTPSpans.GetConn, bind, Except.bind, pure, Except.pure, onSpan, SpanFromContext,
        StartSpanFromContext] at hs <;>
    subst hs <;>
    (cases p <;> simp [opens, phaseCtx])
  | dnsStart info =>
    rcases conn with _ | ⟨cid, _ | i⟩ <;>
    simp [step, HTTPSpans.DNSStart, bind, Except.bind, pure, Except.pure, onSpan, SpanFromContext,
        StartSpanFromContext] at hs <;>
    subst hs <;>
    (cases p <;> simp [opens, phaseCtx])
  | connectStart nw ad =>
    rcases conn with _ | ⟨cid, _ | i⟩ <;>
    simp [step, HTTPSpans.ConnectStart, bind, Except.bind, pure, Except.pure, onSpan,
        SpanFromContext, StartSpanFromContext] at hs <;>
    subst hs <;>
    (cases p <;> simp [opens, phaseCtx])
  | tlsHandshakeStart =>
    rcases conn with _ | ⟨cid, _ | i⟩ <;>
    simp [step, HTTPSpans.TLSHandshakeStart, bind, Except.bind, pure, Except.pure, onSpan,
        SpanFromContext, StartSpanFromContext] at hs <;>
    subst hs <;>
    (cases p <;> simp [opens, phaseCtx])
  | dnsDone info =>
    rcases dns with _ | ⟨cid, _ | i⟩ <;> rcases info with ⟨ad, _ | e, co⟩ <;>
    simp [step, HTTPSpans.DNSDone, bind, Except.bind, pure, Except.pure, onSpan, SpanFromContext,
        StartSpanFromContext] at hs <;>
    subst hs <;>
    (cases p <;> simp [opens, phaseCtx])
  | connectDone nw ad err =>
    rcases dial with _ | ⟨cid, _ | i⟩ <;> rcases err with _ | e <;>
    simp [step, HTTPSpans.ConnectDone, bind, Except.bind, pure, Except.pure, onSpan,
        SpanFromContext, StartSpanFromContext] at hs <;>
    subst hs <;>
    (cases p <;> simp [opens, phaseCtx])
  | tlsHandshakeDone cs err =>
    rcases tls with _ | ⟨cid, _ | i⟩ <;> rcases err with _ | e <;>
    simp [step, HTTPSpans.TLSHandshakeDone, bind, Except.bind, pure, Except.pure, onSpan,
        SpanFromContext, StartSpanFromContext] at hs <;>
    subst hs <;>
    (cases p <;> simp [opens, phaseCtx])
  | gotFirstResponseByte =>
    rcases resp with _ | ⟨cid, _ | i⟩ <;>
    simp [step, HTTPSpans.GotFirstResponseByte, bind, Except.bind, pure, Except.pure, onSpan,
        SpanFromContext, StartSpanFromContext] at hs <;>
    subst hs <;>
    (cases p <;> simp [opens, phaseCtx])
  | gotConn info err =>
    rcases conn with _ | ⟨cid, _ | i⟩ <;> rcases err with _ | e <;>
    rcases info with _ | ⟨r, _ | _, t⟩ <;> rcases op with _ | op <;>
    simp [step, HTTPSpans.GotConn, bind, Except.bind, pure, Except.pure, onSpan, SpanFromContext,
        StartSpanFromContext] at hs <;>
    subst hs <;>
    (cases p <;> simp [opens, phaseCtx])
  | wroteRequest info =>
    rcases info with ⟨err⟩
    rcases conn with _ | ⟨cid, _ | i⟩ <;> rcases req with _ | ⟨rid, _ | k⟩ <;>
    rcases err with _ | e <;> rcases op with _ | op <;>
    simp [step, HTTPSpans.WroteRequest, bind, Except.bind, pure, Except.pure, onSpan,
        SpanFromContext, StartSpanFromContext] at hs <;>
    subst hs <;>
    (cases p <;> simp [opens, phaseCtx])

/-- No hook assigns the operation context. -/
theorem step_opCtx (s s' : State) (h : Hook) (hs : step s h = .ok s') :
    s'.xt.opCtx = s.xt.opCtx := by
  rcases s with ⟨⟨op, conn, dns, dial, tls, req, resp⟩, spans⟩
  cases h with
  | getConn hostPort =>
    rcases op with _ | op <;>
    simp [step, HTTPSpans.GetConn, bind, Except.bind, pure, Except.pure, onSpan, SpanFromContext,
        StartSpanFromContext] at hs <;>
    subst hs <;>
    rfl
  | dnsStart info =>
    rcases conn with _ | ⟨cid, _ | i⟩ <;>
    simp [step, HTTPSpans.DNSStart, bind, Except.bind, pure, Except.pure, onSpan, SpanFromContext,
        StartSpanFromContext] at hs <;>
    subst hs <;>
    rfl
  | connectStart nw ad =>
    rcases conn with _ | ⟨cid, _ | i⟩ <;>
    simp [step, HTTPSpans.ConnectStart, bind, Except.bind, pure, Except.pure, onSpan,
        SpanFromContext, StartSpanFromContext] at hs <;>
    subst hs <;>
    rfl
  | tlsHandshakeStart =>
    rcases conn with _ | ⟨cid, _ | i⟩ <;>
    simp [step, HTTPSpans.TLSHandshakeStart, bind, Except.bind, pure, Except.pure, onSpan,
        SpanFromContext, StartSpanFromContext] at hs <;>
    subst hs <;>
    rfl
  | dnsDone info =>
    rcases dns with _ | ⟨cid, _ | i⟩ <;> rcases info with ⟨ad, _ | e, co⟩ <;>
    simp [step, HTTPSpans.DNSDone, bind, Except.bind, pure, Except.pure, onSpan, SpanFromContext,
        StartSpanFromContext] at hs <;>
    subst hs <;>
    rfl
  | connectDone nw ad err =>
    rcases dial with _ | ⟨cid, _ | i⟩ <;> rcases err with _ | e <;>
    simp [step, HTTPSpans.ConnectDone, bind, Except.bind, pure, Except.pure, onSpan,
        SpanFromContext, StartSpanFromContext] at hs <;>
    subst hs <;>
    rfl
  | tlsHandshakeDone cs err =>
    rcases tls with _ | ⟨cid, _ | i⟩ <;> rcases err with _ | e <;>
    simp [step, HTTPSpans.TLSHandshakeDone, bind, Except.bind, pure, Except.pure, onSpan,
        SpanFromContext, StartSpanFromContext] at hs <;>
    subst hs <;>
    rfl
  | gotFirstResponseByte =>
    rcases resp with _ | ⟨cid, _ | i⟩ <;>
    simp [step, HTTPSpans.GotFirstResponseByte, bind, Except.bind, pure, Except.pure, onSpan,
        SpanFromContext, StartSpanFromContext] at hs <;>
    subst hs <;>
    rfl
  | gotConn info err =>
    rcases conn with _ | ⟨cid, _ | i⟩ <;> rcases err with _ | e <;>
    rcases info with _ | ⟨r, _ | _, t⟩ <;> rcases op with _ | op <;>
    simp [step, HTTPSpans.GotConn, bind, Except.bind, pure, Except.pure, onSpan, SpanFromContext,
        StartSpanFromContext] at hs <;>
    subst hs <;>
    rfl
  | wroteRequest info =>
    rcases info with ⟨err⟩
    rcases conn with _ | ⟨cid, _ | i⟩ <;> rcases req with _ | ⟨rid, _ | k⟩ <;>
    rcases err with _ | e <;> rcases op with _ | op <;>
    simp [step, HTTPSpans.WroteRequest, bind, Except.bind, pure, Except.pure, onSpan,
        SpanFromContext, StartSpanFromContext] at hs <;>
    subst hs <;>
    rfl

/-- No hook removes a recorded span. -/
theorem step_len (s s' : State) (h : Hook) (hs : step s h = .ok s') :
    s.spans.length ≤ s'.spans.length := by
  rcases s with ⟨⟨op, conn, dns, dial, tls, req, resp⟩, spans⟩
  cases h with
  | getConn hostPort =>
    rcases op with _ | op <;>
    simp [step, HTTPSpans.GetConn, bind, Except.bind, pure, Except.pure, onSpan, SpanFromContext,
        StartSpanFromContext] at hs <;>
    subst hs <;>
    simp
  | dnsStart info =>
    rcases conn with _ | ⟨cid, _ | i⟩ <;>
    simp [step, HTTPSpans.DNSStart, bind, Except.bind, pure, Except.pure, onSpan, SpanFromContext,
        StartSpanFromContext] at hs <;>
    subst hs <;>
    simp
  | connectStart nw ad =>
    rcases conn with _ | ⟨cid, _ | i⟩ <;>
    simp [step, HTTPSpans.ConnectStart, bind, Except.bind, pure, Except.pure, onSpan,
        SpanFromContext, StartSpanFromContext] at hs <;>
    subst hs <;>
    simp
  | tlsHandshakeStart =>
    rcases conn with _ | ⟨cid, _ | i⟩ <;>
    simp [step, HTTPSpans.TLSHandshakeStart, bind, Except.bind, pure, Except.pure, onSpan,
        SpanFromContext, StartSpanFromContext] at hs <;>
    subst hs <;>
    simp
  | dnsDone info =>
    rcases dns with _ | ⟨cid, _ | i⟩ <;> rcases info with ⟨ad, _ | e, co⟩ <;>
    simp [step, HTTPSpans.DNSDone, bind, Except.bind, pure, Except.pure, onSpan, SpanFromContext,
        StartSpanFromContext] at hs <;>
    subst hs <;>
    simp
  | connectDone nw ad err =>
    rcases dial with _ | ⟨cid, _ | i⟩ <;> rcases err with _ | e <;>
    simp [step, HTTPSpans.ConnectDone, bind, Except.bind, pure, Except.pure, onSpan,
        SpanFromContext, StartSpanFromContext] at hs <;>
    subst hs <;>
    simp
  | tlsHandshakeDone cs err =>
    rcases tls with _ | ⟨cid, _ | i⟩ <;> rcases err with _ | e <;>
    simp [step, HTTPSpans.TLSHandshakeDone, bind, Except.bind, pure, Except.pure, onSpan,
        SpanFromContext, StartSpanFromContext] at hs <;>
    subst hs <;>
    simp
  | gotFirstResponseByte =>
    rcases resp with _ | ⟨cid, _ | i⟩ <;>
    simp [step, HTTPSpans.GotFirstResponseByte, bind, Except.bind, pure, Except.pure, onSpan,
        SpanFromContext, StartSpanFromContext] at hs <;>
    subst hs <;>
    simp
  | gotConn info err =>
    rcases conn with _ | ⟨cid, _ | i⟩ <;> rcases err with _ | e <;>
    rcases info with _ | ⟨r, _ | _, t⟩ <;> rcases op with _ | op <;>
    simp [step, HTTPSpans.GotConn, bind, Except.bind, pure, Except.pure, onSpan, SpanFromContext,
        StartSpanFromContext] at hs <;>
    subst hs <;>
    simp
  | wroteRequest info =>
    rcases info with ⟨err⟩
    rcases conn with _ | ⟨cid, _ | i⟩ <;> rcases req with _ | ⟨rid, _ | k⟩ <;>
    rcases err with _ | e <;> rcases op with _ | op <;>
    simp [step, HTTPSpans.WroteRequest, bind, Except.bind, pure, Except.pure, onSpan,
        SpanFromContext, StartSpanFromContext] at hs <;>
    subst hs <;>
    simp

/-- A phase context after a hook is the one before it, or the context of the
span the hook has just recorded. -/
theorem step_ctx (s s' : State) (h : Hook) (p : Phase) (c : Ctx) (hs : step s h = .ok s') :
    phaseCtx s'.xt p = some c →
      phaseCtx s.xt p = some c ∨
        (c.span = some s.spans.length ∧ s.spans.length < s'.spans.length) := by
  rcases s with ⟨⟨op, conn, dns, dial, tls, req, resp⟩, spans⟩
  cases h with
  | getConn hostPort =>
    rcases op with _ | op <;>
    simp [step, HTTPSpans.GetConn, bind, Except.bind, pure, Except.pure, onSpan, SpanFromContext,
        StartSpanFromContext] at hs <;>
    subst hs <;>
    (cases p <;> simp +contextual [phaseCtx, eq_comm])
  | dnsStart info =>
    rcases conn with _ | ⟨cid, _ | i⟩ <;>
    simp [step, HTTPSpans.DNSStart, bind, Except.bind, pure, Except.pure, onSpan, SpanFromContext,
        StartSpanFromContext] at hs <;>
    subst hs <;>
    (cases p <;> simp +contextual [phaseCtx, eq_comm])
  | connectStart nw ad =>
    rcases conn with _ | ⟨cid, _ | i⟩ <;>
    simp [step, HTTPSpans.ConnectStart, bind, Except.bind, pure, Except.pure, onSpan,
        SpanFromContext, StartSpanFromContext] at hs <;>
    subst hs <;>
    (cases p <;> simp +contextual [phaseCtx, eq_comm])
  | tlsHandshakeStart =>
    rcases conn with _ | ⟨cid, _ | i⟩ <;>
    simp [step, HTTPSpans.TLSHandshakeStart, bind, Except.bind, pure, Except.pure, onSpan,
        SpanFromContext, StartSpanFromContext] at hs <;>
    subst hs <;>
    (cases p <;> simp +contextual [phaseCtx, eq_comm])
  | dnsDone info =>
    rcases dns with _ | ⟨cid, _ | i⟩ <;> rcases info with ⟨ad, _ | e, co⟩ <;>
    simp [step, HTTPSpans.DNSDone, bind, Except.bind, pure, Except.pure, onSpan, SpanFromContext,
        StartSpanFromContext] at hs <;>
    subst hs <;>
    (cases p <;> simp +contextual [phaseCtx, eq_comm])
  | connectDone nw ad err =>
    rcases dial with _ | ⟨cid, _ | i⟩ <;> rcases err with _ | e <;>
    simp [step, HTTPSpans.ConnectDone, bind, Except.bind, pure, Except.pure, onSpan,
        SpanFromContext, StartSpanFromContext] at hs <;>
    subst hs <;>
    (cases p <;> simp +contextual [phaseCtx, eq_comm])
  | tlsHandshakeDone cs err =>
    rcases tls with _ | ⟨cid, _ | i⟩ <;> rcases err with _ | e <;>
    simp [step, HTTPSpans.TLSHandshakeDone, bind, Except.bind, pure, Except.pure, onSpan,
        SpanFromContext, StartSpanFromContext] at hs <;>
    subst hs <;>
    (cases p <;> simp +contextual [phaseCtx, eq_comm])
  | gotFirstResponseByte =>
    rcases resp with _ | ⟨cid, _ | i⟩ <;>
    simp [step, HTTPSpans.GotFirstResponseByte, bind, Except.bind, pure, Except.pure, onSpan,
        SpanFromContext, StartSpanFromContext] at hs <;>
    subst hs <;>
    (cases p <;> simp +contextual [phaseCtx, eq_comm])
  | gotConn info err =>
    rcases conn with _ | ⟨cid, _ | i⟩ <;> rcases err with _ | e <;>
    rcases info with _ | ⟨r, _ | _, t⟩ <;> rcases op with _ | op <;>
    simp [step, HTTPSpans.GotConn, bind, Except.bind, pure, Except.pure, onSpan, SpanFromContext,
        StartSpanFromContext] at hs <;>
    subst hs <;>
    (cases p <;> simp +contextual [phaseCtx, eq_comm])
  | wroteRequest info =>
    rcases info with ⟨err⟩
    rcases conn with _ | ⟨cid, _ | i⟩ <;> rcases req with _ | ⟨rid, _ | k⟩ <;>
    rcases err with _ | e <;> rcases op with _ | op <;>
    simp [step, HTTPSpans.WroteRequest, bind, Except.bind, pure, Except.pure, onSpan,
        SpanFromContext, StartSpanFromContext] at hs <;>
    subst hs <;>
    (cases p <;> simp +contextual [phaseCtx, eq_comm])

/-- The connect context, once set, stays set; `GetConn` sets it. -/
theorem step_connCtx (s s' : State) (h : Hook) (hs : step s h = .ok s')
    (hc : s.xt.connCtx ≠ none ∨ ∃ hostPort, h = .getConn hostPort) : s'.xt.connCtx ≠ none := by
  rcases s with ⟨⟨op, conn, dns, dial, tls, req, resp⟩, spans⟩
  cases h with
  | getConn hostPort =>
    rcases op with _ | op <;>
    simp [step, HTTPSpans.GetConn, bind, Except.bind, pure, Except.pure, onSpan, SpanFromContext,
        StartSpanFromContext] at hs <;>
    subst hs <;>
    simp_all
  | dnsStart info =>
    rcases conn with _ | ⟨cid, _ | i⟩ <;>
    simp [step, HTTPSpans.DNSStart, bind, Except.bind, pure, Except.pure, onSpan, SpanFromContext,
        StartSpanFromContext] at hs <;>
    subst hs <;>
    simp_all
  | connectStart nw ad =>
    rcases conn with _ | ⟨cid, _ | i⟩ <;>
    simp [step, HTTPSpans.ConnectStart, bind, Except.bind, pure, Except.pure, onSpan,
        SpanFromContext, StartSpanFromContext] at hs <;>
    subst hs <;>
    simp_all
  | tlsHandshakeStart =>
    rcases conn with _ | ⟨cid, _ | i⟩ <;>
    simp [step, HTTPSpans.TLSHandshakeStart, bind, Except.bind, pure, Except.pure, onSpan,
        SpanFromContext, StartSpanFromContext] at hs <;>
    subst hs <;>
    simp_all
  | dnsDone info =>
    rcases dns with _ | ⟨cid, _ | i⟩ <;> rcases info with ⟨ad, _ | e, co⟩ <;>
    simp [step, HTTPSpans.DNSDone, bind, Except.bind, pure, Except.pure, onSpan, SpanFromContext,
        StartSpanFromContext] at hs <;>
    subst hs <;>
    simp_all
  | connectDone nw ad err =>
    rcases dial with _ | ⟨cid, _ | i⟩ <;> rcases err with _ | e <;>
    simp [step, HTTPSpans.ConnectDone, bind, Except.bind, pure, Except.pure, onSpan,
        SpanFromContext, StartSpanFromContext] at hs <;>
    subst hs <;>
    simp_all
  | tlsHandshakeDone cs err =>
    rcases tls with _ | ⟨cid, _ | i⟩ <;> rcases err with _ | e <;>
    simp [step, HTTPSpans.TLSHandshakeDone, bind, Except.bind, pure, Except.pure, onSpan,
        SpanFromContext, StartSpanFromContext] at hs <;>
    subst hs <;>
    simp_all
  | gotFirstResponseByte =>
    rcases resp with _ | ⟨cid, _ | i⟩ <;>
    simp [step, HTTPSpans.GotFirstResponseByte, bind, Except.bind, pure, Except.pure, onSpan,
        SpanFromContext, StartSpanFromContext] at hs <;>
    subst hs <;>
    simp_all
  | gotConn info err =>
    rcases conn with _ | ⟨cid, _ | i⟩ <;> rcases err with _ | e <;>
    rcases info with _ | ⟨r, _ | _, t⟩ <;> rcases op with _ | op <;>
    simp [step, HTTPSpans.GotConn, bind, Except.bind, pure, Except.pure, onSpan, SpanFromContext,
        StartSpanFromContext] at hs <;>
    subst hs <;>
    simp_all
  | wroteRequest info =>
    rcases info with ⟨err⟩
    rcases conn with _ | ⟨cid, _ | i⟩ <;> rcases req with _ | ⟨rid, _ | k⟩ <;>
    rcases err with _ | e <;> rcases op with _ | op <;>
    simp [step, HTTPSpans.WroteRequest, bind, Except.bind, pure, Except.pure, onSpan,
        SpanFromContext, StartSpanFromContext] at hs <;>
    subst hs <;>
    simp_all

/-- A recorded span stays recorded under its index with its name and parent,
and is either untouched or finished. -/
theorem step_old (s s' : State) (h : Hook) (j : Nat) (a : Span)
    (hs : step s h = .ok s') (ha : s.spans[j]? = some a) :
    ∃ b, s'.spans[j]? = some b ∧ b.name = a.name ∧ b.parent = a.parent ∧
      (b = a ∨ 0 < b.finished) := by
  rcases s with ⟨⟨op, conn, dns, dial, tls, req, resp⟩, spans⟩
  simp only at ha
  have hlt : j < spans.length := (List.getElem?_eq_some.1 ha).1
  cases h with
  | getConn hostPort =>
    rcases op with _ | op <;>
    simp [step, HTTPSpans.GetConn, bind, Except.bind, pure, Except.pure, onSpan, SpanFromContext,
        StartSpanFromContext] at hs <;>
    subst hs <;>
    simp [List.getElem?_modify, List.getElem?_append, -List.getElem?_eq_getElem, ha, hlt, *]
  | dnsStart info =>
    rcases conn with _ | ⟨cid, _ | i⟩ <;>
    simp [step, HTTPSpans.DNSStart, bind, Except.bind, pure, Except.pure, onSpan, SpanFromContext,
        StartSpanFromContext] at hs <;>
    subst hs <;>
    simp [List.getElem?_modify, List.getElem?_append, -List.getElem?_eq_getElem, ha, hlt, *]
  | connectStart nw ad =>
    rcases conn with _ | ⟨cid, _ | i⟩ <;>
    simp [step, HTTPSpans.ConnectStart, bind, Except.bind, pure, Except.pure, onSpan,
        SpanFromContext, StartSpanFromContext] at hs <;>
    subst hs <;>
    simp [List.getElem?_modify, List.getElem?_append, -List.getElem?_eq_getElem, ha, hlt, *]
  | tlsHandshakeStart =>
    rcases conn with _ | ⟨cid, _ | i⟩ <;>
    simp [step, HTTPSpans.TLSHandshakeStart, bind, Except.bind, pure, Except.pure, onSpan,
        SpanFromContext, StartSpanFromContext] at hs <;>
    subst hs <;>
    simp [List.getElem?_modify, List.getElem?_append, -List.getElem?_eq_getElem, ha, hlt, *]
  | dnsDone info =>
    rcases dns with _ | ⟨cid, _ | i⟩ <;> rcases info with ⟨ad, _ | e, co⟩ <;>
    simp [step, HTTPSpans.DNSDone, bind, Except.bind, pure, Except.pure, onSpan, SpanFromContext,
        StartSpanFromContext] at hs <;>
    subst hs <;>
    (first | by_cases hi : i = j | skip) <;>
    simp [List.getElem?_modify, List.getElem?_append, -List.getElem?_eq_getElem, ha, hlt, *]
  | connectDone nw ad err =>
    rcases dial with _ | ⟨cid, _ | i⟩ <;> rcases err with _ | e <;>
    simp [step, HTTPSpans.ConnectDone, bind, Except.bind, pure, Except.pure, onSpan,
        SpanFromContext, StartSpanFromContext] at hs <;>
    subst hs <;>
    (first | by_cases hi : i = j | skip) <;>
    simp [List.getElem?_modify, List.getElem?_append, -List.getElem?_eq_getElem, ha, hlt, *]
  | tlsHandshakeDone cs err =>
    rcases tls with _ | ⟨cid, _ | i⟩ <;> rcases err with _ | e <;>
    simp [step, HTTPSpans.TLSHandshakeDone, bind, Except.bind, pure, Except.pure, onSpan,
        SpanFromContext, StartSpanFromContext] at hs <;>
    subst hs <;>
    (first | by_cases hi : i = j | skip) <;>
    simp [List.getElem?_modify, List.getElem?_append, -List.getElem?_eq_getElem, ha, hlt, *]
  | gotFirstResponseByte =>
    rcases resp with _ | ⟨cid, _ | i⟩ <;>
    simp [step, HTTPSpans.GotFirstResponseByte, bind, Except.bind, pure, Except.pure, onSpan,
        SpanFromContext, StartSpanFromContext] at hs <;>
    subst hs <;>
    (first | by_cases hi : i = j | skip) <;>
    simp [List.getElem?_modify, List.getElem?_append, -List.getElem?_eq_getElem, ha, hlt, *]
  | gotConn info err =>
    rcases conn with _ | ⟨cid, _ | i⟩ <;> rcases err with _ | e <;>
    rcases info with _ | ⟨r, _ | _, t⟩ <;> rcases op with _ | op <;>
    simp [step, HTTPSpans.GotConn, bind, Except.bind, pure, Except.pure, onSpan, SpanFromContext,
        StartSpanFromContext] at hs <;>
    subst hs <;>
    (first | by_cases hi : i = j | skip) <;>
    simp [List.getElem?_modify, List.getElem?_append, -List.getElem?_eq_getElem, ha, hlt, *]
  | wroteRequest info =>
    rcases info with ⟨err⟩
    rcases conn with _ | ⟨cid, _ | i⟩ <;> rcases req with _ | ⟨rid, _ | k⟩ <;>
    rcases err with _ | e <;> rcases op with _ | op <;>
    simp [step, HTTPSpans.WroteRequest, bind, Except.bind, pure, Except.pure, onSpan,
        SpanFromContext, StartSpanFromContext] at hs <;>
    subst hs <;>
    (first | by_cases hi : i = j | skip) <;>
    (first | by_cases hk : k = j | skip) <;>
    simp [List.getElem?_modify, List.getElem?_append, -List.getElem?_eq_getElem, ha, hlt, *]

/-- On a well-formed state every hook returns normally, except `DNSStart`
while the connect context is nil. -/
theorem step_ok (s : State) (h : Hook) (hwf : WellFormed s = true)
    (hc : s.xt.connCtx ≠ none ∨ ∃ hostPort, h = .getConn hostPort) :
    ∃ s', step s h = .ok s' := by
  have hres := fun p c => wf_resolves hwf (p := p) (c := c)
  obtain ⟨op0, hop⟩ := wf_opCtx hwf
  rcases s with ⟨⟨op, conn, dns, dial, tls, req, resp⟩, spans⟩
  simp only at hop hres
  subst hop
  clear hwf
  cases h with
  | getConn hostPort =>
    simp [step, HTTPSpans.GetConn, bind, Except.bind, pure, Except.pure, onSpan, SpanFromContext,
        StartSpanFromContext, *] <;>
    simp at hc
  | dnsStart info =>
    rcases conn with _ | ci
    · simp [step, HTTPSpans.DNSStart, bind, Except.bind, pure, Except.pure, onSpan,
        SpanFromContext, StartSpanFromContext, *] <;>
      simp at hc
    · obtain ⟨i, hci, hli⟩ := hres Phase.connect ci rfl
      simp [step, HTTPSpans.DNSStart, bind, Except.bind, pure, Except.pure, onSpan,
          SpanFromContext, StartSpanFromContext, *] <;>
      simp at hc
  | connectStart nw ad =>
    rcases conn with _ | ci
    · simp [step, HTTPSpans.ConnectStart, bind, Except.bind, pure, Except.pure, onSpan,
        SpanFromContext, StartSpanFromContext, *] <;>
      simp at hc
    · obtain ⟨i, hci, hli⟩ := hres Phase.connect ci rfl
      simp [step, HTTPSpans.ConnectStart, bind, Except.bind, pure, Except.pure, onSpan,
          SpanFromContext, StartSpanFromContext, *] <;>
      simp at hc
  | tlsHandshakeStart  =>
    rcases conn with _ | ci
    · simp [step, HTTPSpans.TLSHandshakeStart, bind, Except.bind, pure, Except.pure, onSpan,
        SpanFromContext, StartSpanFromContext, *] <;>
      simp at hc
    · obtain ⟨i, hci, hli⟩ := hres Phase.connect ci rfl
      simp [step, HTTPSpans.TLSHandshakeStart, bind, Except.bind, pure, Except.pure, onSpan,
          SpanFromContext, StartSpanFromContext, *] <;>
      simp at hc
  | dnsDone info =>
    rcases dns with _ | ci
    · rcases info with ⟨ad, _ | e, co⟩ <;>
      simp [step, HTTPSpans.DNSDone, bind, Except.bind, pure, Except.pure, onSpan,
          SpanFromContext, StartSpanFromContext, *] <;>
      simp at hc
    · obtain ⟨i, hci, hli⟩ := hres Phase.dns ci rfl
      rcases info with ⟨ad, _ | e, co⟩ <;>
      simp [step, HTTPSpans.DNSDone, bind, Except.bind, pure, Except.pure, onSpan,
          SpanFromContext, StartSpanFromContext, *] <;>
      simp at hc
  | connectDone nw ad err =>
    rcases dial with _ | ci
    · rcases err with _ | e <;>
      simp [step, HTTPSpans.ConnectDone, bind, Except.bind, pure, Except.pure, onSpan,
          SpanFromContext, StartSpanFromContext, *] <;>
      simp at hc
    · obtain ⟨i, hci, hli⟩ := hres Phase.dial ci rfl
      rcases err with _ | e <;>
      simp [step, HTTPSpans.ConnectDone, bind, Except.bind, pure, Except.pure, onSpan,
          SpanFromContext, StartSpanFromContext, *] <;>
      simp at hc
  | tlsHandshakeDone cs err =>
    rcases tls with _ | ci
    · rcases err with _ | e <;>
      simp [step, HTTPSpans.TLSHandshakeDone, bind, Except.bind, pure, Except.pure, onSpan,
          SpanFromContext, StartSpanFromContext, *] <;>
      simp at hc
    · obtain ⟨i, hci, hli⟩ := hres Phase.tls ci rfl
      rcases err with _ | e <;>
      simp [step, HTTPSpans.TLSHandshakeDone, bind, Except.bind, pure, Except.pure, onSpan,
          SpanFromContext, StartSpanFromContext, *] <;>
      simp at hc
  | gotFirstResponseByte  =>
    rcases resp with _ | ci
    · simp [step, HTTPSpans.GotFirstResponseByte, bind, Except.bind, pure, Except.pure, onSpan,
        SpanFromContext, StartSpanFromContext, *] <;>
      simp at hc
    · obtain ⟨i, hci, hli⟩ := hres Phase.response ci rfl
      simp [step, HTTPSpans.GotFirstResponseByte, bind, Except.bind, pure, Except.pure, onSpan,
          SpanFromContext, StartSpanFromContext, *] <;>
      simp at hc
  | gotConn info err =>
    rcases conn with _ | ci
    · rcases err with _ | e <;> rcases info with _ | ⟨r, _ | _, t⟩ <;>
      simp [step, HTTPSpans.GotConn, bind, Except.bind, pure, Except.pure, onSpan,
          SpanFromContext, StartSpanFromContext, *] <;>
      simp at hc
    · obtain ⟨i, hci, hli⟩ := hres Phase.connect ci rfl
      rcases err with _ | e <;> rcases info with _ | ⟨r, _ | _, t⟩ <;>
      simp [step, HTTPSpans.GotConn, bind, Except.bind, pure, Except.pure, onSpan,
          SpanFromContext, StartSpanFromContext, *] <;>
      simp at hc
  | wroteRequest info =>
    rcases conn with _ | ci
    · rcases req with _ | ck
      · rcases info with ⟨_ | e⟩ <;>
        simp [step, HTTPSpans.WroteRequest, bind, Except.bind, pure, Except.pure, onSpan,
            SpanFromContext, StartSpanFromContext, *] <;>
        simp at hc
      · obtain ⟨k, hck, hlk⟩ := hres Phase.request ck rfl
        rcases info with ⟨_ | e⟩ <;>
        simp [step, HTTPSpans.WroteRequest, bind, Except.bind, pure, Except.pure, onSpan,
            SpanFromContext, StartSpanFromContext, *] <;>
        simp at hc
    · obtain ⟨i, hci, hli⟩ := hres Phase.connect ci rfl
      rcases req with _ | ck
      · rcases info with ⟨_ | e⟩ <;>
        simp [step, HTTPSpans.WroteRequest, bind, Except.bind, pure, Except.pure, onSpan,
            SpanFromContext, StartSpanFromContext, *] <;>
        simp at hc
      · obtain ⟨k, hck, hlk⟩ := hres Phase.request ck rfl
        rcases info with ⟨_ | e⟩ <;>
        simp [step, HTTPSpans.WroteRequest, bind, Except.bind, pure, Except.pure, onSpan,
            SpanFromContext, StartSpanFromContext, *] <;>
        simp at hc

set_option maxHeartbeats 4000000 in
/-- A hook that closes a phase leaves the span of that phase finished. -/
theorem step_closes (s s' : State) (h : Hook) (p : Phase) (j : Nat)
    (hwf : WellFormed s = true) (hs : step s h = .ok s') (hp : closes h p = true)
    (hj : phaseSpan s.xt p = some j) :
    ∃ b, s'.spans[j]? = some b ∧ 0 < b.finished := by
  revert hp hj
  have hres := fun p c => wf_resolves hwf (p := p) (c := c)
  obtain ⟨op0, hop⟩ := wf_opCtx hwf
  rcases s with ⟨⟨op, conn, dns, dial, tls, req, resp⟩, spans⟩
  simp only at hop hres
  subst hop
  clear hwf
  cases h with
  | getConn hostPort =>
    simp [step, HTTPSpans.GetConn, bind, Except.bind, pure, Except.pure, onSpan, SpanFromContext,
        StartSpanFromContext, *] at hs <;>
    (first | subst hs | skip) <;>
    (cases p <;> simp [closes, phaseSpan, phaseCtx, SpanFromContext, List.getElem?_modify,
        List.getElem?_append, -List.getElem?_eq_getElem, *])
  | dnsStart info =>
    rcases conn with _ | ci
    · simp [step, HTTPSpans.DNSStart, bind, Except.bind, pure, Except.pure, onSpan,
        SpanFromContext, StartSpanFromContext, *] at hs <;>
      (first | subst hs | skip) <;>
      (cases p <;> simp [closes, phaseSpan, phaseCtx, SpanFromContext, List.getElem?_modify,
          List.getElem?_append, -List.getElem?_eq_getElem, *])
    · obtain ⟨i, hci, hli⟩ := hres Phase.connect ci rfl
      obtain ⟨ai, hai⟩ : ∃ a, spans[i]? = some a := ⟨_, List.getElem?_eq_getElem hli⟩
      by_cases hij : i = j <;>
      (first | subst hij | skip) <;>
      simp [step, HTTPSpans.DNSStart, bind, Except.bind, pure, Except.pure, onSpan,
          SpanFromContext, StartSpanFromContext, *] at hs <;>
      (first | subst hs | skip) <;>
      (cases p <;> simp [closes, phaseSpan, phaseCtx, SpanFromContext, List.getElem?_modify,
          List.getElem?_append, -List.getElem?_eq_getElem, *])
  | connectStart nw ad =>
    rcases conn with _ | ci
    · simp [step, HTTPSpans.ConnectStart, bind, Except.bind, pure, Except.pure, onSpan,
        SpanFromContext, StartSpanFromContext, *] at hs <;>
      (first | subst hs | skip) <;>
      (cases p <;> simp [closes, phaseSpan, phaseCtx, SpanFromContext, List.getElem?_modify,
          List.getElem?_append, -List.getElem?_eq_getElem, *])
    · obtain ⟨i, hci, hli⟩ := hres Phase.connect ci rfl
      obtain ⟨ai, hai⟩ : ∃ a, spans[i]? = some a := ⟨_, List.getElem?_eq_getElem hli⟩
      by_cases hij : i = j <;>
      (first | subst hij | skip) <;>
      simp [step, HTTPSpans.ConnectStart, bind, Except.bind, pure, Except.pure, onSpan,
          SpanFromContext, StartSpanFromContext, *] at hs <;>
      (first | subst hs | skip) <;>
      (cases p <;> simp [closes, phaseSpan, phaseCtx, SpanFromContext, List.getElem?_modify,
          List.getElem?_append, -List.getElem?_eq_getElem, *])
  | tlsHandshakeStart  =>
    rcases conn with _ | ci
    · simp [step, HTTPSpans.TLSHandshakeStart, bind, Except.bind, pure, Except.pure, onSpan,
        SpanFromContext, StartSpanFromContext, *] at hs <;>
      (first | subst hs | skip) <;>
      (cases p <;> simp [closes, phaseSpan, phaseCtx, SpanFromContext, List.getElem?_modify,
          List.getElem?_append, -List.getElem?_eq_getElem, *])
    · obtain ⟨i, hci, hli⟩ := hres Phase.connect ci rfl
      obtain ⟨ai, hai⟩ : ∃ a, spans[i]? = some a := ⟨_, List.getElem?_eq_getElem hli⟩
      by_cases hij : i = j <;>
      (first | subst hij | skip) <;>
      simp [step, HTTPSpans.TLSHandshakeStart, bind, Except.bind, pure, Except.pure, onSpan,
          SpanFromContext, StartSpanFromContext, *] at hs <;>
      (first | subst hs | skip) <;>
      (cases p <;> simp [closes, phaseSpan, phaseCtx, SpanFromContext, List.getElem?_modify,
          List.getElem?_append, -List.getElem?_eq_getElem, *])
  | dnsDone info =>
    rcases dns with _ | ci
    · rcases info with ⟨ad, _ | e, co⟩ <;>
      simp [step, HTTPSpans.DNSDone, bind, Except.bind, pure, Except.pure, onSpan,
          SpanFromContext, StartSpanFromContext, *] at hs <;>
      (first | subst hs | skip) <;>
      (cases p <;> simp [closes, phaseSpan, phaseCtx, SpanFromContext, List.getElem?_modify,
          List.getElem?_append, -List.getElem?_eq_getElem, *])
    · obtain ⟨i, hci, hli⟩ := hres Phase.dns ci rfl
      obtain ⟨ai, hai⟩ : ∃ a, spans[i]? = some a := ⟨_, List.getElem?_eq_getElem hli⟩
      rcases info with ⟨ad, _ | e, co⟩ <;>
      by_cases hij : i = j <;>
      (first | subst hij | skip) <;>
      simp [step, HTTPSpans.DNSDone, bind, Except.bind, pure, Except.pure, onSpan,
          SpanFromContext, StartSpanFromContext, *] at hs <;>
      (first | subst hs | skip) <;>
      (cases p <;> simp [closes, phaseSpan, phaseCtx, SpanFromContext, List.getElem?_modify,
          List.getElem?_append, -List.getElem?_eq_getElem, *])
  | connectDone nw ad err =>
    rcases dial with _ | ci
    · rcases err with _ | e <;>
      simp [step, HTTPSpans.ConnectDone, bind, Except.bind, pure, Except.pure, onSpan,
          SpanFromContext, StartSpanFromContext, *] at hs <;>
      (first | subst hs | skip) <;>
      (cases p <;> simp [closes, phaseSpan, phaseCtx, SpanFromContext, List.getElem?_modify,
          List.getElem?_append, -List.getElem?_eq_getElem, *])
    · obtain ⟨i, hci, hli⟩ := hres Phase.dial ci rfl
      obtain ⟨ai, hai⟩ : ∃ a, spans[i]? = some a := ⟨_, List.getElem?_eq_getElem hli⟩
      rcases err with _ | e <;>
      by_cases hij : i = j <;>
      (first | subst hij | skip) <;>
      simp [step, HTTPSpans.ConnectDone, bind, Except.bind, pure, Except.pure, onSpan,
          SpanFromContext, StartSpanFromContext, *] at hs <;>
      (first | subst hs | skip) <;>
      (cases p <;> simp [closes, phaseSpan, phaseCtx, SpanFromContext, List.getElem?_modify,
          List.getElem?_append, -List.getElem?_eq_getElem, *])
  | tlsHandshakeDone cs err =>
    rcases tls with _ | ci
    · rcases err with _ | e <;>
      simp [step, HTTPSpans.TLSHandshakeDone, bind, Except.bind, pure, Except.pure, onSpan,
          SpanFromContext, StartSpanFromContext, *] at hs <;>
      (first | subst hs | skip) <;>
      (cases p <;> simp [closes, phaseSpan, phaseCtx, SpanFromContext, List.getElem?_modify,
          List.getElem?_append, -List.getElem?_eq_getElem, *])
    · obtain ⟨i, hci, hli⟩ := hres Phase.tls ci rfl
      obtain ⟨ai, hai⟩ : ∃ a, spans[i]? = some a := ⟨_, List.getElem?_eq_getElem hli⟩
      rcases err with _ | e <;>
      by_cases hij : i = j <;>
      (first | subst hij | skip) <;>
      simp [step, HTTPSpans.TLSHandshakeDone, bind, Except.bind, pure, Except.pure, onSpan,
          SpanFromContext, StartSpanFromContext, *] at hs <;>
      (first | subst hs | skip) <;>
      (cases p <;> simp [closes, phaseSpan, phaseCtx, SpanFromContext, List.getElem?_modify,
          List.getElem?_append, -List.getElem?_eq_getElem, *])
  | gotFirstResponseByte  =>
    rcases resp with _ | ci
    · simp [step, HTTPSpans.GotFirstResponseByte, bind, Except.bind, pure, Except.pure, onSpan,
        SpanFromContext, StartSpanFromContext, *] at hs <;>
      (first | subst hs | skip) <;>
      (cases p <;> simp [closes, phaseSpan, phaseCtx, SpanFromContext, List.getElem?_modify,
          List.getElem?_append, -List.getElem?_eq_getElem, *])
    · obtain ⟨i, hci, hli⟩ := hres Phase.response ci rfl
      obtain ⟨ai, hai⟩ : ∃ a, spans[i]? = some a := ⟨_, List.getElem?_eq_getElem hli⟩
      by_cases hij : i = j <;>
      (first | subst hij | skip) <;>
      simp [step, HTTPSpans.GotFirstResponseByte, bind, Except.bind, pure, Except.pure, onSpan,
          SpanFromContext, StartSpanFromContext, *] at hs <;>
      (first | subst hs | skip) <;>
      (cases p <;> simp [closes, phaseSpan, phaseCtx, SpanFromContext, List.getElem?_modify,
          List.getElem?_append, -List.getElem?_eq_getElem, *])
  | gotConn info err =>
    rcases conn with _ | ci
    · rcases err with _ | e <;> rcases info with _ | ⟨r, _ | _, t⟩ <;>
      simp [step, HTTPSpans.GotConn, bind, Except.bind, pure, Except.pure, onSpan,
          SpanFromContext, StartSpanFromContext, *] at hs <;>
      (first | subst hs | skip) <;>
      (cases p <;> simp [closes, phaseSpan, phaseCtx, SpanFromContext, List.getElem?_modify,
          List.getElem?_append, -List.getElem?_eq_getElem, *])
    · obtain ⟨i, hci, hli⟩ := hres Phase.connect ci rfl
      obtain ⟨ai, hai⟩ : ∃ a, spans[i]? = some a := ⟨_, List.getElem?_eq_getElem hli⟩
      rcases err with _ | e <;> rcases info with _ | ⟨r, _ | _, t⟩ <;>
      by_cases hij : i = j <;>
      (first | subst hij | skip) <;>
      simp [step, HTTPSpans.GotConn, bind, Except.bind, pure, Except.pure, onSpan,
          SpanFromContext, StartSpanFromContext, *] at hs <;>
      (first | subst hs | skip) <;>
      (cases p <;> simp [closes, phaseSpan, phaseCtx, SpanFromContext, List.getElem?_modify,
          List.getElem?_append, -List.getElem?_eq_getElem, *])
  | wroteRequest info =>
    rcases conn with _ | ci
    · rcases req with _ | ck
      · rcases info with ⟨_ | e⟩ <;>
        simp [step, HTTPSpans.WroteRequest, bind, Except.bind, pure, Except.pure, onSpan,
            SpanFromContext, StartSpanFromContext, *] at hs <;>
        (first | subst hs | skip) <;>
        (cases p <;> simp [closes, phaseSpan, phaseCtx, SpanFromContext, List.getElem?_modify,
            List.getElem?_append, -List.getElem?_eq_getElem, *])
      · obtain ⟨k, hck, hlk⟩ := hres Phase.request ck rfl
        obtain ⟨ak, hak⟩ : ∃ a, spans[k]? = some a := ⟨_, List.getElem?_eq_getElem hlk⟩
        rcases info with ⟨_ | e⟩ <;>
        by_cases hkj : k = j <;>
        (first | subst hkj | skip) <;>
        simp [step, HTTPSpans.WroteRequest, bind, Except.bind, pure, Except.pure, onSpan,
            SpanFromContext, StartSpanFromContext, *] at hs <;>
        (first | subst hs | skip) <;>
        (cases p <;> simp [closes, phaseSpan, phaseCtx, SpanFromContext, List.getElem?_modify,
            List.getElem?_append, -List.getElem?_eq_getElem, *])
    · obtain ⟨i, hci, hli⟩ := hres Phase.connect ci rfl
      obtain ⟨ai, hai⟩ : ∃ a, spans[i]? = some a := ⟨_, List.getElem?_eq_getElem hli⟩
      rcases req with _ | ck
      · rcases info with ⟨_ | e⟩ <;>
        by_cases hij : i = j <;>
        (first | subst hij | skip) <;>
        simp [step, HTTPSpans.WroteRequest, bind, Except.bind, pure, Except.pure, onSpan,
            SpanFromContext, StartSpanFromContext, *] at hs <;>
        (first | subst hs | skip) <;>
        (cases p <;> simp [closes, phaseSpan, phaseCtx, SpanFromContext, List.getElem?_modify,
            List.getElem?_append, -List.getElem?_eq_getElem, *])
      · obtain ⟨k, hck, hlk⟩ := hres Phase.request ck rfl
        obtain ⟨ak, hak⟩ : ∃ a, spans[k]? = some a := ⟨_, List.getElem?_eq_getElem hlk⟩
        rcases info with ⟨_ | e⟩ <;>
        by_cases hij : i = j <;>
        by_cases hkj : k = j <;>
        (first | subst hij | skip) <;>
        (first | subst hkj | skip) <;>
        simp [step, HTTPSpans.WroteRequest, bind, Except.bind, pure, Except.pure, onSpan,
            SpanFromContext, StartSpanFromContext, *] at hs <;>
        (first | subst hs | skip) <;>
        (cases p <;> simp [closes, phaseSpan, phaseCtx, SpanFromContext, List.getElem?_modify,
            List.getElem?_append, -List.getElem?_eq_getElem, *])

set_option maxHeartbeats 4000000 in
/-- A span recorded by a hook is unfinished, without tag or log, named after
the phase the hook opens, the child of the span of that phase's parent context,
and the context of that phase now refers to it. -/
theorem step_new (s s' : State) (h : Hook) (j : Nat) (b : Span)
    (hwf : WellFormed s = true) (hs : step s h = .ok s') (hj : s.spans.length ≤ j)
    (hb : s'.spans[j]? = some b) :
    b.tags = [] ∧ b.logs = [] ∧ b.finished = 0 ∧
      ∃ p, opens h p = true ∧ phaseSpan s'.xt p = some j ∧ b.name = phaseName p ∧
        ∃ par, parentCtx s.xt p = some par ∧ b.parent = SpanFromContext par := by
  revert hb
  have hres := fun p c => wf_resolves hwf (p := p) (c := c)
  obtain ⟨op0, hop⟩ := wf_opCtx hwf
  rcases s with ⟨⟨op, conn, dns, dial, tls, req, resp⟩, spans⟩
  simp only at hop hres
  subst hop
  clear hwf
  simp only at hj
  have hnone : spans[j]? = none := List.getElem?_eq_none hj
  have hnlt : ¬ j < spans.length := Nat.not_lt.2 hj
  cases h with
  | getConn hostPort =>
    simp [step, HTTPSpans.GetConn, bind, Except.bind, pure, Except.pure, onSpan, SpanFromContext,
        StartSpanFromContext, *] at hs <;>
    (first | subst hs | skip) <;>
    simp [getElem?_modify_eq_some, getElem?_concat_eq_some, -List.getElem?_eq_getElem, *] <;>
      rintro rfl rfl <;> refine ⟨rfl, rfl, rfl, Phase.connect, ?_⟩ <;> simp [opens, phaseSpan,
        phaseCtx, phaseName, parentCtx, SpanFromContext, *]
  | dnsStart info =>
    rcases conn with _ | ci
    · simp [step, HTTPSpans.DNSStart, bind, Except.bind, pure, Except.pure, onSpan,
        SpanFromContext, StartSpanFromContext, *] at hs <;>
      (first | subst hs | skip) <;>
      simp [getElem?_modify_eq_some, getElem?_concat_eq_some, -List.getElem?_eq_getElem, *] <;>
        rintro rfl rfl <;> refine ⟨rfl, rfl, rfl, Phase.dns, ?_⟩ <;> simp [opens, phaseSpan,
          phaseCtx, phaseName, parentCtx, SpanFromContext, *]
    · obtain ⟨i, hci, hli⟩ := hres Phase.connect ci rfl
      (have hni : ¬ i = j := by omega) <;>
      simp [step, HTTPSpans.DNSStart, bind, Except.bind, pure, Except.pure, onSpan,
          SpanFromContext, StartSpanFromContext, *] at hs <;>
      (first | subst hs | skip) <;>
      simp [getElem?_modify_eq_some, getElem?_concat_eq_some, -List.getElem?_eq_getElem, *] <;>
        rintro rfl rfl <;> refine ⟨rfl, rfl, rfl, Phase.dns, ?_⟩ <;> simp [opens, phaseSpan,
          phaseCtx, phaseName, parentCtx, SpanFromContext, *]
  | connectStart nw ad =>
    rcases conn with _ | ci
    · simp [step, HTTPSpans.ConnectStart, bind, Except.bind, pure, Except.pure, onSpan,
        SpanFromContext, StartSpanFromContext, *] at hs <;>
      (first | subst hs | skip) <;>
      simp [getElem?_modify_eq_some, getElem?_concat_eq_some, -List.getElem?_eq_getElem, *] <;>
        rintro rfl rfl <;> refine ⟨rfl, rfl, rfl, Phase.dial, ?_⟩ <;> simp [opens, phaseSpan,
          phaseCtx, phaseName, parentCtx, SpanFromContext, *]
    · obtain ⟨i, hci, hli⟩ := hres Phase.connect ci rfl
      (have hni : ¬ i = j := by omega) <;>
      simp [step, HTTPSpans.ConnectStart, bind, Except.bind, pure, Except.pure, onSpan,
          SpanFromContext, StartSpanFromContext, *] at hs <;>
      (first | subst hs | skip) <;>
      simp [getElem?_modify_eq_some, getElem?_concat_eq_some, -List.getElem?_eq_getElem, *] <;>
        rintro rfl rfl <;> refine ⟨rfl, rfl, rfl, Phase.dial, ?_⟩ <;> simp [opens, phaseSpan,
          phaseCtx, phaseName, parentCtx, SpanFromContext, *]
  | tlsHandshakeStart  =>
    rcases conn with _ | ci
    · simp [step, HTTPSpans.TLSHandshakeStart, bind, Except.bind, pure, Except.pure, onSpan,
        SpanFromContext, StartSpanFromContext, *] at hs <;>
      (first | subst hs | skip) <;>
      simp [getElem?_modify_eq_some, getElem?_concat_eq_some, -List.getElem?_eq_getElem, *] <;>
        rintro rfl rfl <;> refine ⟨rfl, rfl, rfl, Phase.tls, ?_⟩ <;> simp [opens, phaseSpan,
          phaseCtx, phaseName, parentCtx, SpanFromContext, *]
    · obtain ⟨i, hci, hli⟩ := hres Phase.connect ci rfl
      (have hni : ¬ i = j := by omega) <;>
      simp [step, HTTPSpans.TLSHandshakeStart, bind, Except.bind, pure, Except.pure, onSpan,
          SpanFromContext, StartSpanFromContext, *] at hs <;>
      (first | subst hs | skip) <;>
      simp [getElem?_modify_eq_some, getElem?_concat_eq_some, -List.getElem?_eq_getElem, *] <;>
        rintro rfl rfl <;> refine ⟨rfl, rfl, rfl, Phase.tls, ?_⟩ <;> simp [opens, phaseSpan,
          phaseCtx, phaseName, parentCtx, SpanFromContext, *]
  | dnsDone info =>
    rcases dns with _ | ci
    · rcases info with ⟨ad, _ | e, co⟩ <;>
      simp [step, HTTPSpans.DNSDone, bind, Except.bind, pure, Except.pure, onSpan,
          SpanFromContext, StartSpanFromContext, *] at hs <;>
      (first | subst hs | skip) <;>
      simp [getElem?_modify_eq_some, getElem?_concat_eq_some, -List.getElem?_eq_getElem, *] <;>
        rintro rfl rfl <;> refine ⟨rfl, rfl, rfl, Phase.None, ?_⟩ <;> simp [opens, phaseSpan,
          phaseCtx, phaseName, parentCtx, SpanFromContext, *]
    · obtain ⟨i, hci, hli⟩ := hres Phase.dns ci rfl
      rcases info with ⟨ad, _ | e, co⟩ <;>
      (have hni : ¬ i = j := by omega) <;>
      simp [step, HTTPSpans.DNSDone, bind, Except.bind, pure, Except.pure, onSpan,
          SpanFromContext, StartSpanFromContext, *] at hs <;>
      (first | subst hs | skip) <;>
      simp [getElem?_modify_eq_some, getElem?_concat_eq_some, -List.getElem?_eq_getElem, *] <;>
        rintro rfl rfl <;> refine ⟨rfl, rfl, rfl, Phase.None, ?_⟩ <;> simp [opens, phaseSpan,
          phaseCtx, phaseName, parentCtx, SpanFromContext, *]
  | connectDone nw ad err =>
    rcases dial with _ | ci
    · rcases err with _ | e <;>
      simp [step, HTTPSpans.ConnectDone, bind, Except.bind, pure, Except.pure, onSpan,
          SpanFromContext, StartSpanFromContext, *] at hs <;>
      (first | subst hs | skip) <;>
      simp [getElem?_modify_eq_some, getElem?_concat_eq_some, -List.getElem?_eq_getElem, *] <;>
        rintro rfl rfl <;> refine ⟨rfl, rfl, rfl, Phase.None, ?_⟩ <;> simp [opens, phaseSpan,
          phaseCtx, phaseName, parentCtx, SpanFromContext, *]
    · obtain ⟨i, hci, hli⟩ := hres Phase.dial ci rfl
      rcases err with _ | e <;>
      (have hni : ¬ i = j := by omega) <;>
      simp [step, HTTPSpans.ConnectDone, bind, Except.bind, pure, Except.pure, onSpan,
          SpanFromContext, StartSpanFromContext, *] at hs <;>
      (first | subst hs | skip) <;>
      simp [getElem?_modify_eq_some, getElem?_concat_eq_some, -List.getElem?_eq_getElem, *] <;>
        rintro rfl rfl <;> refine ⟨rfl, rfl, rfl, Phase.None, ?_⟩ <;> simp [opens, phaseSpan,
          phaseCtx, phaseName, parentCtx, SpanFromContext, *]
  | tlsHandshakeDone cs err =>
    rcases tls with _ | ci
    · rcases err with _ | e <;>
      simp [step, HTTPSpans.TLSHandshakeDone, bind, Except.bind, pure, Except.pure, onSpan,
          SpanFromContext, StartSpanFromContext, *] at hs <;>
      (first | subst hs | skip) <;>
      simp [getElem?_modify_eq_some, getElem?_concat_eq_some, -List.getElem?_eq_getElem, *] <;>
        rintro rfl rfl <;> refine ⟨rfl, rfl, rfl, Phase.None, ?_⟩ <;> simp [opens, phaseSpan,
          phaseCtx, phaseName, parentCtx, SpanFromContext, *]
    · obtain ⟨i, hci, hli⟩ := hres Phase.tls ci rfl
      rcases err with _ | e <;>
      (have hni : ¬ i = j := by omega) <;>
      simp [step, HTTPSpans.TLSHandshakeDone, bind, Except.bind, pure, Except.pure, onSpan,
          SpanFromContext, StartSpanFromContext, *] at hs <;>
      (first | subst hs | skip) <;>
      simp [getElem?_modify_eq_some, getElem?_concat_eq_some, -List.getElem?_eq_getElem, *] <;>
        rintro rfl rfl <;> refine ⟨rfl, rfl, rfl, Phase.None, ?_⟩ <;> simp [opens, phaseSpan,
          phaseCtx, phaseName, parentCtx, SpanFromContext, *]
  | gotFirstResponseByte  =>
    rcases resp with _ | ci
    · simp [step, HTTPSpans.GotFirstResponseByte, bind, Except.bind, pure, Except.pure, onSpan,
        SpanFromContext, StartSpanFromContext, *] at hs <;>
      (first | subst hs | skip) <;>
      simp [getElem?_modify_eq_some, getElem?_concat_eq_some, -List.getElem?_eq_getElem, *] <;>
        rintro rfl rfl <;> refine ⟨rfl, rfl, rfl, Phase.None, ?_⟩ <;> simp [opens, phaseSpan,
          phaseCtx, phaseName, parentCtx, SpanFromContext, *]
    · obtain ⟨i, hci, hli⟩ := hres Phase.response ci rfl
      (have hni : ¬ i = j := by omega) <;>
      simp [step, HTTPSpans.GotFirstResponseByte, bind, Except.bind, pure, Except.pure, onSpan,
          SpanFromContext, StartSpanFromContext, *] at hs <;>
      (first | subst hs | skip) <;>
      simp [getElem?_modify_eq_some, getElem?_concat_eq_some, -List.getElem?_eq_getElem, *] <;>
        rintro rfl rfl <;> refine ⟨rfl, rfl, rfl, Phase.None, ?_⟩ <;> simp [opens, phaseSpan,
          phaseCtx, phaseName, parentCtx, SpanFromContext, *]
  | gotConn info err =>
    rcases conn with _ | ci
    · rcases err with _ | e <;> rcases info with _ | ⟨r, _ | _, t⟩ <;>
      simp [step, HTTPSpans.GotConn, bind, Except.bind, pure, Except.pure, onSpan,
          SpanFromContext, StartSpanFromContext, *] at hs <;>
      (first | subst hs | skip) <;>
      simp [getElem?_modify_eq_some, getElem?_concat_eq_some, -List.getElem?_eq_getElem, *] <;>
        rintro rfl rfl <;> refine ⟨rfl, rfl, rfl, Phase.request, ?_⟩ <;> simp [opens, phaseSpan,
          phaseCtx, phaseName, parentCtx, SpanFromContext, *]
    · obtain ⟨i, hci, hli⟩ := hres Phase.connect ci rfl
      rcases err with _ | e <;> rcases info with _ | ⟨r, _ | _, t⟩ <;>
      (have hni : ¬ i = j := by omega) <;>
      simp [step, HTTPSpans.GotConn, bind, Except.bind, pure, Except.pure, onSpan,
          SpanFromContext, StartSpanFromContext, *] at hs <;>
      (first | subst hs | skip) <;>
      simp [getElem?_modify_eq_some, getElem?_concat_eq_some, -List.getElem?_eq_getElem, *] <;>
        rintro rfl rfl <;> refine ⟨rfl, rfl, rfl, Phase.request, ?_⟩ <;> simp [opens, phaseSpan,
          phaseCtx, phaseName, parentCtx, SpanFromContext, *]
  | wroteRequest info =>
    rcases conn with _ | ci
    · rcases req with _ | ck
      · rcases info with ⟨_ | e⟩ <;>
        simp [step, HTTPSpans.WroteRequest, bind, Except.bind, pure, Except.pure, onSpan,
            SpanFromContext, StartSpanFromContext, *] at hs <;>
        (first | subst hs | skip) <;>
        simp [getElem?_modify_eq_some, getElem?_concat_eq_some, -List.getElem?_eq_getElem,
            *] <;> rintro rfl rfl <;> refine ⟨rfl, rfl, rfl, Phase.response, ?_⟩ <;> simp [opens,
            phaseSpan, phaseCtx, phaseName, parentCtx, SpanFromContext, *]
      · obtain ⟨k, hck, hlk⟩ := hres Phase.request ck rfl
        rcases info with ⟨_ | e⟩ <;>
        (have hnk : ¬ k = j := by omega) <;>
        simp [step, HTTPSpans.WroteRequest, bind, Except.bind, pure, Except.pure, onSpan,
            SpanFromContext, StartSpanFromContext, *] at hs <;>
        (first | subst hs | skip) <;>
        simp [getElem?_modify_eq_some, getElem?_concat_eq_some, -List.getElem?_eq_getElem,
            *] <;> rintro rfl rfl <;> refine ⟨rfl, rfl, rfl, Phase.response, ?_⟩ <;> simp [opens,
            phaseSpan, phaseCtx, phaseName, parentCtx, SpanFromContext, *]
    · obtain ⟨i, hci, hli⟩ := hres Phase.connect ci rfl
      rcases req with _ | ck
      · rcases info with ⟨_ | e⟩ <;>
        (have hni : ¬ i = j := by omega) <;>
        simp [step, HTTPSpans.WroteRequest, bind, Except.bind, pure, Except.pure, onSpan,
            SpanFromContext, StartSpanFromContext, *] at hs <;>
        (first | subst hs | skip) <;>
        simp [getElem?_modify_eq_some, getElem?_concat_eq_some, -List.getElem?_eq_getElem,
            *] <;> rintro rfl rfl <;> refine ⟨rfl, rfl, rfl, Phase.response, ?_⟩ <;> simp [opens,
            phaseSpan, phaseCtx, phaseName, parentCtx, SpanFromContext, *]
      · obtain ⟨k, hck, hlk⟩ := hres Phase.request ck rfl
        rcases info with ⟨_ | e⟩ <;>
        (have hni : ¬ i = j := by omega) <;>
        (have hnk : ¬ k = j := by omega) <;>
        simp [step, HTTPSpans.WroteRequest, bind, Except.bind, pure, Except.pure, onSpan,
            SpanFromContext, StartSpanFromContext, *] at hs <;>
        (first | subst hs | skip) <;>
        simp [getElem?_modify_eq_some, getElem?_concat_eq_some, -List.getElem?_eq_getElem,
            *] <;> rintro rfl rfl <;> refine ⟨rfl, rfl, rfl, Phase.response, ?_⟩ <;> simp [opens,
            phaseSpan, phaseCtx, phaseName, parentCtx, SpanFromContext, *]

/-- Every hook keeps the state well formed. -/
theorem step_wf (s s' : State) (h : Hook) (hwf : WellFormed s = true)
    (hs : step s h = .ok s') : WellFormed s' = true := by
  obtain ⟨⟨op, hop⟩, -, hpr⟩ := (WellFormed_iff s).1 hwf
  refine (WellFormed_iff s').2 ⟨⟨op, by rw [step_opCtx s s' h hs, hop]⟩, ?_, ?_⟩
  · intro p
    cases hc : phaseCtx s'.xt p with
    | none => rfl
    | some c =>
      have hlen := step_len s s' h hs
      rcases step_ctx s s' h p c hs hc with h1 | ⟨h1, h2⟩
      · obtain ⟨i, hi, hlt⟩ := wf_resolves hwf h1
        have : i < s'.spans.length := by omega
        simp [ctxResolves, SpanFromContext, hi, this]
      · simp [ctxResolves, SpanFromContext, h1, h2]
  · intro sp hsp hf
    obtain ⟨j, hj⟩ := List.mem_iff_getElem?.1 hsp
    by_cases hlt : j < s.spans.length
    · obtain ⟨a, ha⟩ : ∃ a, s.spans[j]? = some a := ⟨_, List.getElem?_eq_getElem hlt⟩
      obtain ⟨b, hb, -, -, hor⟩ := step_old s s' h j a hs ha
      rw [hj] at hb
      cases hb
      rcases hor with rfl | hpos
      · exact hpr _ (List.getElem?_mem ha) hf
      · omega
    · obtain ⟨h1, h2, -⟩ := step_new s s' h j sp hwf hs (by omega) hj
      exact ⟨h1, h2⟩

/-! ### Sequences of hook invocations -/

theorem run_cons_ok {s s' : State} {h : Hook} {hs : List Hook}
    (hr : run s (h :: hs) = .ok s') : ∃ s1, step s h = .ok s1 ∧ run s1 hs = .ok s' := by
  unfold run at hr
  cases hst : step s h with
  | error e => rw [hst] at hr; cases hr
  | ok s1 => rw [hst] at hr; exact ⟨s1, rfl, hr⟩

theorem wf_fresh (op : Ctx) : WellFormed (fresh (some op)) = true := rfl

/-- Running hooks keeps the state well formed. -/
theorem run_wf {s s' : State} {hs : List Hook} (hwf : WellFormed s = true)
    (hr : run s hs = .ok s') : WellFormed s' = true := by
  induction hs generalizing s with
  | nil => cases hr; exact hwf
  | cons h t ih =>
    obtain ⟨s1, h1, h2⟩ := run_cons_ok hr
    exact ih (step_wf s s1 h hwf h1) h2

/-- Every state a tracker built on a non-nil parent context can reach is well
formed. -/
theorem reachable_wf (op : Ctx) (hs : List Hook) (s : State)
    (hr : run (fresh (some op)) hs = .ok s) : WellFormed s = true :=
  run_wf (wf_fresh op) hr

theorem run_opCtx {s s' : State} {hs : List Hook} (hr : run s hs = .ok s') :
    s'.xt.opCtx = s.xt.opCtx := by
  induction hs generalizing s with
  | nil => cases hr; rfl
  | cons h t ih =>
    obtain ⟨s1, h1, h2⟩ := run_cons_ok hr
    rw [ih h2, step_opCtx s s1 h h1]

/-- From a well-formed state whose connect context is set, or with `GetConn` as
the first hook, no hook of a sequence panics. -/
theorem run_ok (hs : List Hook) (s : State) (hwf : WellFormed s = true)
    (hc : s.xt.connCtx ≠ none ∨ ∃ hostPort rest, hs = .getConn hostPort :: rest) :
    ∃ s', run s hs = .ok s' ∧ WellFormed s' = true ∧ s'.xt.connCtx ≠ none := by
  induction hs generalizing s with
  | nil =>
    rcases hc with hc | ⟨_, _, hc⟩
    · exact ⟨s, rfl, hwf, hc⟩
    · cases hc
  | cons h t ih =>
    have hc' : s.xt.connCtx ≠ none ∨ ∃ hostPort, h = .getConn hostPort := by
      rcases hc with hc | ⟨hp, rest, hc⟩
      · exact Or.inl hc
      · exact Or.inr ⟨hp, (List.cons.inj hc).1⟩
    obtain ⟨s1, h1⟩ := step_ok s h hwf hc'
    obtain ⟨s', h2, h3, h4⟩ :=
      ih s1 (step_wf s s1 h hwf h1) (Or.inl (step_connCtx s s1 h h1 hc'))
    exact ⟨s', by simp [run, h1, h2], h3, h4⟩

/-- A set phase context stays set. -/
theorem step_mono (s s' : State) (h : Hook) (p : Phase) (hs : step s h = .ok s') :
    phaseCtx s.xt p ≠ none → phaseCtx s'.xt p ≠ none := by
  rcases s with ⟨⟨op, conn, dns, dial, tls, req, resp⟩, spans⟩
  cases h with
  | getConn hostPort =>
    rcases op with _ | op <;>
    simp [step, HTTPSpans.GetConn, bind, Except.bind, pure, Except.pure, onSpan, SpanFromContext,
        StartSpanFromContext] at hs <;>
    subst hs <;>
    (cases p <;> simp [phaseCtx])
  | dnsStart info =>
    rcases conn with _ | ⟨cid, _ | i⟩ <;>
    simp [step, HTTPSpans.DNSStart, bind, Except.bind, pure, Except.pure, onSpan, SpanFromContext,
        StartSpanFromContext] at hs <;>
    subst hs <;>
    (cases p <;> simp [phaseCtx])
  | connectStart nw ad =>
    rcases conn with _ | ⟨cid, _ | i⟩ <;>
    simp [step, HTTPSpans.ConnectStart, bind, Except.bind, pure, Except.pure, onSpan,
        SpanFromContext, StartSpanFromContext] at hs <;>
    subst hs <;>
    (cases p <;> simp [phaseCtx])
  | tlsHandshakeStart =>
    rcases conn with _ | ⟨cid, _ | i⟩ <;>
    simp [step, HTTPSpans.TLSHandshakeStart, bind, Except.bind, pure, Except.pure, onSpan,
        SpanFromContext, StartSpanFromContext] at hs <;>
    subst hs <;>
    (cases p <;> simp [phaseCtx])
  | dnsDone info =>
    rcases dns with _ | ⟨cid, _ | i⟩ <;> rcases info with ⟨ad, _ | e, co⟩ <;>
    simp [step, HTTPSpans.DNSDone, bind, Except.bind, pure, Except.pure, onSpan, SpanFromContext,
        StartSpanFromContext] at hs <;>
    subst hs <;>
    (cases p <;> simp [phaseCtx])
  | connectDone nw ad err =>
    rcases dial with _ | ⟨cid, _ | i⟩ <;> rcases err with _ | e <;>
    simp [step, HTTPSpans.ConnectDone, bind, Except.bind, pure, Except.pure, onSpan,
        SpanFromContext, StartSpanFromContext] at hs <;>
    subst hs <;>
    (cases p <;> simp [phaseCtx])
  | tlsHandshakeDone cs err =>
    rcases tls with _ | ⟨cid, _ | i⟩ <;> rcases err with _ | e <;>
    simp [step, HTTPSpans.TLSHandshakeDone, bind, Except.bind, pure, Except.pure, onSpan,
        SpanFromContext, StartSpanFromContext] at hs <;>
    subst hs <;>
    (cases p <;> simp [phaseCtx])
  | gotFirstResponseByte =>
    rcases resp with _ | ⟨cid, _ | i⟩ <;>
    simp [step, HTTPSpans.GotFirstResponseByte, bind, Except.bind, pure, Except.pure, onSpan,
        SpanFromContext, StartSpanFromContext] at hs <;>
    subst hs <;>
    (cases p <;> simp [phaseCtx])
  | gotConn info err =>
    rcases conn with _ | ⟨cid, _ | i⟩ <;> rcases err with _ | e <;>
    rcases info with _ | ⟨r, _ | _, t⟩ <;> rcases op with _ | op <;>
    simp [step, HTTPSpans.GotConn, bind, Except.bind, pure, Except.pure, onSpan, SpanFromContext,
        StartSpanFromContext] at hs <;>
    subst hs <;>
    (cases p <;> simp [phaseCtx])
  | wroteRequest info =>
    rcases info with ⟨err⟩
    rcases conn with _ | ⟨cid, _ | i⟩ <;> rcases req with _ | ⟨rid, _ | k⟩ <;>
    rcases err with _ | e <;> rcases op with _ | op <;>
    simp [step, HTTPSpans.WroteRequest, bind, Except.bind, pure, Except.pure, onSpan,
        SpanFromContext, StartSpanFromContext] at hs <;>
    subst hs <;>
    (cases p <;> simp [phaseCtx])

set_option maxHeartbeats 4000000 in
/-- A recorded span changed by a hook is the span of a phase the hook closes,
and it has received one `Finish`, or two when it is the span of both the
connect and the request context. -/
theorem step_touch (s s' : State) (h : Hook) (j : Nat) (a b : Span)
    (hwf : WellFormed s = true) (hs : step s h = .ok s') (ha : s.spans[j]? = some a)
    (hb : s'.spans[j]? = some b) :
    b = a ∨ (([Phase.connect, .dns, .dial, .tls, .request, .response].any
        (fun p => closes h p && (phaseSpan s.xt p == some j)) = true) ∧
      (b.finished = a.finished + 1 ∨
        (phaseSpan s.xt .connect = some j ∧ phaseSpan s.xt .request = some j))) := by
  revert hb
  have hres := fun p c => wf_resolves hwf (p := p) (c := c)
  obtain ⟨op0, hop⟩ := wf_opCtx hwf
  rcases s with ⟨⟨op, conn, dns, dial, tls, req, resp⟩, spans⟩
  simp only at hop hres
  subst hop
  clear hwf
  simp only at ha
  have hlt : j < spans.length := (List.getElem?_eq_some.1 ha).1
  cases h with
  | getConn hostPort =>
    simp [step, HTTPSpans.GetConn, bind, Except.bind, pure, Except.pure, onSpan, SpanFromContext,
        StartSpanFromContext, *] at hs <;>
    (first | subst hs | skip) <;>
    simp [List.getElem?_modify, List.getElem?_append, -List.getElem?_eq_getElem, closes,
        phaseSpan, phaseCtx, SpanFromContext, *] <;> rintro rfl <;> simp
  | dnsStart info =>
    rcases conn with _ | ci
    · simp [step, HTTPSpans.DNSStart, bind, Except.bind, pure, Except.pure, onSpan,
        SpanFromContext, StartSpanFromContext, *] at hs <;>
      (first | subst hs | skip) <;>
      simp [List.getElem?_modify, List.getElem?_append, -List.getElem?_eq_getElem, closes,
          phaseSpan, phaseCtx, SpanFromContext, *] <;> rintro rfl <;> simp
    · obtain ⟨i, hci, hli⟩ := hres Phase.connect ci rfl
      by_cases hij : i = j <;>
      (first | subst hij | skip) <;>
      simp [step, HTTPSpans.DNSStart, bind, Except.bind, pure, Except.pure, onSpan,
          SpanFromContext, StartSpanFromContext, *] at hs <;>
      (first | subst hs | skip) <;>
      simp [List.getElem?_modify, List.getElem?_append, -List.getElem?_eq_getElem, closes,
          phaseSpan, phaseCtx, SpanFromContext, *] <;> rintro rfl <;> simp
  | connectStart nw ad =>
    rcases conn with _ | ci
    · simp [step, HTTPSpans.ConnectStart, bind, Except.bind, pure, Except.pure, onSpan,
        SpanFromContext, StartSpanFromContext, *] at hs <;>
      (first | subst hs | skip) <;>
      simp [List.getElem?_modify, List.getElem?_append, -List.getElem?_eq_getElem, closes,
          phaseSpan, phaseCtx, SpanFromContext, *] <;> rintro rfl <;> simp
    · obtain ⟨i, hci, hli⟩ := hres Phase.connect ci rfl
      by_cases hij : i = j <;>
      (first | subst hij | skip) <;>
      simp [step, HTTPSpans.ConnectStart, bind, Except.bind, pure, Except.pure, onSpan,
          SpanFromContext, StartSpanFromContext, *] at hs <;>
      (first | subst hs | skip) <;>
      simp [List.getElem?_modify, List.getElem?_append, -List.getElem?_eq_getElem, closes,
          phaseSpan, phaseCtx, SpanFromContext, *] <;> rintro rfl <;> simp
  | tlsHandshakeStart  =>
    rcases conn with _ | ci
    · simp [step, HTTPSpans.TLSHandshakeStart, bind, Except.bind, pure, Except.pure, onSpan,
        SpanFromContext, StartSpanFromContext, *] at hs <;>
      (first | subst hs | skip) <;>
      simp [List.getElem?_modify, List.getElem?_append, -List.getElem?_eq_getElem, closes,
          phaseSpan, phaseCtx, SpanFromContext, *] <;> rintro rfl <;> simp
    · obtain ⟨i, hci, hli⟩ := hres Phase.connect ci rfl
      by_cases hij : i = j <;>
      (first | subst hij | skip) <;>
      simp [step, HTTPSpans.TLSHandshakeStart, bind, Except.bind, pure, Except.pure, onSpan,
          SpanFromContext, StartSpanFromContext, *] at hs <;>
      (first | subst hs | skip) <;>
      simp [List.getElem?_modify, List.getElem?_append, -List.getElem?_eq_getElem, closes,
          phaseSpan, phaseCtx, SpanFromContext, *] <;> rintro rfl <;> simp
  | dnsDone info =>
    rcases dns with _ | ci
    · rcases info with ⟨ad, _ | e, co⟩ <;>
      simp [step, HTTPSpans.DNSDone, bind, Except.bind, pure, Except.pure, onSpan,
          SpanFromContext, StartSpanFromContext, *] at hs <;>
      (first | subst hs | skip) <;>
      simp [List.getElem?_modify, List.getElem?_append, -List.getElem?_eq_getElem, closes,
          phaseSpan, phaseCtx, SpanFromContext, *] <;> rintro rfl <;> simp
    · obtain ⟨i, hci, hli⟩ := hres Phase.dns ci rfl
      rcases info with ⟨ad, _ | e, co⟩ <;>
      by_cases hij : i = j <;>
      (first | subst hij | skip) <;>
      simp [step, HTTPSpans.DNSDone, bind, Except.bind, pure, Except.pure, onSpan,
          SpanFromContext, StartSpanFromContext, *] at hs <;>
      (first | subst hs | skip) <;>
      simp [List.getElem?_modify, List.getElem?_append, -List.getElem?_eq_getElem, closes,
          phaseSpan, phaseCtx, SpanFromContext, *] <;> rintro rfl <;> simp
  | connectDone nw ad err =>
    rcases dial with _ | ci
    · rcases err with _ | e <;>
      simp [step, HTTPSpans.ConnectDone, bind, Except.bind, pure, Except.pure, onSpan,
          SpanFromContext, StartSpanFromContext, *] at hs <;>
      (first | subst hs | skip) <;>
      simp [List.getElem?_modify, List.getElem?_append, -List.getElem?_eq_getElem, closes,
          phaseSpan, phaseCtx, SpanFromContext, *] <;> rintro rfl <;> simp
    · obtain ⟨i, hci, hli⟩ := hres Phase.dial ci rfl
      rcases err with _ | e <;>
      by_cases hij : i = j <;>
      (first | subst hij | skip) <;>
      simp [step, HTTPSpans.ConnectDone, bind, Except.bind, pure, Except.pure, onSpan,
          SpanFromContext, StartSpanFromContext, *] at hs <;>
      (first | subst hs | skip) <;>
      simp [List.getElem?_modify, List.getElem?_append, -List.getElem?_eq_getElem, closes,
          phaseSpan, phaseCtx, SpanFromContext, *] <;> rintro rfl <;> simp
  | tlsHandshakeDone cs err =>
    rcases tls with _ | ci
    · rcases err with _ | e <;>
      simp [step, HTTPSpans.TLSHandshakeDone, bind, Except.bind, pure, Except.pure, onSpan,
          SpanFromContext, StartSpanFromContext, *] at hs <;>
      (first | subst hs | skip) <;>
      simp [List.getElem?_modify, List.getElem?_append, -List.getElem?_eq_getElem, closes,
          phaseSpan, phaseCtx, SpanFromContext, *] <;> rintro rfl <;> simp
    · obtain ⟨i, hci, hli⟩ := hres Phase.tls ci rfl
      rcases err with _ | e <;>
      by_cases hij : i = j <;>
      (first | subst hij | skip) <;>
      simp [step, HTTPSpans.TLSHandshakeDone, bind, Except.bind, pure, Except.pure, onSpan,
          SpanFromContext, StartSpanFromContext, *] at hs <;>
      (first | subst hs | skip) <;>
      simp [List.getElem?_modify, List.getElem?_append, -List.getElem?_eq_getElem, closes,
          phaseSpan, phaseCtx, SpanFromContext, *] <;> rintro rfl <;> simp
  | gotFirstResponseByte  =>
    rcases resp with _ | ci
    · simp [step, HTTPSpans.GotFirstResponseByte, bind, Except.bind, pure, Except.pure, onSpan,
        SpanFromContext, StartSpanFromContext, *] at hs <;>
      (first | subst hs | skip) <;>
      simp [List.getElem?_modify, List.getElem?_append, -List.getElem?_eq_getElem, closes,
          phaseSpan, phaseCtx, SpanFromContext, *] <;> rintro rfl <;> simp
    · obtain ⟨i, hci, hli⟩ := hres Phase.response ci rfl
      by_cases hij : i = j <;>
      (first | subst hij | skip) <;>
      simp [step, HTTPSpans.GotFirstResponseByte, bind, Except.bind, pure, Except.pure, onSpan,
          SpanFromContext, StartSpanFromContext, *] at hs <;>
      (first | subst hs | skip) <;>
      simp [List.getElem?_modify, List.getElem?_append, -List.getElem?_eq_getElem, closes,
          phaseSpan, phaseCtx, SpanFromContext, *] <;> rintro rfl <;> simp
  | gotConn info err =>
    rcases conn with _ | ci
    · rcases err with _ | e <;> rcases info with _ | ⟨r, _ | _, t⟩ <;>
      simp [step, HTTPSpans.GotConn, bind, Except.bind, pure, Except.pure, onSpan,
          SpanFromContext, StartSpanFromContext, *] at hs <;>
      (first | subst hs | skip) <;>
      simp [List.getElem?_modify, List.getElem?_append, -List.getElem?_eq_getElem, closes,
          phaseSpan, phaseCtx, SpanFromContext, *] <;> rintro rfl <;> simp
    · obtain ⟨i, hci, hli⟩ := hres Phase.connect ci rfl
      rcases err with _ | e <;> rcases info with _ | ⟨r, _ | _, t⟩ <;>
      by_cases hij : i = j <;>
      (first | subst hij | skip) <;>
      simp [step, HTTPSpans.GotConn, bind, Except.bind, pure, Except.pure, onSpan,
          SpanFromContext, StartSpanFromContext, *] at hs <;>
      (first | subst hs | skip) <;>
      simp [List.getElem?_modify, List.getElem?_append, -List.getElem?_eq_getElem, closes,
          phaseSpan, phaseCtx, SpanFromContext, *] <;> rintro rfl <;> simp
  | wroteRequest info =>
    rcases conn with _ | ci
    · rcases req with _ | ck
      · rcases info with ⟨_ | e⟩ <;>
        simp [step, HTTPSpans.WroteRequest, bind, Except.bind, pure, Except.pure, onSpan,
            SpanFromContext, StartSpanFromContext, *] at hs <;>
        (first | subst hs | skip) <;>
        simp [List.getElem?_modify, List.getElem?_append, -List.getElem?_eq_getElem, closes,
            phaseSpan, phaseCtx, SpanFromContext, *] <;> rintro rfl <;> simp
      · obtain ⟨k, hck, hlk⟩ := hres Phase.request ck rfl
        rcases info with ⟨_ | e⟩ <;>
        by_cases hkj : k = j <;>
        (first | subst hkj | skip) <;>
        simp [step, HTTPSpans.WroteRequest, bind, Except.bind, pure, Except.pure, onSpan,
            SpanFromContext, StartSpanFromContext, *] at hs <;>
        (first | subst hs | skip) <;>
        simp [List.getElem?_modify, List.getElem?_append, -List.getElem?_eq_getElem, closes,
            phaseSpan, phaseCtx, SpanFromContext, *] <;> rintro rfl <;> simp
    · obtain ⟨i, hci, hli⟩ := hres Phase.connect ci rfl
      rcases req with _ | ck
      · rcases info with ⟨_ | e⟩ <;>
        by_cases hij : i = j <;>
        (first | subst hij | skip) <;>
        simp [step, HTTPSpans.WroteRequest, bind, Except.bind, pure, Except.pure, onSpan,
            SpanFromContext, StartSpanFromContext, *] at hs <;>
        (first | subst hs | skip) <;>
        simp [List.getElem?_modify, List.getElem?_append, -List.getElem?_eq_getElem, closes,
            phaseSpan, phaseCtx, SpanFromContext, *] <;> rintro rfl <;> simp
      · obtain ⟨k, hck, hlk⟩ := hres Phase.request ck rfl
        rcases info with ⟨_ | e⟩ <;>
        by_cases hij : i = j <;>
        by_cases hkj : k = j <;>
        (first | subst hij | skip) <;>
        (first | subst hkj | skip) <;>
        simp [step, HTTPSpans.WroteRequest, bind, Except.bind, pure, Except.pure, onSpan,
            SpanFromContext, StartSpanFromContext, *] at hs <;>
        (first | subst hs | skip) <;>
        simp [List.getElem?_modify, List.getElem?_append, -List.getElem?_eq_getElem, closes,
            phaseSpan, phaseCtx, SpanFromContext, *] <;> rintro rfl <;> simp

/-- After a hook that opens a phase, the context of that phase, if set, refers
to the span the hook has just recorded. -/
theorem step_opens (s s' : State) (h : Hook) (p : Phase) (j : Nat) (hs : step s h = .ok s')
    (hconn : s.xt.connCtx ≠ none ∨ ∃ hostPort, h = .getConn hostPort)
    (hreq : s.xt.responseCtx ≠ none → s.xt.reqCtx ≠ none)
    (hp : opens h p = true) (hj : phaseSpan s'.xt p = some j) : j = s.spans.length := by
  revert hp hj
  rcases s with ⟨⟨op, conn, dns, dial, tls, req, resp⟩, spans⟩
  cases h with
  | getConn hostPort =>
    rcases op with _ | op <;>
    simp [step, HTTPSpans.GetConn, bind, Except.bind, pure, Except.pure, onSpan, SpanFromContext,
        StartSpanFromContext] at hs <;>
    subst hs <;>
    (cases p <;> simp_all [opens, phaseSpan, phaseCtx, SpanFromContext, eq_comm])
  | dnsStart info =>
    rcases conn with _ | ⟨cid, _ | i⟩ <;>
    simp [step, HTTPSpans.DNSStart, bind, Except.bind, pure, Except.pure, onSpan, SpanFromContext,
        StartSpanFromContext] at hs <;>
    subst hs <;>
    (cases p <;> simp_all [opens, phaseSpan, phaseCtx, SpanFromContext, eq_comm])
  | connectStart nw ad =>
    rcases conn with _ | ⟨cid, _ | i⟩ <;>
    simp [step, HTTPSpans.ConnectStart, bind, Except.bind, pure, Except.pure, onSpan,
        SpanFromContext, StartSpanFromContext] at hs <;>
    subst hs <;>
    (cases p <;> simp_all [opens, phaseSpan, phaseCtx, SpanFromContext, eq_comm])
  | tlsHandshakeStart =>
    rcases conn with _ | ⟨cid, _ | i⟩ <;>
    simp [step, HTTPSpans.TLSHandshakeStart, bind, Except.bind, pure, Except.pure, onSpan,
        SpanFromContext, StartSpanFromContext] at hs <;>
    subst hs <;>
    (cases p <;> simp_all [opens, phaseSpan, phaseCtx, SpanFromContext, eq_comm])
  | dnsDone info =>
    rcases dns with _ | ⟨cid, _ | i⟩ <;> rcases info with ⟨ad, _ | e, co⟩ <;>
    simp [step, HTTPSpans.DNSDone, bind, Except.bind, pure, Except.pure, onSpan, SpanFromContext,
        StartSpanFromContext] at hs <;>
    subst hs <;>
    (cases p <;> simp_all [opens, phaseSpan, phaseCtx, SpanFromContext, eq_comm])
  | connectDone nw ad err =>
    rcases dial with _ | ⟨cid, _ | i⟩ <;> rcases err with _ | e <;>
    simp [step, HTTPSpans.ConnectDone, bind, Except.bind, pure, Except.pure, onSpan,
        SpanFromContext, StartSpanFromContext] at hs <;>
    subst hs <;>
    (cases p <;> simp_all [opens, phaseSpan, phaseCtx, SpanFromContext, eq_comm])
  | tlsHandshakeDone cs err =>
    rcases tls with _ | ⟨cid, _ | i⟩ <;> rcases err with _ | e <;>
    simp [step, HTTPSpans.TLSHandshakeDone, bind, Except.bind, pure, Except.pure, onSpan,
        SpanFromContext, StartSpanFromContext] at hs <;>
    subst hs <;>
    (cases p <;> simp_all [opens, phaseSpan, phaseCtx, SpanFromContext, eq_comm])
  | gotFirstResponseByte =>
    rcases resp with _ | ⟨cid, _ | i⟩ <;>
    simp [step, HTTPSpans.GotFirstResponseByte, bind, Except.bind, pure, Except.pure, onSpan,
        SpanFromContext, StartSpanFromContext] at hs <;>
    subst hs <;>
    (cases p <;> simp_all [opens, phaseSpan, phaseCtx, SpanFromContext, eq_comm])
  | gotConn info err =>
    rcases conn with _ | ⟨cid, _ | i⟩ <;> rcases err with _ | e <;>
    rcases info with _ | ⟨r, _ | _, t⟩ <;> rcases op with _ | op <;>
    simp [step, HTTPSpans.GotConn, bind, Except.bind, pure, Except.pure, onSpan, SpanFromContext,
        StartSpanFromContext] at hs <;>
    subst hs <;>
    (cases p <;> simp_all [opens, phaseSpan, phaseCtx, SpanFromContext, eq_comm])
  | wroteRequest info =>
    rcases info with ⟨err⟩
    rcases conn with _ | ⟨cid, _ | i⟩ <;> rcases req with _ | ⟨rid, _ | k⟩ <;>
    rcases err with _ | e <;> rcases op with _ | op <;>
    simp [step, HTTPSpans.WroteRequest, bind, Except.bind, pure, Except.pure, onSpan,
        SpanFromContext, StartSpanFromContext] at hs <;>
    subst hs <;>
    (cases p <;> simp_all [opens, phaseSpan, phaseCtx, SpanFromContext, eq_comm])

/-- A hook opens at most one phase. -/
theorem opens_unique (h : Hook) (p q : Phase) (hp : opens h p = true) (hq : opens h q = true) :
    p = q := by
  cases h <;> cases p <;> simp [opens] at hp <;> cases q <;> simp [opens] at hq ⊢

/-- The response context is only ever set while the request context is set. -/
theorem step_reqCtx (s s' : State) (h : Hook) (hs : step s h = .ok s')
    (hreq : s.xt.responseCtx ≠ none → s.xt.reqCtx ≠ none) :
    s'.xt.responseCtx ≠ none → s'.xt.reqCtx ≠ none := by
  revert hreq
  rcases s with ⟨⟨op, conn, dns, dial, tls, req, resp⟩, spans⟩
  cases h with
  | getConn hostPort =>
    rcases op with _ | op <;>
    simp [step, HTTPSpans.GetConn, bind, Except.bind, pure, Except.pure, onSpan, SpanFromContext,
        StartSpanFromContext] at hs <;>
    subst hs <;>
    simp
  | dnsStart info =>
    rcases conn with _ | ⟨cid, _ | i⟩ <;>
    simp [step, HTTPSpans.DNSStart, bind, Except.bind, pure, Except.pure, onSpan, SpanFromContext,
        StartSpanFromContext] at hs <;>
    subst hs <;>
    simp
  | connectStart nw ad =>
    rcases conn with _ | ⟨cid, _ | i⟩ <;>
    simp [step, HTTPSpans.ConnectStart, bind, Except.bind, pure, Except.pure, onSpan,
        SpanFromContext, StartSpanFromContext] at hs <;>
    subst hs <;>
    simp
  | tlsHandshakeStart =>
    rcases conn with _ | ⟨cid, _ | i⟩ <;>
    simp [step, HTTPSpans.TLSHandshakeStart, bind, Except.bind, pure, Except.pure, onSpan,
        SpanFromContext, StartSpanFromContext] at hs <;>
    subst hs <;>
    simp
  | dnsDone info =>
    rcases dns with _ | ⟨cid, _ | i⟩ <;> rcases info with ⟨ad, _ | e, co⟩ <;>
    simp [step, HTTPSpans.DNSDone, bind, Except.bind, pure, Except.pure, onSpan, SpanFromContext,
        StartSpanFromContext] at hs <;>
    subst hs <;>
    simp
  | connectDone nw ad err =>
    rcases dial with _ | ⟨cid, _ | i⟩ <;> rcases err with _ | e <;>
    simp [step, HTTPSpans.ConnectDone, bind, Except.bind, pure, Except.pure, onSpan,
        SpanFromContext, StartSpanFromContext] at hs <;>
    subst hs <;>
    simp
  | tlsHandshakeDone cs err =>
    rcases tls with _ | ⟨cid, _ | i⟩ <;> rcases err with _ | e <;>
    simp [step, HTTPSpans.TLSHandshakeDone, bind, Except.bind, pure, Except.pure, onSpan,
        SpanFromContext, StartSpanFromContext] at hs <;>
    subst hs <;>
    simp
  | gotFirstResponseByte =>
    rcases resp with _ | ⟨cid, _ | i⟩ <;>
    simp [step, HTTPSpans.GotFirstResponseByte, bind, Except.bind, pure, Except.pure, onSpan,
        SpanFromContext, StartSpanFromContext] at hs <;>
    subst hs <;>
    simp
  | gotConn info err =>
    rcases conn with _ | ⟨cid, _ | i⟩ <;> rcases err with _ | e <;>
    rcases info with _ | ⟨r, _ | _, t⟩ <;> rcases op with _ | op <;>
    simp [step, HTTPSpans.GotConn, bind, Except.bind, pure, Except.pure, onSpan, SpanFromContext,
        StartSpanFromContext] at hs <;>
    subst hs <;>
    simp
  | wroteRequest info =>
    rcases info with ⟨err⟩
    rcases conn with _ | ⟨cid, _ | i⟩ <;> rcases req with _ | ⟨rid, _ | k⟩ <;>
    rcases err with _ | e <;> rcases op with _ | op <;>
    simp [step, HTTPSpans.WroteRequest, bind, Except.bind, pure, Except.pure, onSpan,
        SpanFromContext, StartSpanFromContext] at hs <;>
    subst hs <;>
    simp

theorem phaseName_inj {p q : Phase} (h : phaseName p = phaseName q) : p = q := by
  cases p <;> cases q <;> simp [phaseName] at h ⊢

/-- The span a phase context refers to is recorded under the name of the
phase; every hook keeps it so. -/
theorem step_names (s s' : State) (h : Hook) (hwf : WellFormed s = true)
    (hs : step s h = .ok s')
    (hN : ∀ (p : Phase) (j : Nat), phaseSpan s.xt p = some j →
      ∃ a, s.spans[j]? = some a ∧ a.name = phaseName p) :
    ∀ (p : Phase) (j : Nat), phaseSpan s'.xt p = some j →
      ∃ b, s'.spans[j]? = some b ∧ b.name = phaseName p := by
  intro p j hj
  cases hc : phaseCtx s'.xt p with
  | none => simp [phaseSpan, hc] at hj
  | some c =>
    have hcj : c.span = some j := by simpa [phaseSpan, hc, SpanFromContext] using hj
    rcases step_ctx s s' h p c hs hc with hold | ⟨hnew, hlen⟩
    · obtain ⟨a, ha, hn⟩ := hN p j (by simp [phaseSpan, hold, SpanFromContext, hcj])
      obtain ⟨b, hb, hbn, -⟩ := step_old s s' h j a hs ha
      exact ⟨b, hb, hbn.trans hn⟩
    · have hjl : j = s.spans.length := by
        rw [hcj] at hnew
        exact Option.some.inj hnew
      obtain ⟨b, hb⟩ : ∃ b, s'.spans[j]? = some b :=
        ⟨_, List.getElem?_eq_getElem (by omega)⟩
      obtain ⟨-, -, -, q, hq, -, hname, -⟩ := step_new s s' h j b hwf hs (by omega) hb
      have hop : opens h p = true := by
        by_contra hno
        have hfr := step_frame s s' h p hs (by simpa using hno)
        rw [hc] at hfr
        obtain ⟨i, hi, hlt⟩ := wf_resolves hwf hfr.symm
        rw [hcj] at hi
        have := Option.some.inj hi
        omega
      rw [opens_unique h p q hop hq]
      exact ⟨b, hb, hname⟩

/-- The induction behind the count of C1: when no phase other than connect is
closed twice without being reopened, no span other than a connect span
receives more than one `Finish`. -/
theorem run_once (hs : List Hook) (s s' : State) (hwf : WellFormed s = true)
    (hc : s.xt.connCtx ≠ none ∨ ∃ hostPort rest, hs = .getConn hostPort :: rest)
    (hreq : s.xt.responseCtx ≠ none → s.xt.reqCtx ≠ none)
    (hN : ∀ (p : Phase) (j : Nat), phaseSpan s.xt p = some j →
      ∃ a, s.spans[j]? = some a ∧ a.name = phaseName p)
    (hO : ∀ (j : Nat) (a : Span), s.spans[j]? = some a → a.name ≠ "connect" →
      a.finished ≤ 1 ∧
        (a.finished = 1 → ∀ p, phaseSpan s.xt p = some j → noCloseUntilOpen p hs = true))
    (hrep : noRepeatedClose hs = true) (hr : run s hs = .ok s') :
    ∀ (j : Nat) (b : Span), s'.spans[j]? = some b → b.name ≠ "connect" → b.finished ≤ 1 := by
  induction hs generalizing s with
  | nil =>
    cases hr
    intro j b hb hn
    exact (hO j b hb hn).1
  | cons h t ih =>
    obtain ⟨s1, h1, h2⟩ := run_cons_ok hr
    have hc' : s.xt.connCtx ≠ none ∨ ∃ hostPort, h = .getConn hostPort := by
      rcases hc with hc | ⟨hp, rest, hc⟩
      · exact Or.inl hc
      · exact Or.inr ⟨hp, (List.cons.inj hc).1⟩
    have hN1 := step_names s s1 h hwf h1 hN
    have hrep1 : ∀ p, p ≠ Phase.connect → closes h p = true → noCloseUntilOpen p t = true := by
      intro p hp hcl
      have := hrep
      simp only [noRepeatedClose, Bool.and_eq_true, List.all_eq_true] at this
      have h3 := this.1 p (by cases p <;> simp at hp ⊢)
      simpa [hcl] using h3
    have hrest : noRepeatedClose t = true := by
      have := hrep
      simp only [noRepeatedClose, Bool.and_eq_true] at this
      exact this.2
    refine ih s1 (step_wf s s1 h hwf h1) (Or.inl (step_connCtx s s1 h h1 hc'))
      (step_reqCtx s s1 h h1 hreq) hN1 ?_ hrest h2
    intro j b hb hn
    by_cases hlt : j < s.spans.length
    · obtain ⟨a, ha⟩ : ∃ a, s.spans[j]? = some a := ⟨_, List.getElem?_eq_getElem hlt⟩
      have hname : b.name = a.name := by
        obtain ⟨b', hb', hbn, -⟩ := step_old s s1 h j a h1 ha
        rw [hb] at hb'
        cases hb'
        exact hbn
      obtain ⟨hle, hone⟩ := hO j a ha (by rw [← hname]; exact hn)
      rcases step_touch s s1 h j a b hwf h1 ha hb with rfl | ⟨hany, hfin⟩
      · refine ⟨hle, ?_⟩
        intro hf1 q hq
        by_cases hoq : opens h q = true
        · have := step_opens s s1 h q j h1 hc' hreq hoq hq
          omega
        · have hfr : phaseSpan s.xt q = some j := by
            simp only [phaseSpan] at hq ⊢
            rwa [step_frame s s1 h q h1 (by simpa using hoq)] at hq
          have := hone hf1 q hfr
          simp only [noCloseUntilOpen, Bool.and_eq_true, Bool.or_eq_true] at this
          rcases this.2 with h3 | h3
          · exact absurd h3 hoq
          · exact h3
      · obtain ⟨p, hcl, hpj⟩ : ∃ p, closes h p = true ∧ phaseSpan s.xt p = some j := by
          simp only [List.any_eq_true, Bool.and_eq_true, beq_iff_eq] at hany
          obtain ⟨p, -, h3, h4⟩ := hany
          exact ⟨p, h3, h4⟩
        have hfin' : b.finished = a.finished + 1 := by
          rcases hfin with h3 | ⟨hc1, -⟩
          · exact h3
          · obtain ⟨a1, ha1, hn1⟩ := hN .connect j hc1
            rw [ha] at ha1
            cases ha1
            exact absurd (hname.trans hn1) hn
        have ha0 : a.finished = 0 := by
          by_contra hne
          have h3 := hone (by omega) p hpj
          simp [noCloseUntilOpen, hcl] at h3
        refine ⟨by omega, ?_⟩
        intro _ q hq
        obtain ⟨b1, hb1, hnq⟩ := hN1 q j hq
        rw [hb] at hb1
        cases hb1
        obtain ⟨a1, ha1, hnp⟩ := hN p j hpj
        rw [ha] at ha1
        cases ha1
        have hqp : q = p := phaseName_inj (hnq.symm.trans (hname.trans hnp))
        subst hqp
        exact hrep1 q (by rintro rfl; exact hn hnq) hcl
    · obtain ⟨-, -, hf0, -⟩ := step_new s s1 h j b hwf h1 (by omega) hb
      exact ⟨by omega, by intro h3; omega⟩

/-! ### Claims about sequences -/

/-- C5: take a hook sequence on a fresh tracker (non-nil parent `op`) that
begins with `GetConn`, and any hook `h` of it, with `pre` the hooks before it.
The hooks of `pre` run without panic to a state `s`, `h` runs without panic
from `s`, every span recorded in `s` keeps its name and parent, and every span
`h` creates is named after one of the six phases; if its name is dns, dial or
tls its parent is the span of the connect context of `s` (which is set), and if
its name is connect, request or response its parent is the span of the
operation context. -/
theorem span_parent_links (op : Ctx) (hostPort : String) (rest pre post : List Hook) (h : Hook)
    (hsplit : Hook.getConn hostPort :: rest = pre ++ h :: post) :
    ∃ s s', run (fresh (some op)) pre = .ok s ∧ step s h = .ok s' ∧
      (∀ (j : Nat) (a : Span), s.spans[j]? = some a →
        ∃ b, s'.spans[j]? = some b ∧ b.name = a.name ∧ b.parent = a.parent) ∧
      ∀ (j : Nat) (b : Span), s.spans.length ≤ j → s'.spans[j]? = some b →
        (b.name ∈ ["dns", "dial", "tls"] →
          ∃ c, s.xt.connCtx = some c ∧ b.parent = SpanFromContext c) ∧
        (b.name ∈ ["connect", "request", "response"] → b.parent = SpanFromContext op) ∧
        b.name ∈ ["connect", "dns", "dial", "tls", "request", "response"] := by
  have hpre : ∃ s, run (fresh (some op)) pre = .ok s ∧ WellFormed s = true ∧
      (s.xt.connCtx ≠ none ∨ ∃ hp, h = .getConn hp) := by
    cases pre with
    | nil => exact ⟨_, rfl, wf_fresh op, Or.inr ⟨hostPort, (List.cons.inj hsplit).1.symm⟩⟩
    | cons h0 t =>
      obtain ⟨s, h1, h2, h3⟩ := run_ok (h0 :: t) (fresh (some op)) (wf_fresh op)
        (Or.inr ⟨hostPort, t, by rw [← (List.cons.inj hsplit).1]⟩)
      exact ⟨s, h1, h2, Or.inl h3⟩
  obtain ⟨s, hrun, hwf, hc⟩ := hpre
  obtain ⟨s', hstep⟩ := step_ok s h hwf hc
  have hop : s.xt.opCtx = some op := by rw [run_opCtx hrun]; rfl
  refine ⟨s, s', hrun, hstep, ?_, ?_⟩
  · intro j a ha
    obtain ⟨b, h1, h2, h3, -⟩ := step_old s s' h j a hstep ha
    exact ⟨b, h1, h2, h3⟩
  · intro j b hj hb
    obtain ⟨-, -, -, p, -, -, hname, par, hpar, hparent⟩ := step_new s s' h j b hwf hstep hj hb
    cases p <;> simp [phaseName] at hname <;> simp [parentCtx, hop] at hpar <;>
      simp [hname, hparent, hpar]

/-- Witness of C5: the sequence `GetConn`, `DNSStart`, seen at its second hook. -/
theorem span_parent_links_witness :
    ∃ s s', run (fresh (some background)) [.getConn "host:443"] = .ok s ∧
      step s (.dnsStart ⟨"host"⟩) = .ok s' ∧
      ∀ (j : Nat) (b : Span), s.spans.length ≤ j → s'.spans[j]? = some b →
        (b.name ∈ ["dns", "dial", "tls"] →
          ∃ c, s.xt.connCtx = some c ∧ b.parent = SpanFromContext c) := by
  obtain ⟨s, s', h1, h2, -, h4⟩ :=
    span_parent_links background "host:443" [.dnsStart ⟨"host"⟩] [.getConn "host:443"] []
      (.dnsStart ⟨"host"⟩) rfl
  exact ⟨s, s', h1, h2, fun j b hj hb => (h4 j b hj hb).1⟩

/-- A sequence without a hook opening phase `p` leaves the context of `p` as
it was. -/
theorem run_frame {s s' : State} {hs : List Hook} {p : Phase} (hr : run s hs = .ok s')
    (hp : ∀ h ∈ hs, opens h p = false) : phaseCtx s'.xt p = phaseCtx s.xt p := by
  induction hs generalizing s with
  | nil => cases hr; rfl
  | cons h t ih =>
    obtain ⟨s1, h1, h2⟩ := run_cons_ok hr
    rw [ih h2 (fun x hx => hp x (List.mem_cons_of_mem _ hx)),
      step_frame s s1 h p h1 (hp h (List.mem_cons_self _ _))]

/-- C7 (counterexample): a second `GetConn` replaces the connect context set by
the first one with the context of a new span. -/
theorem getConn_twice_replaces_connCtx :
    ∃ s1 s2, run (fresh (some background)) [.getConn "a:443"] = .ok s1 ∧
      run s1 [.getConn "b:443"] = .ok s2 ∧
      s1.xt.connCtx = some { id := 0, span := some 0 } ∧
      s2.xt.connCtx = some { id := 0, span := some 1 } :=
  ⟨_, _, rfl, rfl, rfl, rfl⟩

/-- C7 (amended): on a fresh tracker, if the hook that opens phase `p`
(`GetConn` for connect, `DNSStart` for dns, `ConnectStart` for dial,
`TLSHandshakeStart` for tls, `GotConn` without error for request,
`WroteRequest` for response) occurs at most once in the whole sequence, then
the context of `p`, once set, is the same after every later hook. -/
theorem phase_context_assigned_once (opCtx : Option Ctx) (pre post : List Hook) (s s' : State)
    (p : Phase) (c : Ctx) (hpre : run (fresh opCtx) pre = .ok s) (hpost : run s post = .ok s')
    (hset : phaseCtx s.xt p = some c)
    (honce : (pre ++ post).countP (fun h => opens h p) ≤ 1) :
    phaseCtx s'.xt p = some c := by
  have h1 : 0 < pre.countP (fun h => opens h p) := by
    by_contra hzero
    have hnone : ∀ h ∈ pre, opens h p = false := by
      intro h hh
      by_contra hne
      exact hzero (List.countP_pos_iff.2 ⟨h, hh, by simpa using hne⟩)
    have := run_frame hpre hnone
    rw [hset] at this
    cases p <;> cases this
  have h2 : post.countP (fun h => opens h p) = 0 := by
    rw [List.countP_append] at honce
    omega
  have h3 : ∀ h ∈ post, opens h p = false := by
    intro h hh
    by_contra hne
    have : 0 < post.countP (fun h => opens h p) :=
      List.countP_pos_iff.2 ⟨h, hh, by simpa using hne⟩
    omega
  rw [run_frame hpost h3, hset]

/-- Witness of C7: after `GetConn`, the hooks `DNSStart`, `GotConn` and
`WroteRequest` leave the connect context in place. -/
theorem phase_context_assigned_once_witness :
    ∃ s', run afterGetConn [.dnsStart ⟨"host"⟩, .gotConn none none, .wroteRequest ⟨none⟩]
        = .ok s' ∧
      phaseCtx s'.xt Phase.connect = some { id := 0, span := some 0 } :=
  ⟨_, rfl, phase_context_assigned_once (some background) [.getConn "host:443"]
    [.dnsStart ⟨"host"⟩, .gotConn none none, .wroteRequest ⟨none⟩] afterGetConn _
    Phase.connect { id := 0, span := some 0 } rfl rfl rfl (by decide)⟩

/-- C1 (counterexample): the sequence `GetConn`, `DNSStart`,
`GotFirstResponseByte` begins and ends as required and leaves both spans it
opened unfinished. -/
theorem unclosed_spans_stay_open :
    ∃ s, run (fresh (some background))
        [.getConn "host:443", .dnsStart ⟨"host"⟩, .gotFirstResponseByte] = .ok s ∧
      s.spans = [{ name := "connect", parent := none, finished := 0 },
                 { name := "dns", parent := some 0, finished := 0 }] :=
  ⟨_, rfl, rfl⟩

/-- The induction behind C1: from a well-formed state in which every
unfinished span is the span of a phase that the remaining hooks close before
reopening it, a sequence in which every opening is closed runs without panic
and ends with every span finished. -/
theorem run_finishes (hs : List Hook) (s : State) (hwf : WellFormed s = true)
    (hc : s.xt.connCtx ≠ none ∨ ∃ hostPort rest, hs = .getConn hostPort :: rest)
    (hclosed : everyOpenClosed hs = true)
    (howed : ∀ (j : Nat) (a : Span), s.spans[j]? = some a → a.finished = 0 →
      ∃ p, phaseSpan s.xt p = some j ∧ closedLater p hs = true) :
    ∃ s', run s hs = .ok s' ∧ ∀ (j : Nat) (b : Span), s'.spans[j]? = some b → 0 < b.finished := by
  induction hs generalizing s with
  | nil =>
    refine ⟨s, rfl, ?_⟩
    intro j b hb
    by_contra hpos
    obtain ⟨p, -, hp⟩ := howed j b hb (by omega)
    simp [closedLater] at hp
  | cons h t ih =>
    have hc' : s.xt.connCtx ≠ none ∨ ∃ hostPort, h = .getConn hostPort := by
      rcases hc with hc | ⟨hp, rest, hc⟩
      · exact Or.inl hc
      · exact Or.inr ⟨hp, (List.cons.inj hc).1⟩
    obtain ⟨s1, h1⟩ := step_ok s h hwf hc'
    have hopen : ∀ p, opens h p = true → closedLater p t = true := by
      intro p hp
      have := hclosed
      simp only [everyOpenClosed, Bool.and_eq_true, List.all_eq_true] at this
      have h2 := this.1 p (by cases p <;> simp)
      simpa [hp] using h2
    have hrest : everyOpenClosed t = true := by
      have := hclosed
      simp only [everyOpenClosed, Bool.and_eq_true] at this
      exact this.2
    obtain ⟨s', h2, h3⟩ := ih s1 (step_wf s s1 h hwf h1)
      (Or.inl (step_connCtx s s1 h h1 hc')) hrest (by
        intro j b hb hb0
        by_cases hlt : j < s.spans.length
        · obtain ⟨a, ha⟩ : ∃ a, s.spans[j]? = some a := ⟨_, List.getElem?_eq_getElem hlt⟩
          obtain ⟨b', hb', -, -, hor⟩ := step_old s s1 h j a h1 ha
          rw [hb] at hb'
          cases hb'
          rcases hor with rfl | hpos
          · obtain ⟨p, hp1, hp2⟩ := howed j b ha hb0
            simp only [closedLater, Bool.or_eq_true, Bool.and_eq_true, Bool.not_eq_true'] at hp2
            rcases hp2 with hcl | ⟨hno, hlater⟩
            · obtain ⟨b2, hb2, hpos⟩ := step_closes s s1 h p j hwf h1 hcl hp1
              rw [hb] at hb2
              cases hb2
              omega
            · refine ⟨p, ?_, hlater⟩
              simp only [phaseSpan] at hp1 ⊢
              rw [step_frame s s1 h p h1 hno]
              exact hp1
          · omega
        · obtain ⟨-, -, -, p, hp1, hp2, -⟩ := step_new s s1 h j b hwf h1 (by omega) hb
          exact ⟨p, hp2, hopen p hp1⟩)
    exact ⟨s', by simp [run, h1, h2], h3⟩

/-- C1 (amended): on a fresh tracker with a non-nil parent, a hook sequence that
begins with `GetConn` and in which every hook opening a span is followed by a
hook closing that phase before the phase is opened again runs without panic,
and at its end every span the tracker opened has been finished; if moreover no
phase other than connect is closed twice without being opened again in between,
every span other than a connect span has been finished exactly once. -/
theorem opened_spans_finished (op : Ctx) (hostPort : String) (rest : List Hook)
    (hclosed : everyOpenClosed (.getConn hostPort :: rest) = true) :
    ∃ s, run (fresh (some op)) (.getConn hostPort :: rest) = .ok s ∧
      (∀ sp ∈ s.spans, 0 < sp.finished) ∧
      (noRepeatedClose (.getConn hostPort :: rest) = true →
        ∀ sp ∈ s.spans, sp.name ≠ "connect" → sp.finished = 1) := by
  obtain ⟨s, h1, h2⟩ := run_finishes (.getConn hostPort :: rest) (fresh (some op)) (wf_fresh op)
    (Or.inr ⟨hostPort, rest, rfl⟩) hclosed (by intro j a ha; simp [fresh] at ha)
  refine ⟨s, h1, ?_, ?_⟩
  · intro sp hsp
    obtain ⟨j, hj⟩ := List.mem_iff_getElem?.1 hsp
    exact h2 j sp hj
  · intro hrep sp hsp hn
    obtain ⟨j, hj⟩ := List.mem_iff_getElem?.1 hsp
    have hle := run_once (.getConn hostPort :: rest) (fresh (some op)) s (wf_fresh op)
      (Or.inr ⟨hostPort, rest, rfl⟩) (by intro h; exact absurd rfl h)
      (by intro p j hp; cases p <;> simp [phaseSpan, phaseCtx, fresh, NewHTTPSpans] at hp)
      (by intro j a ha; simp [fresh] at ha) hrep h1 j sp hj hn
    have hpos := h2 j sp hj
    omega

/-- Witness of C1: a full round trip with a DNS lookup, a dial and a TLS
handshake. -/
theorem opened_spans_finished_witness :
    ∃ s, run (fresh (some background))
        [.getConn "host:443", .dnsStart ⟨"host"⟩, .dnsDone ⟨[], none, false⟩,
         .connectStart "tcp" "1.2.3.4:443", .connectDone "tcp" "1.2.3.4:443" none,
         .tlsHandshakeStart, .tlsHandshakeDone ⟨false, "h2", true, 4865⟩ none,
         .gotConn (some ⟨false, false, 0⟩) none, .wroteRequest ⟨none⟩,
         .gotFirstResponseByte] = .ok s ∧
      (∀ sp ∈ s.spans, 0 < sp.finished) ∧
      ∀ sp ∈ s.spans, sp.name ≠ "connect" → sp.finished = 1 := by
  obtain ⟨s, h1, h2, h3⟩ := opened_spans_finished background "host:443"
    [.dnsStart ⟨"host"⟩, .dnsDone ⟨[], none, false⟩,
     .connectStart "tcp" "1.2.3.4:443", .connectDone "tcp" "1.2.3.4:443" none,
     .tlsHandshakeStart, .tlsHandshakeDone ⟨false, "h2", true, 4865⟩ none,
     .gotConn (some ⟨false, false, 0⟩) none, .wroteRequest ⟨none⟩,
     .gotFirstResponseByte] (by decide)
  exact ⟨s, h1, h2, h3 (by decide)⟩

/-! ### End-to-end scenarios -/

/-- C11: on a fresh tracker (any non-nil parent), `GetConn("host:443")`,
`ConnectStart("tcp", "1.2.3.4:443")`, `ConnectDone("tcp", "1.2.3.4:443", nil)`,
`GotConn` with `Reused` and `WasIdle` false and no error, `WroteRequest`
without error and `GotFirstResponseByte` run without panic and record exactly
four spans, named connect, dial, request and response; each of them has been
finished and none carries an `error` tag. -/
theorem scenario_dialed_round_trip (op : Ctx) (idleTime : Int) :
    ∃ s, run (fresh (some op))
        [.getConn "host:443", .connectStart "tcp" "1.2.3.4:443",
         .connectDone "tcp" "1.2.3.4:443" none, .gotConn (some ⟨false, false, idleTime⟩) none,
         .wroteRequest ⟨none⟩, .gotFirstResponseByte] = .ok s ∧
      s.spans.map (·.name) = ["connect", "dial", "request", "response"] ∧
      ∀ sp ∈ s.spans, 0 < sp.finished ∧ sp.tag "error" = none := by
  refine ⟨_, rfl, rfl, ?_⟩
  intro sp hsp
  change sp ∈
    [{ name := "connect", parent := SpanFromContext op,
       tags := [("was_idle", .bool false), ("reused", .bool false)], finished := 2 },
     { name := "dial", parent := some 0, tags := [("network", .str "tcp")], finished := 1 },
     { name := "request", parent := SpanFromContext op, finished := 1 },
     { name := "response", parent := SpanFromContext op, finished := 1 }] at hsp
  simp only [List.mem_cons, List.mem_singleton, List.not_mem_nil, or_false] at hsp
  rcases hsp with rfl | rfl | rfl | rfl <;> exact ⟨by simp, rfl⟩

/-- C12 (counterexample): on a fresh tracker `GotConn` for a reused connection,
`WroteRequest` and `GotFirstResponseByte` alone record no span at all. -/
theorem scenario_reused_without_getConn_records_nothing :
    run (fresh (some background))
        [.gotConn (some ⟨true, false, 0⟩) none, .wroteRequest ⟨none⟩, .gotFirstResponseByte]
      = .ok (fresh (some background)) ∧
    (fresh (some background)).spans = [] :=
  ⟨rfl, rfl⟩

/-- C12 (amended): on a fresh tracker (any non-nil parent), `GetConn` followed
by `GotConn` for a reused connection without error, `WroteRequest` without
error and `GotFirstResponseByte` runs without panic and records three spans,
named connect, request and response in this order of creation, so no dns, dial
or tls span; after `WroteRequest` the connect and request spans are finished
and the response span is still open, and after `GotFirstResponseByte` all three
are finished. -/
theorem scenario_reused_round_trip (op : Ctx) (hostPort : String) (wasIdle : Bool)
    (idleTime : Int) :
    ∃ s2 s3, run (fresh (some op))
        [.getConn hostPort, .gotConn (some ⟨true, wasIdle, idleTime⟩) none,
         .wroteRequest ⟨none⟩] = .ok s2 ∧
      run s2 [.gotFirstResponseByte] = .ok s3 ∧
      s2.spans.map (·.name) = ["connect", "request", "response"] ∧
      s2.spans.map (fun sp => decide (0 < sp.finished)) = [true, true, false] ∧
      s3.spans.map (·.name) = ["connect", "request", "response"] ∧
      s3.spans.map (fun sp => decide (0 < sp.finished)) = [true, true, true] := by
  cases wasIdle <;> exact ⟨_, _, rfl, rfl, rfl, rfl, rfl, rfl⟩

/-- C13 (counterexample): on a fresh tracker `ConnectStart` followed by
`ConnectDone` with an error records no span, the connect context being nil. -/
theorem scenario_dial_without_getConn_records_nothing :
    run (fresh (some background))
        [.connectStart "tcp" "addr", .connectDone "tcp" "addr" (some "connection refused")]
      = .ok (fresh (some background)) ∧
    (fresh (some background)).spans = [] :=
  ⟨rfl, rfl⟩

/-- C13 (amended): on a fresh tracker (any non-nil parent) on which `GetConn`
has been invoked, `ConnectStart` followed by `ConnectDone("tcp", "addr", e)`
with a present error `e` runs without panic and leaves, besides the open
connect span, exactly one more span: the dial span, child of the connect span,
finished once, carrying `error=true` and `network=tcp`, with the one log record
`errors=e`; so no request or response span is recorded, and the request and
response contexts stay nil. -/
theorem scenario_failed_dial (op : Ctx) (hostPort network addr e : String) :
    ∃ s, run (fresh (some op))
        [.getConn hostPort, .connectStart network addr, .connectDone "tcp" "addr" (some e)]
          = .ok s ∧
      s.spans = [{ name := "connect", parent := SpanFromContext op },
                 { name := "dial", parent := some 0,
                   tags := [("error", .bool true), ("network", .str "tcp")],
                   logs := [[("errors", e)]], finished := 1 }] ∧
      s.xt.reqCtx = none ∧ s.xt.responseCtx = none :=
  ⟨_, rfl, rfl, rfl, rfl⟩


/-! ### `WroteRequest` on an open request span; hooks without `GetConn` -/

/-- C19: on a well-formed state whose request span is open, `WroteRequest` with
any payload returns normally; the request span stays recorded and is finished
(once, unless the connect context names the very same span), it carries
`error=true` exactly when the payload's error is present, with the log record
`errors=<text>` in that case and no log otherwise; exactly one span is added,
named `response`, child of the operation context's span and unfinished, and the
response context is set to it, whether or not the error is present. -/
theorem wroteRequest_on_open_request (s : State) (k : Nat) (sp : Span) (op : Ctx)
    (hwf : WellFormed s = true) (h : openSpan? s s.xt.reqCtx = some (k, sp))
    (hop : s.xt.opCtx = some op) (info : WroteRequestInfo) :
    ∃ s' sp', HTTPSpans.WroteRequest s info = .ok s' ∧ s'.spans[k]? = some sp' ∧
      sp'.name = sp.name ∧ sp'.parent = sp.parent ∧ 0 < sp'.finished ∧
      (phaseSpan s.xt .connect ≠ some k → sp'.finished = 1) ∧
      (sp'.tag "error" = some (.bool true) ↔ info.Err ≠ none) ∧
      (∀ e, info.Err = some e → sp'.logs = [[("errors", e)]]) ∧
      (info.Err = none → sp'.tag "error" = none ∧ sp'.logs = []) ∧
      s'.spans.length = s.spans.length + 1 ∧
      s'.spans[s.spans.length]? = some { name := "response", parent := SpanFromContext op } ∧
      s'.xt = { s.xt with responseCtx := some { op with span := some s.spans.length } } := by
  obtain ⟨r, hr, hk, hsp, hf⟩ := openSpan?_eq_some h
  obtain ⟨-, hres, hpr⟩ := (WellFormed_iff s).1 hwf
  obtain ⟨htags, hlogs⟩ := hpr sp (List.getElem?_mem hsp) hf
  have htag : ∀ key, sp.tag key = none := by intro key; simp [Span.tag, htags]
  obtain ⟨hlt, hget⟩ := List.getElem?_eq_some.1 hsp
  have hne2 : ¬ k = s.spans.length := Nat.ne_of_lt hlt
  rcases info with ⟨err⟩
  cases hc : s.xt.connCtx with
  | none =>
    cases err <;>
      simp [-List.getElem?_eq_getElem, HTTPSpans.WroteRequest, hr, hc, onSpan, SpanFromContext,
        hk, bind, Except.bind, pure, Except.pure, List.getElem?_modify, hsp, hf,
        StartSpanFromContext, hop, List.getElem?_append, hlt, htag, hlogs, hne2, phaseSpan,
        phaseCtx] <;> rfl
  | some c =>
    obtain ⟨i, hi, hilt⟩ := ctxResolves_some (by simpa [phaseCtx, hc] using hres .connect)
    have hne3 : ¬ i = s.spans.length := Nat.ne_of_lt hilt
    cases err <;> by_cases hik : i = k <;>
      simp [-List.getElem?_eq_getElem, HTTPSpans.WroteRequest, hr, hc, onSpan, SpanFromContext,
        hk, hi, bind, Except.bind, pure, Except.pure, List.getElem?_modify, hsp, hf,
        StartSpanFromContext, hop, List.getElem?_append, hlt, hilt, htag, hlogs, hne2, hne3,
        phaseSpan, phaseCtx, hik] <;> rfl

/-- Witness of C19: `WroteRequest` carrying a write error, after `GetConn` and
`GotConn`. -/
theorem wroteRequest_on_open_request_witness :
    ∃ s' sp', HTTPSpans.WroteRequest afterGotConn ⟨some "broken pipe"⟩ = .ok s' ∧
      s'.spans[1]? = some sp' ∧ sp'.finished = 1 ∧
      sp'.tag "error" = some (.bool true) ∧ sp'.logs = [[("errors", "broken pipe")]] ∧
      s'.spans[2]? = some { name := "response", parent := none } ∧
      s'.xt.responseCtx = some { id := 0, span := some 2 } := by
  obtain ⟨s', sp', h1, h2, -, -, -, h6, h7, h8, -, -, h11, h12⟩ :=
    wroteRequest_on_open_request afterGotConn 1 { name := "request", parent := none }
      background rfl rfl rfl ⟨some "broken pipe"⟩
  exact ⟨s', sp', h1, h2, h6 (by decide), h7.2 (by simp), h8 _ rfl, h11, by rw [h12]; rfl⟩

/-- A hook other than `GetConn` and `DNSStart` does nothing while every phase
context is nil. -/
theorem step_fresh (opCtx : Option Ctx) (spans : List Span) (h : Hook)
    (hh : neitherGetConnNorDNSStart h = true) :
    step { xt := NewHTTPSpans opCtx, spans := spans } h
      = .ok { xt := NewHTTPSpans opCtx, spans := spans } := by
  cases h <;> first | rfl | simp [neitherGetConnNorDNSStart] at hh

/-- C20: on a fresh tracker (whatever its parent context), take a hook sequence
that contains neither `GetConn` nor `DNSStart`.  After any number of its hooks
(all of them included) no hook has panicked, no span is recorded and every
phase context is nil: the tracker is exactly as it was built. -/
theorem no_getConn_no_spans (opCtx : Option Ctx) (hs pre post : List Hook)
    (hh : ∀ h ∈ hs, neitherGetConnNorDNSStart h = true) (hsplit : hs = pre ++ post) :
    ∃ s, run (fresh opCtx) pre = .ok s ∧ s.spans = [] ∧ (∀ p, phaseCtx s.xt p = none) ∧
      s = fresh opCtx := by
  refine ⟨fresh opCtx, ?_, rfl, fun p => by cases p <;> rfl, rfl⟩
  have hpre : ∀ h ∈ pre, neitherGetConnNorDNSStart h = true := by
    intro h hmem
    exact hh h (by rw [hsplit]; exact List.mem_append_left _ hmem)
  clear hsplit hh
  induction pre with
  | nil => rfl
  | cons h t ih =>
    have h1 : step (fresh opCtx) h = .ok (fresh opCtx) :=
      step_fresh opCtx [] h (hpre h (List.mem_cons_self _ _))
    simp only [run, h1]
    exact ih (fun x hx => hpre x (List.mem_cons_of_mem _ hx))

/-- Witness of C20: a dial, a handshake and a full request without `GetConn`,
seen at its end. -/
theorem no_getConn_no_spans_witness :
    ∃ s, run (fresh (some background))
        [.connectStart "tcp" "1.2.3.4:443", .connectDone "tcp" "1.2.3.4:443" none,
         .tlsHandshakeStart, .tlsHandshakeDone ⟨false, "h2", true, 4865⟩ none,
         .gotConn (some ⟨false, false, 0⟩) none, .wroteRequest ⟨none⟩,
         .gotFirstResponseByte] = .ok s ∧
      s.spans = [] ∧ (∀ p, phaseCtx s.xt p = none) ∧ s = fresh (some background) :=
  no_getConn_no_spans (some background) _ _ [] (by decide) (List.append_nil _).symm


/-! ### Lock discipline -/

/-- C18 (failing inputs): whatever the state of the tracker and the payload,
`DNSDone`, `ConnectDone`, `TLSHandshakeStart`, `TLSHandshakeDone`, `GotConn` and
`WroteRequest` access a phase-context field without holding the mutex, and so
does `GetConn` on a tracker with a non-nil operation context; only `DNSStart`,
`ConnectStart` and `GotFirstResponseByte` make all their accesses between
`Lock` and `Unlock`. -/
theorem phase_contexts_accessed_unlocked (xt : HTTPSpans) :
    (∀ info, lockGuarded (accesses xt (.dnsDone info)) = false) ∧
    (∀ network addr err, lockGuarded (accesses xt (.connectDone network addr err)) = false) ∧
    lockGuarded (accesses xt .tlsHandshakeStart) = false ∧
    (∀ connState err, lockGuarded (accesses xt (.tlsHandshakeDone connState err)) = false) ∧
    (∀ info err, lockGuarded (accesses xt (.gotConn info err)) = false) ∧
    (∀ info, lockGuarded (accesses xt (.wroteRequest info)) = false) ∧
    (∀ op hostPort,
      lockGuarded (accesses { xt with opCtx := some op } (.getConn hostPort)) = false) ∧
    (∀ info, lockGuarded (accesses xt (.dnsStart info)) = true) ∧
    (∀ network addr, lockGuarded (accesses xt (.connectStart network addr)) = true) ∧
    lockGuarded (accesses xt .gotFirstResponseByte) = true := by
  rcases xt with ⟨op, conn, dns, dial, tls, req, resp⟩
  refine ⟨?_, ?_, ?_, ?_, ?_, ?_, ?_, ?_, ?_, ?_⟩
  · intro _; cases dns <;> rfl
  · intro _ _ _; cases dial <;> rfl
  · cases conn <;> rfl
  · intro _ _; cases tls <;> rfl
  · intro _ _; cases conn <;> rfl
  · intro _; cases req <;> rfl
  · intro _ _; rfl
  · intro _; cases conn <;> rfl
  · intro _ _; cases conn <;> rfl
  · rfl

/-! ### The two sequential orders of `DNSDone` and `ConnectStart` -/

theorem modify_concat_of_lt {l : List Span} {f : Span → Span} {i : Nat} (x : Span)
    (h : i < l.length) : List.modify f i (l ++ [x]) = List.modify f i l ++ [x] := by
  apply List.ext_getElem?
  intro j
  by_cases hj : j < l.length
  · simp [-List.getElem?_eq_getElem, List.getElem?_modify, List.getElem?_append, hj]
  · have hij : ¬ i = j := by omega
    simp [-List.getElem?_eq_getElem, List.getElem?_modify, List.getElem?_append, hj, hij]

/-- On a well-formed state the two sequential orders of `DNSDone` and
`ConnectStart` return the same state: `DNSDone` only updates the recorded dns
span, `ConnectStart` only appends a span and sets the dial context. -/
theorem dnsDone_connectStart_commute (s : State) (hwf : WellFormed s = true)
    (info : DNSDoneInfo) (network addr : String) :
    (HTTPSpans.DNSDone s info >>= fun s1 => HTTPSpans.ConnectStart s1 network addr)
      = (HTTPSpans.ConnectStart s network addr >>= fun s1 => HTTPSpans.DNSDone s1 info) := by
  rcases s with ⟨⟨op, conn, dns, dial, tls, req, resp⟩, spans⟩
  have hdns : ∀ c, dns = some c → ∃ i, c.span = some i ∧ i < spans.length :=
    fun c hc => wf_resolves hwf (p := .dns) (c := c) (by simp [phaseCtx, hc])
  rcases info with ⟨coalesced, err⟩
  cases conn <;> cases dns <;> cases err <;>
    simp [HTTPSpans.DNSDone, HTTPSpans.ConnectStart, bind, Except.bind, pure, Except.pure,
      onSpan, StartSpanFromContext, SpanFromContext] at hdns ⊢
  all_goals
    obtain ⟨i, hi, hlt⟩ := hdns
    simp [hi, modify_concat_of_lt, hlt]

/-! ### The `GotConn` slot of the callback table -/

/-- C21: in every callback table built by `NewClientTrace`, the `GotConn` slot
applied to a state and an info is `GotConn` of the tracker applied to that info
and a nil error.  Hence, whenever the slot returns, every span recorded before
keeps its `error` tag and its log records and a span recorded by the call has
neither tag nor log: no `error` tag and no log come from the slot.  And on
every well-formed state whose connect context is present the slot returns
normally and adds exactly one span, named `request`, child of the operation
context's span, to which the request context is set. -/
theorem hookTable_gotConn_is_gotConn_without_error (recorded recorded' : List Span)
    (opCtx : Option Ctx) (ct : ClientTrace)
    (hct : NewClientTrace recorded opCtx = (.ok ct, recorded')) :
    (∀ s info, ct.httpTrace.GotConn s info = HTTPSpans.GotConn s (some info) none) ∧
    (∀ s info s', ct.httpTrace.GotConn s info = .ok s' →
      (∀ (j : Nat) (sp : Span), s.spans[j]? = some sp →
        ∃ sp', s'.spans[j]? = some sp' ∧ sp'.tag "error" = sp.tag "error" ∧
          sp'.logs = sp.logs) ∧
      (∀ (j : Nat) (sp' : Span), s'.spans[j]? = some sp' → s.spans.length ≤ j →
        sp'.tags = [] ∧ sp'.logs = [])) ∧
    (∀ s info c op, WellFormed s = true → s.xt.connCtx = some c → s.xt.opCtx = some op →
      ∃ s', ct.httpTrace.GotConn s info = .ok s' ∧
        s'.spans.length = s.spans.length + 1 ∧
        s'.spans[s.spans.length]? = some { name := "request", parent := SpanFromContext op } ∧
        s'.xt = { s.xt with reqCtx := some { op with span := some s.spans.length } }) := by
  have hslot : ct.httpTrace.GotConn = fun s info => HTTPSpans.GotConn s (some info) none := by
    cases opCtx with
    | none => simp [NewClientTrace] at hct
    | some op =>
      simp only [NewClientTrace, Prod.mk.injEq, Except.ok.injEq] at hct
      rw [← hct.1]
  refine ⟨fun s info => by rw [hslot], ?_, ?_⟩
  · intro s info s' hs
    rw [hslot] at hs
    rcases s with ⟨⟨op, conn, dns, dial, tls, req, resp⟩, spans⟩
    rcases info with ⟨reused, wasIdle, idleTime⟩
    cases conn with
    | none =>
      simp [HTTPSpans.GotConn, pure, Except.pure] at hs
      subst hs
      exact ⟨fun j sp h => ⟨sp, h, rfl, rfl⟩, fun j sp' h hj => by
        have := (List.getElem?_eq_some.1 h).1
        simp at this hj
        omega⟩
    | some c =>
      rcases c with ⟨cid, cspan⟩
      cases cspan with
      | none => cases wasIdle <;> simp [HTTPSpans.GotConn, onSpan, SpanFromContext, bind,
          Except.bind] at hs
      | some i =>
        cases op with
        | none => cases wasIdle <;> simp [HTTPSpans.GotConn, onSpan, SpanFromContext, bind,
            Except.bind, StartSpanFromContext, pure, Except.pure] at hs
        | some o =>
          cases wasIdle <;>
            simp [HTTPSpans.GotConn, onSpan, SpanFromContext, bind, Except.bind,
              StartSpanFromContext, pure, Except.pure] at hs <;>
            subst hs <;>
            refine ⟨fun j sp h => ?_, fun j sp' h hj => ?_⟩
          · have hlt : j < spans.length := (List.getElem?_eq_some.1 h).1
            have h0 : spans[j]? = some sp := h
            by_cases hij : i = j <;>
              simp [-List.getElem?_eq_getElem, List.getElem?_modify, List.getElem?_append, hlt,
                h0, hij]
          · have hj0 : spans.length ≤ j := hj
            have hlt : j < spans.length + 1 := by
              have := (List.getElem?_eq_some.1 h).1
              simpa using this
            have hjl : j = spans.length := by omega
            subst hjl
            by_cases hij : i = spans.length <;>
              simp [-List.getElem?_eq_getElem, List.getElem?_modify, List.getElem?_append,
                hij] at h
            · obtain ⟨a, ha, rfl⟩ := h
              simp at ha
              subst ha
              exact ⟨rfl, rfl⟩
            · simp at h
              subst h
              exact ⟨rfl, rfl⟩
          · have hlt : j < spans.length := (List.getElem?_eq_some.1 h).1
            have h0 : spans[j]? = some sp := h
            by_cases hij : i = j <;>
              simp [-List.getElem?_eq_getElem, List.getElem?_modify, List.getElem?_append, hlt,
                h0, hij]
          · have hj0 : spans.length ≤ j := hj
            have hlt : j < spans.length + 1 := by
              have := (List.getElem?_eq_some.1 h).1
              simpa using this
            have hjl : j = spans.length := by omega
            subst hjl
            by_cases hij : i = spans.length <;>
              simp [-List.getElem?_eq_getElem, List.getElem?_modify, List.getElem?_append,
                hij] at h
            · obtain ⟨a, ha, rfl⟩ := h
              simp at ha
              subst ha
              exact ⟨rfl, rfl⟩
            · simp at h
              subst h
              exact ⟨rfl, rfl⟩
  · intro s info c op hwf hc hop
    rw [hslot]
    obtain ⟨i, hi, hlt⟩ := wf_resolves hwf (p := .connect) (c := c) (by simpa [phaseCtx] using hc)
    have hne : ¬ i = s.spans.length := Nat.ne_of_lt hlt
    cases hw : info.WasIdle <;>
      simp [-List.getElem?_eq_getElem, HTTPSpans.GotConn, hc, onSpan, SpanFromContext, hi,
        bind, Except.bind, pure, Except.pure, List.getElem?_modify, StartSpanFromContext, hop,
        hw, List.getElem?_append, hne] <;> rfl

/-- Witness of C21: the callback table built on `background`, its `GotConn`
slot invoked right after `GetConn`. -/
theorem hookTable_gotConn_is_gotConn_without_error_witness :
    ∃ ct s', NewClientTrace [] (some background) = (.ok ct, []) ∧
      ct.httpTrace.GotConn afterGetConn ⟨true, false, 0⟩
        = HTTPSpans.GotConn afterGetConn (some ⟨true, false, 0⟩) none ∧
      ct.httpTrace.GotConn afterGetConn ⟨true, false, 0⟩ = .ok s' ∧
      s'.spans.length = 2 ∧ s'.spans[1]? = some { name := "request", parent := none } ∧
      s'.xt.reqCtx = some { id := 0, span := some 1 } := by
  obtain ⟨h1, -, h3⟩ :=
    hookTable_gotConn_is_gotConn_without_error [] [] (some background) _ rfl
  obtain ⟨s', h4, h5, h6, h7⟩ := h3 afterGetConn ⟨true, false, 0⟩ _ background rfl rfl rfl
  exact ⟨_, s', rfl, h1 _ _, h4, h5, h6, by rw [h7]; rfl⟩

end Xrayport

/-! # Properties of `objcheck.go` -/

namespace Objcheck

open Xrayport

set_option linter.unnecessarySeqFocus false

/-! ## Request validation -/

/-- The value `services[k]` is true for `gcs` and `s3` only. -/
theorem services_get (k : String) :
    (services.lookup k).getD false = true ↔ k = "gcs" ∨ k = "s3" := by
  by_cases h1 : k = "gcs"
  · subst h1; decide
  by_cases h2 : k = "s3"
  · subst h2; decide
  have b1 : (k == "gcs") = false := by simpa using h1
  have b2 : (k == "s3") = false := by simpa using h2
  simp [services, List.lookup, b1, b2, h1, h2]

/-- The value `bucketRegions[k]`, by cases on the key. -/
theorem bucketRegions_get (k : String) :
    (k ∈ ["us-central1", "us-east1", "europe-west2", "asia-east2"] ∧
      bucketRegions.lookup k = some "gcs") ∨
    (k ∈ ["us-east-2", "us-west-2", "us-east-1", "eu-west-2"] ∧
      bucketRegions.lookup k = some "s3") ∨
    (k ∉ ["us-central1", "us-east1", "europe-west2", "asia-east2", "us-east-2", "us-west-2",
        "us-east-1", "eu-west-2"] ∧ bucketRegions.lookup k = none) := by
  by_cases h1 : k = "us-central1"
  · subst h1; decide
  by_cases h2 : k = "us-east1"
  · subst h2; decide
  by_cases h3 : k = "europe-west2"
  · subst h3; decide
  by_cases h4 : k = "asia-east2"
  · subst h4; decide
  by_cases h5 : k = "us-east-2"
  · subst h5; decide
  by_cases h6 : k = "us-west-2"
  · subst h6; decide
  by_cases h7 : k = "us-east-1"
  · subst h7; decide
  by_cases h8 : k = "eu-west-2"
  · subst h8; decide
  refine Or.inr (Or.inr ⟨by simp [h1, h2, h3, h4, h5, h6, h7, h8], ?_⟩)
  have b1 : (k == "us-central1") = false := by simpa using h1
  have b2 : (k == "us-east1") = false := by simpa using h2
  have b3 : (k == "europe-west2") = false := by simpa using h3
  have b4 : (k == "asia-east2") = false := by simpa using h4
  have b5 : (k == "us-east-2") = false := by simpa using h5
  have b6 : (k == "us-west-2") = false := by simpa using h6
  have b7 : (k == "us-east-1") = false := by simpa using h7
  have b8 : (k == "eu-west-2") = false := by simpa using h8
  simp [bucketRegions, List.lookup, b1, b2, b3, b4, b5, b6, b7, b8]

/-- C14: `validate` returns no error exactly when the service is `gcs` and the
region one of the four regions of `gcs` (`us-central1`, `us-east1`,
`europe-west2`, `asia-east2`), or the service is `s3` and the region one of the
four regions of `s3` (`us-east-2`, `us-west-2`, `us-east-1`, `eu-west-2`), and
moreover the pool is 10 and the count lies between 1 and 1000. -/
theorem validate_accepts_iff (ocr : objCheckRequest) :
    ocr.validate = none ↔
      ((ocr.Service = "gcs" ∧
          ocr.Region ∈ ["us-central1", "us-east1", "europe-west2", "asia-east2"]) ∨
        (ocr.Service = "s3" ∧
          ocr.Region ∈ ["us-east-2", "us-west-2", "us-east-1", "eu-west-2"])) ∧
      ocr.Pool = 10 ∧ 1 ≤ ocr.Count ∧ ocr.Count ≤ 1000 := by
  rcases ocr with ⟨svc, reg, pool, cnt⟩
  have hs := services_get svc
  simp only [objCheckRequest.validate]
  rcases bucketRegions_get reg with ⟨hm, hl⟩ | ⟨hm, hl⟩ | ⟨hm, hl⟩
  · simp only [List.mem_cons, List.mem_singleton, List.not_mem_nil, or_false] at hm
    rcases hm with rfl | rfl | rfl | rfl <;>
      by_cases hg : svc = "gcs" <;> by_cases h3 : svc = "s3" <;>
      by_cases hp : pool = 10 <;> by_cases hc1 : cnt < 1 <;> by_cases hc2 : cnt > 1000 <;>
      simp_all [-List.lookup_eq_none_iff]
  · simp only [List.mem_cons, List.mem_singleton, List.not_mem_nil, or_false] at hm
    rcases hm with rfl | rfl | rfl | rfl <;>
      by_cases hg : svc = "gcs" <;> by_cases h3 : svc = "s3" <;>
      by_cases hp : pool = 10 <;> by_cases hc1 : cnt < 1 <;> by_cases hc2 : cnt > 1000 <;>
      simp_all [-List.lookup_eq_none_iff]
  · by_cases hg : svc = "gcs" <;> by_cases h3 : svc = "s3" <;>
      by_cases hp : pool = 10 <;> by_cases hc1 : cnt < 1 <;> by_cases hc2 : cnt > 1000 <;>
      simp_all [-List.lookup_eq_none_iff]

/-- C15: the error of `validate` is that of the first check that fails, in the
order service, region, service and region together, pool, count: `Bad service
<Service>` when the service is neither `gcs` nor `s3`; otherwise `Bad region
<Region>` when the region is none of the eight; otherwise `Bad service / region
combination: <Service> and <Region>` when the region belongs to the other
service; otherwise `Bad pool <Pool>` when the pool is not 10; otherwise `Bad
count` when the count is below 1 or above 1000. -/
theorem validate_reports_first_failure (ocr : objCheckRequest) :
    (¬ (ocr.Service = "gcs" ∨ ocr.Service = "s3") →
      ocr.validate = some ("Bad service " ++ ocr.Service)) ∧
    ((ocr.Service = "gcs" ∨ ocr.Service = "s3") →
      ocr.Region ∉ ["us-central1", "us-east1", "europe-west2", "asia-east2", "us-east-2",
        "us-west-2", "us-east-1", "eu-west-2"] →
      ocr.validate = some ("Bad region " ++ ocr.Region)) ∧
    ((ocr.Service = "gcs" ∨ ocr.Service = "s3") →
      ocr.Region ∈ ["us-central1", "us-east1", "europe-west2", "asia-east2", "us-east-2",
        "us-west-2", "us-east-1", "eu-west-2"] →
      bucketRegions.lookup ocr.Region ≠ some ocr.Service →
      ocr.validate = some ("Bad service / region combination: " ++ ocr.Service ++ " and "
        ++ ocr.Region)) ∧
    ((ocr.Service = "gcs" ∨ ocr.Service = "s3") →
      bucketRegions.lookup ocr.Region = some ocr.Service → ocr.Pool ≠ 10 →
      ocr.validate = some ("Bad pool " ++ toString ocr.Pool)) ∧
    ((ocr.Service = "gcs" ∨ ocr.Service = "s3") →
      bucketRegions.lookup ocr.Region = some ocr.Service → ocr.Pool = 10 →
      (ocr.Count < 1 ∨ 1000 < ocr.Count) → ocr.validate = some "Bad count") := by
  rcases ocr with ⟨svc, reg, pool, cnt⟩
  have hs := services_get svc
  simp only [objCheckRequest.validate]
  refine ⟨?_, ?_, ?_, ?_, ?_⟩
  · intro h
    have hv : ¬ (services.lookup svc).getD false = true := fun hv => h (hs.1 hv)
    simp [hv]
  · intro h hr
    have hv := hs.2 h
    rcases bucketRegions_get reg with ⟨hm, hl⟩ | ⟨hm, hl⟩ | ⟨hm, hl⟩
    · exact absurd (by
        simp only [List.mem_cons, List.mem_singleton, List.not_mem_nil, or_false] at hm ⊢
        tauto) hr
    · exact absurd (by
        simp only [List.mem_cons, List.mem_singleton, List.not_mem_nil, or_false] at hm ⊢
        tauto) hr
    · simp [hv, hl]
  · intro h _ hne
    have hv := hs.2 h
    rcases bucketRegions_get reg with ⟨hm, hl⟩ | ⟨hm, hl⟩ | ⟨hm, hl⟩ <;>
      rcases h with rfl | rfl <;> simp_all [-List.lookup_eq_none_iff]
  · intro h hl hp
    have hv := hs.2 h
    rcases h with rfl | rfl <;> simp [hv, hl, hp]
  · intro h hl hp hc
    have hv := hs.2 h
    have hc' : cnt < 1 ∨ cnt > 1000 := hc
    rcases h with rfl | rfl <;> simp [hv, hl, hp, hc']

/-- Witness of C15: five rejected requests, the first with both an unknown
service and a count out of range. -/
theorem validate_reports_first_failure_witness :
    objCheckRequest.validate ⟨"bb", "us-east1", 10, 10000⟩ = some "Bad service bb" ∧
    objCheckRequest.validate ⟨"gcs", "us-west-1", 10, 1⟩ = some "Bad region us-west-1" ∧
    objCheckRequest.validate ⟨"s3", "us-east1", 10, 1⟩
      = some "Bad service / region combination: s3 and us-east1" ∧
    objCheckRequest.validate ⟨"gcs", "us-central1", 99, 1⟩ = some "Bad pool 99" ∧
    objCheckRequest.validate ⟨"gcs", "us-central1", 10, -1⟩ = some "Bad count" :=
  ⟨(validate_reports_first_failure ⟨"bb", "us-east1", 10, 10000⟩).1 (by decide),
   (validate_reports_first_failure ⟨"gcs", "us-west-1", 10, 1⟩).2.1 (by decide) (by decide),
   (validate_reports_first_failure ⟨"s3", "us-east1", 10, 1⟩).2.2.1 (by decide) (by decide)
     (by decide),
   (validate_reports_first_failure ⟨"gcs", "us-central1", 99, 1⟩).2.2.2.1 (by decide)
     (by decide) (by decide),
   (validate_reports_first_failure ⟨"gcs", "us-central1", 10, -1⟩).2.2.2.2 (by decide)
     (by decide) (by decide) (by decide)⟩

/-! ## Object keys -/

/-- C16 (failing input): with a pool of one object and one key to draw,
`createObjList` panics, `rand.Intn` being called with `max - min = 0`. -/
theorem createObjList_pool_one_panics (src : Nat → Nat) (recorded : List Span) (ctx : Ctx)
    (size : String) :
    createObjList src recorded (some ctx) 1 1 size = .error "invalid argument to Intn" :=
  rfl

/-- With a pool size of zero or less `createObjList` returns the error `Bad
pool size` and no key, whatever the count; its span is tagged and finished. -/
theorem createObjList_bad_pool (src : Nat → Nat) (recorded : List Span) (ctx : Ctx)
    (poolSize count : Int) (size : String) (hp : poolSize ≤ 0) :
    ∃ spans, createObjList src recorded (some ctx) poolSize count size
      = .ok (([], some "Bad pool size"), spans) := by
  simp [createObjList, StartSpanFromContext, onSpan, bind, Except.bind, pure, Except.pure, hp]

/-- With a pool size of two or more the loop never panics: it appends one key
per iteration, each with an object id between 1 and `poolSize - 1`. -/
theorem objLoop_ok (src : Nat → Nat) (poolSize : Int) (size : String) (hp : 2 ≤ poolSize)
    (n i : Nat) (objects : List String) :
    ∃ keys, objLoop src poolSize size n i objects = .ok (objects ++ keys) ∧ keys.length = n ∧
      ∀ k ∈ keys, ∃ id : Int, 1 ≤ id ∧ id ≤ poolSize - 1 ∧ k = objectKey poolSize id size := by
  induction n generalizing i objects with
  | zero => exact ⟨[], by simp [objLoop], rfl, by simp⟩
  | succ n ih =>
    have hpos : ¬ poolSize - 1 ≤ 0 := by omega
    obtain ⟨keys, h1, h2, h3⟩ := ih (i + 1)
      (objects ++ [objectKey poolSize (Int.ofNat (src i % (poolSize - 1).toNat) + 1) size])
    refine ⟨objectKey poolSize (Int.ofNat (src i % (poolSize - 1).toNat) + 1) size :: keys,
      ?_, by simp [h2], ?_⟩
    · simp only [objLoop, Intn, if_neg hpos]
      rw [h1, List.append_assoc]
      rfl
    · intro k hk
      rcases List.mem_cons.1 hk with rfl | hk
      · refine ⟨Int.ofNat (src i % (poolSize - 1).toNat) + 1, ?_, ?_, rfl⟩
        · have : (0 : Int) ≤ Int.ofNat (src i % (poolSize - 1).toNat) := Int.ofNat_nonneg _
          omega
        · have hlt : src i % (poolSize - 1).toNat < (poolSize - 1).toNat :=
            Nat.mod_lt _ (by omega)
          have : (Int.ofNat (src i % (poolSize - 1).toNat) : Int) < poolSize - 1 := by
            have h4 : ((poolSize - 1).toNat : Int) = poolSize - 1 := Int.toNat_of_nonneg (by omega)
            have h5 : (Int.ofNat (src i % (poolSize - 1).toNat) : Int)
                < ((poolSize - 1).toNat : Int) := Int.ofNat_lt.2 hlt
            omega
          omega
      · exact h3 k hk

/-- With a pool size of two or more `createObjList` returns no error and
`count` keys (none when `count` is negative), each with an object id between 1
and `poolSize - 1`. -/
theorem createObjList_ok (src : Nat → Nat) (recorded : List Span) (ctx : Ctx)
    (poolSize count : Int) (size : String) (hp : 2 ≤ poolSize) :
    ∃ keys spans, createObjList src recorded (some ctx) poolSize count size
        = .ok ((keys, none), spans) ∧ keys.length = count.toNat ∧
      ∀ k ∈ keys, ∃ id : Int, 1 ≤ id ∧ id ≤ poolSize - 1 ∧ k = objectKey poolSize id size := by
  obtain ⟨keys, h1, h2, h3⟩ := objLoop_ok src poolSize size hp count.toNat 0 []
  have hpos : ¬ poolSize ≤ 0 := by omega
  refine ⟨keys, List.modify Span.Finish recorded.length
    (recorded ++ [({ name := "createObjList", parent := SpanFromContext ctx } : Span)]),
    ?_, h2, h3⟩
  simp only [createObjList, StartSpanFromContext, onSpan, bind, Except.bind, pure, Except.pure,
    if_neg hpos, h1, List.nil_append]

/-! ## Object keys of a validated request -/

/-- A request that `validate` accepts has `Pool = 10` and `1 <= Count <= 1000`. -/
theorem validate_pool_count (ocr : objCheckRequest) (hv : ocr.validate = none) :
    ocr.Pool = 10 ∧ 1 ≤ ocr.Count ∧ ocr.Count ≤ 1000 := by
  unfold objCheckRequest.validate at hv
  split_ifs at hv with h1 h2 h3 h4 h5
  omega

/-- The key of object `id` in the pool of ten with size `1k`. -/
theorem objectKey_ten (id : Int) : objectKey 10 id "1k" = "10_" ++ toString id ++ "_1k.obj" := by
  have h10 : toString (10 : Int) ++ "_" = "10_" := by decide
  have h1k : "_" ++ ("1k" ++ ".obj") = "_1k.obj" := by decide
  simp only [objectKey, h10, String.append_assoc, h1k]

/-- C22: for every request that `validate` accepts, every random source and
every non-nil context, `createObjList(ctx, Pool, Count, "1k")` does not panic,
returns no error and returns exactly `Count` keys, each of them
`10_<id>_1k.obj` for an integer `id` with `1 <= id <= 9`. -/
theorem createObjList_of_validated (ocr : objCheckRequest) (hv : ocr.validate = none)
    (src : Nat → Nat) (recorded : List Span) (ctx : Ctx) :
    ∃ keys spans, createObjList src recorded (some ctx) ocr.Pool ocr.Count "1k"
        = .ok ((keys, none), spans) ∧ (keys.length : Int) = ocr.Count ∧
      ∀ k ∈ keys, ∃ id : Int, 1 ≤ id ∧ id ≤ 9 ∧ k = "10_" ++ toString id ++ "_1k.obj" := by
  obtain ⟨hp, hc1, hc2⟩ := validate_pool_count ocr hv
  obtain ⟨keys, spans, h1, h2, h3⟩ :=
    createObjList_ok src recorded ctx ocr.Pool ocr.Count "1k" (by omega)
  refine ⟨keys, spans, h1, ?_, ?_⟩
  · rw [h2]
    exact Int.toNat_of_nonneg (by omega)
  · intro k hk
    obtain ⟨id, hid1, hid2, rfl⟩ := h3 k hk
    refine ⟨id, hid1, by omega, ?_⟩
    rw [hp]
    exact objectKey_ten id

/-- Witness of C22: three keys for an accepted request. -/
theorem createObjList_of_validated_witness :
    objCheckRequest.validate ⟨"gcs", "us-central1", 10, 3⟩ = none ∧
    ∃ keys spans, createObjList (fun i => 4 * i + 8) [] (some background) 10 3 "1k"
        = .ok ((keys, none), spans) ∧ (keys.length : Int) = 3 ∧
      ∀ k ∈ keys, ∃ id : Int, 1 ≤ id ∧ id ≤ 9 ∧ k = "10_" ++ toString id ++ "_1k.obj" :=
  ⟨by decide, createObjList_of_validated ⟨"gcs", "us-central1", 10, 3⟩ (by decide)
    (fun i => 4 * i + 8) [] background⟩

end Objcheck
